import Mathlib

/-!
Blockstor: configuration, tlog server, write cache, vdisk copy and storage cluster.

A shallow embedding of parts of the blockstor repository:

* `config/config.go`: `ParseCSStorageServerConfigStrings`, `Config.Validate` and the YAML
  methods of `VdiskType`;
* `tlog/tlogserver/server/server.go`: `Server.handshake`, `Server.hash` and `Server.handle`;
* `nbd/ardb/storage/cache.go`: `NewCache` and the background flusher;
* `zeroctl/cmd/copyvdisk/vdisk.go`: `copyVdisk`;
* `tlog/schema/tlog_schema.capnp.go`: the status of a `TlogResponse` and the fields of a
  `TlogBlock`;
* the vdisk manager of the tlog server, the cluster of storage servers and
  `MapErrorToBroadcastStatus`, which are declared outside these files.

Go strings are modelled as lists of characters (`List Char`), which agrees with Go's
byte-level behaviour on valid UTF-8 input for the operations used here: splitting and
joining on an ASCII separator and trimming Unicode white space.  Go's `int` is the 64-bit
signed integer type; values are kept in `Int` and the range limits of `strconv.Atoi` are
modelled explicitly.
-/

namespace Blockstor

/-! ## Go standard library functions used by the configuration parser -/

/-- Go's `unicode.IsSpace`: the Unicode White_Space property. -/
def isSpace (c : Char) : Bool :=
  let r := c.toNat
  (0x09 ≤ r && r ≤ 0x0d) || r == 0x20 || r == 0x85 || r == 0xa0 || r == 0x1680 ||
  (0x2000 ≤ r && r ≤ 0x200a) || r == 0x2028 || r == 0x2029 || r == 0x202f ||
  r == 0x205f || r == 0x3000

/-- Go's `strings.TrimLeftFunc(s, unicode.IsSpace)`. -/
def trimLeft : List Char → List Char
  | [] => []
  | c :: cs => if isSpace c then trimLeft cs else c :: cs

/-- Go's `strings.TrimRightFunc(s, unicode.IsSpace)`. -/
def trimRight (s : List Char) : List Char :=
  (trimLeft s.reverse).reverse

/-- Go's `strings.TrimSpace`: drop leading and trailing white space. -/
def TrimSpace (s : List Char) : List Char :=
  trimRight (trimLeft s)

/-- Go's `strings.Split(s, sep)` for a separator of one character.  The result has one more
element than the separator has occurrences; in particular the empty string gives `[""]`. -/
def Split (sep : Char) : List Char → List (List Char)
  | [] => [[]]
  | c :: cs =>
    if c = sep then [] :: Split sep cs
    else
      match Split sep cs with
      | [] => [[c]]
      | p :: ps => (c :: p) :: ps

/-- Go's `strings.Join(parts, sep)` for a separator of one character. -/
def Join (sep : Char) : List (List Char) → List Char
  | [] => []
  | [p] => p
  | p :: q :: ps => p ++ sep :: Join sep (q :: ps)

/-- The two kinds of `strconv.NumError`. -/
inductive NumError where
  | ErrSyntax
  | ErrRange
deriving DecidableEq, Repr

/-- Largest `uint64`. -/
def maxUint64 : Nat := 2 ^ 64 - 1

/-- The digit loop of `strconv.ParseUint(s, 10, 64)`, with `n` the value accumulated so far.
The loop returns at the first character that is not a digit (value 0, syntax error) and at
the first overflow (value `maxUint64`, range error). -/
def parseUintLoop : List Char → Nat → Nat × Option NumError
  | [], n => (n, none)
  | c :: cs, n =>
    if 48 ≤ c.toNat ∧ c.toNat ≤ 57 then
      let v := c.toNat - 48
      if n ≥ maxUint64 / 10 + 1 then (maxUint64, some NumError.ErrRange)
      else
        let nb := n * 10
        let n1 := (nb + v) % 2 ^ 64
        if n1 < nb ∨ n1 > maxUint64 then (maxUint64, some NumError.ErrRange)
        else parseUintLoop cs n1
    else (0, some NumError.ErrSyntax)

/-- Go's `strconv.ParseUint(s, 10, 64)`. -/
def ParseUint (s : List Char) : Nat × Option NumError :=
  match s with
  | [] => (0, some NumError.ErrSyntax)
  | _ => parseUintLoop s 0

/-- Go's `strconv.ParseInt(s, 10, 64)`: an optional sign followed by decimal digits.  On a
range error the nearest representable value is returned next to the error. -/
def ParseInt (s : List Char) : Int × Option NumError :=
  match s with
  | [] => (0, some NumError.ErrSyntax)
  | c :: cs =>
    let neg := c = '-'
    let digits := if c = '+' ∨ c = '-' then cs else c :: cs
    match ParseUint digits with
    | (_, some NumError.ErrSyntax) => (0, some NumError.ErrSyntax)
    | (un, _) =>
      if ¬ neg ∧ un ≥ 2 ^ 63 then ((2 : Int) ^ 63 - 1, some NumError.ErrRange)
      else if neg ∧ un > 2 ^ 63 then (-(2 : Int) ^ 63, some NumError.ErrRange)
      else (if neg then -(un : Int) else (un : Int), none)

/-- Go's `strconv.Atoi` on a platform whose `int` has 64 bits. -/
def Atoi (s : List Char) : Int × Option NumError :=
  ParseInt s

/-! ## `config/config.go` -/

/-- StorageServerConfig defines the config for a storage server. -/
structure StorageServerConfig where
  Address : List Char
  Database : Int
deriving DecidableEq, Repr

/-- StorageClusterConfig defines the config for a storageCluster. -/
structure StorageClusterConfig where
  DataStorage : List StorageServerConfig
  MetaDataStorage : StorageServerConfig
deriving DecidableEq, Repr

/-- VdiskConfig defines the config for a vdisk. -/
structure VdiskConfig where
  Blocksize : Nat
  ReadOnly : Bool
  Size : Nat
  Storagecluster : String
  RootStorageCluster : String
  TlogStoragecluster : String
  Type' : String
deriving DecidableEq, Repr

/-- Config for the nbdserver backends.  The two Go maps are kept as association lists, in
the order in which `range` visits them. -/
structure Config where
  StorageClusters : List (String × StorageClusterConfig)
  Vdisks : List (String × VdiskConfig)
deriving DecidableEq, Repr

/-- The error of `ParseCSStorageServerConfigStrings`:
`"%s is not a valid storage address"`, carrying the rejected address. -/
inductive ParseError where
  | invalidAddress (address : List Char)
deriving DecidableEq, Repr

/-- The body of the loop of `ParseCSStorageServerConfigStrings` up to the validation: the
config that is read from one trimmed, non-empty entry. -/
def entryConfig (dialConfigString : List Char) : StorageServerConfig :=
  let parts := Split '@' dialConfigString
  let n := parts.length
  if n < 2 then
    { Address := dialConfigString, Database := 0 }
  else
    let r := Atoi (parts.getD (n - 1) [])
    let n := if r.2.isSome then n + 1 else n
    { Address := Join '@' (parts.take (n - 1)), Database := r.1 }

/-- The loop of `ParseCSStorageServerConfigStrings` over the comma-separated entries, with
`configs` the result accumulated so far.  `isDialString` stands for
`govalidator.IsDialString`. -/
def parseLoop (isDialString : List Char → Bool) :
    List (List Char) → List StorageServerConfig → List StorageServerConfig × Option ParseError
  | [], configs => (configs, none)
  | raw :: rest, configs =>
    let dialConfigString := TrimSpace raw
    if dialConfigString = [] then parseLoop isDialString rest configs
    else
      let cfg := entryConfig dialConfigString
      if ! isDialString cfg.Address then (configs, some (ParseError.invalidAddress cfg.Address))
      else parseLoop isDialString rest (configs ++ [cfg])

/-- ParseCSStorageServerConfigStrings parses a comma-separated list of dial config strings
`<ip>:<port>[@<db_index>]`.  It returns the configs read so far together with the error, as
the Go function does through its named results. -/
def ParseCSStorageServerConfigStrings (isDialString : List Char → Bool)
    (dialCSConfigString : List Char) : List StorageServerConfig × Option ParseError :=
  if dialCSConfigString = [] then ([], none)
  else parseLoop isDialString (Split ',' dialCSConfigString) []

/-- The error of `Config.Validate`. -/
inductive ValidateError where
  | structInvalid (msg : String)
  | unexistingClusters (vdiskID : String) (storageClusters : List String)
deriving DecidableEq, Repr

/-- The clusters a vdisk references, as collected at the start of the loop body of
`Config.Validate`. -/
def referencedClusters (vdisk : VdiskConfig) : List String :=
  let storageClusters := [vdisk.Storagecluster]
  let storageClusters :=
    if vdisk.RootStorageCluster ≠ "" then storageClusters ++ [vdisk.RootStorageCluster]
    else storageClusters
  if vdisk.TlogStoragecluster ≠ "" then storageClusters ++ [vdisk.TlogStoragecluster]
  else storageClusters

/-- The innermost loop of `Config.Validate`: the first name equal to `clusterID` is cut out
of the slice, and the loop stops there. -/
def removeCluster (clusterID : String) : List String → List String
  | [] => []
  | name :: rest => if name = clusterID then rest else name :: removeCluster clusterID rest

/-- The loop of `Config.Validate` over the keys of `StorageClusters`; it stops as soon as no
referenced name is left. -/
def pruneClusters : List String → List String → List String
  | [], storageClusters => storageClusters
  | clusterID :: clusterIDs, storageClusters =>
    let storageClusters := removeCluster clusterID storageClusters
    if storageClusters.length = 0 then storageClusters
    else pruneClusters clusterIDs storageClusters

/-- The loop of `Config.Validate` over the vdisks: the first vdisk with a name left over
gives the error. -/
def validateVdisks (clusterIDs : List String) : List (String × VdiskConfig) → Option ValidateError
  | [] => none
  | (vdiskID, vdisk) :: rest =>
    let storageClusters := pruneClusters clusterIDs (referencedClusters vdisk)
    if storageClusters.length > 0 then
      some (ValidateError.unexistingClusters vdiskID storageClusters)
    else validateVdisks clusterIDs rest

/-- Validate the Config.  `validateStruct` stands for `govalidator.ValidateStruct`, the check
of the struct tags; `none` is the nil error. -/
def Config.Validate (validateStruct : Config → Option String) (cfg : Config) :
    Option ValidateError :=
  match validateStruct cfg with
  | some msg => some (ValidateError.structInvalid msg)
  | none => validateVdisks (cfg.StorageClusters.map Prod.fst) cfg.Vdisks

/-! ## Rendering of storage-server configs as dial config strings -/

/-- Go's `strconv.Itoa`: the decimal rendering of an integer, with a leading `-` for a
negative one. -/
def Itoa (n : Int) : List Char :=
  if n < 0 then '-' :: Nat.toDigits 10 n.natAbs else Nat.toDigits 10 n.natAbs

/-- The dial config string of one storage server: `<address>@<db>` with the database in
decimal; when the database is 0 and `withDB` is false, the address alone. -/
def renderConfig (cfg : StorageServerConfig) (withDB : Bool) : List Char :=
  if cfg.Database = 0 ∧ withDB = false then cfg.Address
  else cfg.Address ++ '@' :: Itoa cfg.Database

/-- One entry of a comma-separated dial config string: either white space only, or the
rendering of a config with white space before and after it. -/
inductive CSEntry where
  | blank (ws : List Char)
  | server (pre : List Char) (cfg : StorageServerConfig) (withDB : Bool) (post : List Char)
deriving DecidableEq, Repr

/-- The text of an entry. -/
def CSEntry.text : CSEntry → List Char
  | CSEntry.blank ws => ws
  | CSEntry.server pre cfg withDB post => pre ++ renderConfig cfg withDB ++ post

/-- The config an entry stands for, if any. -/
def CSEntry.config : CSEntry → Option StorageServerConfig
  | CSEntry.blank _ => none
  | CSEntry.server _ cfg _ _ => some cfg

/-- An entry is well formed when its padding is white space, its address is accepted by
`isDialString` and its database is in the range of Go's `int`. -/
def CSEntry.WellFormed (isDialString : List Char → Bool) : CSEntry → Prop
  | CSEntry.blank ws => ∀ c ∈ ws, isSpace c = true
  | CSEntry.server pre cfg _ post =>
    (∀ c ∈ pre, isSpace c = true) ∧ (∀ c ∈ post, isSpace c = true) ∧
    isDialString cfg.Address = true ∧
    -(2 : Int) ^ 63 ≤ cfg.Database ∧ cfg.Database < (2 : Int) ^ 63

instance (isDialString : List Char → Bool) : DecidablePred (CSEntry.WellFormed isDialString) :=
  fun e => by
    cases e <;> unfold CSEntry.WellFormed <;> infer_instance

/-- A simple dial-string check used to instantiate `isDialString` in examples: a non-empty
string of digits, lower-case letters, `.`, `/` and `:` that contains a `:`. -/
def sampleIsDialString (s : List Char) : Bool :=
  s.contains ':' &&
  s.all (fun c => (46 ≤ c.toNat && c.toNat ≤ 58) || (97 ≤ c.toNat && c.toNat ≤ 122))

/-! ## `tlog/tlogserver/server/server.go` -/

deriving instance DecidableEq for Except

/-- The handshake status codes of package `tlog`. -/
inductive HandshakeStatus where
  | OK
  | InvalidRequest
  | InvalidVersion
  | InvalidVdiskID
  | InternalServerError
deriving DecidableEq, Repr

/-- Modelled from the spec: the int8 value of a handshake status, which package `tlog`
declares outside the files at hand: OK=0, InvalidReq=-1, InvalidVersion=-2,
InvalidVdiskID=-3, Internal=-4. -/
def HandshakeStatus.Int8 : HandshakeStatus → Int
  | HandshakeStatus.OK => 0
  | HandshakeStatus.InvalidRequest => -1
  | HandshakeStatus.InvalidVersion => -2
  | HandshakeStatus.InvalidVdiskID => -3
  | HandshakeStatus.InternalServerError => -4

/-- The block status codes of package `tlog`. -/
inductive BlockStatus where
  | RecvOK
  | FlushOK
  | RecvFailed
  | FlushFailed
  | Disconnected
deriving DecidableEq, Repr

/-- Modelled from the spec: the int8 value of a block status, which package `tlog` declares
outside the files at hand: RecvOK=1, FlushOK=2, RecvFailed=-1, FlushFailed=-2,
Disconnected=-3. -/
def BlockStatus.Int8 : BlockStatus → Int
  | BlockStatus.RecvOK => 1
  | BlockStatus.FlushOK => 2
  | BlockStatus.RecvFailed => -1
  | BlockStatus.FlushFailed => -2
  | BlockStatus.Disconnected => -3

/-- The decoded handshake request; `VdiskID` is the result of the accessor `req.VdiskID()`,
which can fail. -/
structure HandshakeRequest where
  Version : Nat
  VdiskID : Except String String
  FirstSequence : Nat
deriving DecidableEq

/-- The decoded tlog block of `tlog_schema.capnp.go`; the accessors of the pointer fields
(`VdiskID`, `Hash`, `Data`) can fail. -/
structure TlogBlock where
  VdiskID : Except String String
  Sequence : Nat
  Lba : Nat
  Size : Nat
  Hash : Except String (List Nat)
  Data : Except String (List Nat)
  Timestamp : Nat
  Operation : Nat
deriving DecidableEq

/-- BlockResponse is the response put on the response channel of a vdisk. -/
structure BlockResponse where
  Status : Int
  Sequences : List Nat
deriving DecidableEq, Repr

/-- The per-vdisk slot of the vdisk manager; its channels appear as events. -/
structure Vdisk where
  vdiskID : String
deriving DecidableEq, Repr

/-- What the tlog server depends on and `server.go` does not define: the comparison of
versions (`Version.Compare`), `tlog.MinSupportedVersion`, `blockstor.CurrentVersion`, the
vdisk manager's `get`, giving an error or the vdisk with the `created` flag, and
`blockstor.HashBytes`. -/
structure Server where
  Compare : Nat → Nat → Int
  MinSupportedVersion : Nat
  CurrentVersion : Nat
  vdiskMgrGet : String → Nat → Except String (Vdisk × Bool)
  HashBytes : List Nat → List Nat

/-- The errors `handshake` returns. -/
inductive HandshakeError where
  | decode (cause : String)
  | unsupportedVersion (clientVersion : Nat)
  | vdiskID (cause : String)
  | createVdisk (vdiskID : String) (cause : String)
deriving DecidableEq, Repr

/-- The errors `handle` returns. -/
inductive HandleError where
  | handshakeFailed (cause : HandshakeError)
  | decode (cause : String)
  | blockField (cause : String)
  | hashIncorrect
deriving DecidableEq, Repr

/-- What a connection handler does that is visible outside of it, in order. -/
inductive Event where
  | startSendResp (vdiskID : String)
  | writeHandshakeResponse (version : Nat) (status : Int)
  | decodeBlock
  | enqueue (block : TlogBlock)
  | respond (resp : BlockResponse)
  | close
deriving DecidableEq

/-- The outcome of `handshake`: the returned vdisk or error, the status the deferred call
hands to `writeHandshakeResponse`, and whether the response sender was started. -/
structure HandshakeResult where
  result : Except HandshakeError Vdisk
  status : HandshakeStatus
  senderStarted : Bool

/-- The handshake stage, required prior to receiving blocks.  `decoded` is the result of
`readDecodeHandshakeRequest`. -/
def Server.handshake (s : Server) (decoded : Except String HandshakeRequest) :
    HandshakeResult :=
  match decoded with
  | Except.error e =>
    { result := Except.error (HandshakeError.decode e),
      status := HandshakeStatus.InvalidRequest, senderStarted := false }
  | Except.ok req =>
    if s.Compare req.Version s.MinSupportedVersion < 0 then
      { result := Except.error (HandshakeError.unsupportedVersion req.Version),
        status := HandshakeStatus.InvalidVersion, senderStarted := false }
    else
      match req.VdiskID with
      | Except.error e =>
        { result := Except.error (HandshakeError.vdiskID e),
          status := HandshakeStatus.InvalidVdiskID, senderStarted := false }
      | Except.ok vdiskID =>
        match s.vdiskMgrGet vdiskID req.FirstSequence with
        | Except.error e =>
          { result := Except.error (HandshakeError.createVdisk vdiskID e),
            status := HandshakeStatus.InternalServerError, senderStarted := false }
        | Except.ok (vd, created) =>
          { result := Except.ok vd, status := HandshakeStatus.OK, senderStarted := created }

/-- The events of a handshake: the response sender is started inside the body, the response
is written by the deferred call when the function returns. -/
def Server.handshakeEvents (s : Server) (decoded : Except String HandshakeRequest) :
    List Event :=
  let r := s.handshake decoded
  let start :=
    match r.senderStarted, r.result with
    | true, Except.ok vd => [Event.startSendResp vd.vdiskID]
    | _, _ => []
  start ++ [Event.writeHandshakeResponse s.CurrentVersion r.status.Int8]

/-- Hash tlog data and check against the given hash from the client.  The comparison
`expectedHash.Equals(hash)` is equality of the two byte strings. -/
def Server.hash (s : Server) (tlb : TlogBlock) : Option HandleError :=
  match tlb.Data with
  | Except.error e => some (HandleError.blockField e)
  | Except.ok data =>
    match tlb.Hash with
    | Except.error e => some (HandleError.blockField e)
    | Except.ok rawHash =>
      if rawHash ≠ s.HashBytes data then some HandleError.hashIncorrect else none

/-- The events of one turn of the loop of `handle` that accepts `block`. -/
def acceptEvents (block : TlogBlock) : List Event :=
  [Event.decodeBlock, Event.enqueue block,
   Event.respond { Status := BlockStatus.RecvOK.Int8, Sequences := [block.Sequence] }]

/-- The loop of `handle`.  `reads` lists what the successive calls of `ReadDecodeBlock` give
on this connection; after the last one the stream is at its end and decoding fails with
`EOF`.  The loop only ends with an error. -/
def Server.handleLoop (s : Server) : List (Except String TlogBlock) → List Event × HandleError
  | [] => ([Event.decodeBlock], HandleError.decode "EOF")
  | Except.error e :: _ => ([Event.decodeBlock], HandleError.decode e)
  | Except.ok block :: rest =>
    match s.hash block with
    | some e => ([Event.decodeBlock], e)
    | none =>
      let r := s.handleLoop rest
      (acceptEvents block ++ r.1, r.2)

/-- The handler of one connection: the events in order, ending with the deferred
`conn.Close()`, and the error returned. -/
def Server.handle (s : Server) (decoded : Except String HandshakeRequest)
    (reads : List (Except String TlogBlock)) : List Event × HandleError :=
  match (s.handshake decoded).result with
  | Except.error e =>
    (s.handshakeEvents decoded ++ [Event.close], HandleError.handshakeFailed e)
  | Except.ok _ =>
    let r := s.handleLoop reads
    (s.handshakeEvents decoded ++ r.1 ++ [Event.close], r.2)

/-! ## Sample inputs -/

/-- A dial config string in pieces: `" 10.0.0.1:16379@5,,10.0.0.2:16379 , "`. -/
def sampleEntries : List CSEntry :=
  [CSEntry.server [' '] { Address := "10.0.0.1:16379".toList, Database := 5 } true [],
   CSEntry.blank [],
   CSEntry.server [] { Address := "10.0.0.2:16379".toList, Database := 0 } false [' '],
   CSEntry.blank [' ']]

/-- A storage cluster of one server. -/
def sampleCluster : StorageClusterConfig :=
  { DataStorage := [{ Address := "10.0.0.1:16379".toList, Database := 0 }],
    MetaDataStorage := { Address := "10.0.0.1:16379".toList, Database := 1 } }

/-- A config whose only vdisk uses the one existing cluster both for its data and for its
tlog. -/
def sharedClusterConfig : Config :=
  { StorageClusters := [("mycluster", sampleCluster)],
    Vdisks := [("myvdisk",
      { Blocksize := 4096, ReadOnly := false, Size := 10, Storagecluster := "mycluster",
        RootStorageCluster := "", TlogStoragecluster := "mycluster", Type' := "boot" })] }

/-- A config whose only vdisk names a tlog cluster that does not exist. -/
def danglingClusterConfig : Config :=
  { StorageClusters := [("mycluster", sampleCluster)],
    Vdisks := [("myvdisk",
      { Blocksize := 4096, ReadOnly := false, Size := 10, Storagecluster := "mycluster",
        RootStorageCluster := "", TlogStoragecluster := "tlogcluster", Type' := "boot" })] }

/-- A server that supports versions from 3 on, whose vdisk manager creates a slot for every
non-empty vdiskID, and whose hash is a byte sum. -/
def sampleServer : Server where
  Compare := fun a b => (a : Int) - (b : Int)
  MinSupportedVersion := 3
  CurrentVersion := 5
  vdiskMgrGet := fun vdiskID _ =>
    if vdiskID = "" then Except.error "no vdiskID" else Except.ok ({ vdiskID := vdiskID }, true)
  HashBytes := fun data => [data.sum % 256]

/-- A handshake request the sample server accepts. -/
def sampleRequest : HandshakeRequest :=
  { Version := 3, VdiskID := Except.ok "myvdisk", FirstSequence := 0 }

/-- A handshake request whose version is one below the minimum the sample server supports. -/
def oldRequest : HandshakeRequest :=
  { Version := 2, VdiskID := Except.ok "myvdisk", FirstSequence := 0 }

/-- A block whose hash field is the hash of its data. -/
def goodBlock : TlogBlock :=
  { VdiskID := Except.ok "myvdisk", Sequence := 7, Lba := 0, Size := 3,
    Hash := Except.ok [6], Data := Except.ok [1, 2, 3], Timestamp := 0, Operation := 0 }

/-- A block whose hash field differs from the hash of its data. -/
def badBlock : TlogBlock :=
  { VdiskID := Except.ok "myvdisk", Sequence := 8, Lba := 1, Size := 3,
    Hash := Except.ok [0], Data := Except.ok [1, 2, 3], Timestamp := 0, Operation := 0 }

/-! ## `config/config.go`: vdisk types -/

/-- VdiskType represents the type of a vdisk. -/
abbrev VdiskType := String

/-- The nil vdisk type. -/
def VdiskTypeNil : VdiskType := ""

/-- The vdisk type `boot`. -/
def VdiskTypeBoot : VdiskType := "boot"

/-- The vdisk type `db`. -/
def VdiskTypeDB : VdiskType := "db"

/-- The vdisk type `cache`. -/
def VdiskTypeCache : VdiskType := "cache"

/-- The error of the YAML methods of `VdiskType`: `"%q is not a valid VdiskType"`. -/
inductive VdiskTypeError where
  | notValid
deriving DecidableEq, Repr

/-- MarshalYAML implements `yaml.Marshaler.MarshalYAML`: the string of a valid type, or the
error. -/
def VdiskType.MarshalYAML (t : VdiskType) : Except VdiskTypeError String :=
  if t = VdiskTypeBoot ∨ t = VdiskTypeDB ∨ t = VdiskTypeCache then Except.ok t
  else Except.error VdiskTypeError.notValid

/-- UnmarshalYAML implements `yaml.Unmarshaler.UnmarshalYAML`.  `unmarshal` is the result of
the callback `unmarshal(&rawType)`, which reads the YAML value as a string; `t` is the
receiver before the call.  The result is the receiver after the call and the error. -/
def VdiskType.UnmarshalYAML (t : VdiskType) (unmarshal : Except String String) :
    VdiskType × Option VdiskTypeError :=
  match unmarshal with
  | Except.error _ => (t, some VdiskTypeError.notValid)
  | Except.ok rawType =>
    let vtype : VdiskType := rawType
    if vtype = VdiskTypeBoot ∨ vtype = VdiskTypeDB ∨ vtype = VdiskTypeCache then (vtype, none)
    else (t, some VdiskTypeError.notValid)

/-! ## `nbd/ardb/storage/cache.go` -/

/-- Go's `time.Second`, in nanoseconds, the unit of `time.Duration`. -/
def Second : Int := 1000000000

/-- The default expiration of cache entries. -/
def cacheDefaultExpiration : Int := 10 * Second

/-- The default interval of the cleanup. -/
def cacheDefaultCleanup : Int := 5 * Second

/-- The default maximum size; each chunk is 512K so this is around 2.5M of memory. -/
def cacheDefaultMaxSize : Int := 100

/-- The number of low bits an integer of magnitude `a` loses when it is stored with the 53
significant bits of a float64: the number of halvings that bring it below `2 ^ 53`.  With
fuel 11 this covers every magnitude up to `2 ^ 64`. -/
def float64Shift : Nat → Nat → Nat
  | 0, _ => 0
  | fuel + 1, a => if a < 2 ^ 53 then 0 else float64Shift fuel (a / 2) + 1

/-- Go's conversion `float64(x)` of a 64-bit integer, the result given as the integer it
denotes: `x` is rounded to 53 significant bits, to nearest and ties to even. -/
def float64OfInt (x : Int) : Int :=
  let a := x.natAbs
  let e := float64Shift 11 a
  let q := a / 2 ^ e
  let r := a % 2 ^ e
  let q := if 2 * r > 2 ^ e ∨ (2 * r = 2 ^ e ∧ q % 2 = 1) then q + 1 else q
  if x < 0 then -((q * 2 ^ e : Nat) : Int) else ((q * 2 ^ e : Nat) : Int)

/-- Go's `math.Min` on two finite floats, given as the integers they denote. -/
def mathMin (x y : Int) : Int :=
  if x ≤ y then x else y

/-- What `NewCache` fixes for a cache: the expiration handed to the LRU, the maximum size,
and the interval `d` handed to the background flusher. -/
structure Cache where
  expiration : Int
  maxSize : Int
  flusherInterval : Int
deriving DecidableEq, Repr

/-- `gcache.New(size)` of the library gcache, with which the LRU is built: it panics for a
size that is not positive, for which `none` stands here, and keeps any other size. -/
def gcacheNew (size : Int) : Option Int :=
  if size ≤ 0 then none else some size

/-- NewCache creates a new buffer cache.  The durations are in nanoseconds.  The conversion
`time.Duration(...)` of the float back to an integer is exact here, the float being an
integer between `-2 ^ 63` and 5 seconds.  The result is `none` when building the LRU panics:
no cache is returned then and no flusher is started. -/
def NewCache (expiration cleanup maxSize : Int) : Option Cache :=
  let expiration := if expiration = 0 then cacheDefaultExpiration else expiration
  let cleanup :=
    if cleanup = 0 then mathMin (float64OfInt expiration) (float64OfInt cacheDefaultCleanup)
    else cleanup
  let maxSize := if maxSize = 0 then cacheDefaultMaxSize else maxSize
  match gcacheNew maxSize with
  | none => none
  | some size => some { expiration := expiration, maxSize := size, flusherInterval := cleanup }

/-- The time the flusher waits in `time.After(d)`: a timer of a non-positive duration fires
at once. -/
def waitingTime (d : Int) : Int :=
  if d ≤ 0 then 0 else d

/-! ## `zeroctl/cmd/copyvdisk/vdisk.go` -/

/-- The flags of the vdisk copy subcommand, `vdiskCmdCfg`, without the config source. -/
structure VdiskCmdCfg where
  ForceSameStorageCluster : Bool
  PrivKey : String
  FlushSize : Int
  JobCount : Int
deriving DecidableEq, Repr

/-- The storage type of a vdisk type, `config.StorageType`; `Unknown` stands for every value
that is none of the three known ones. -/
inductive StorageType where
  | Deduped
  | NonDeduped
  | SemiDeduped
  | Unknown (code : Nat)
deriving DecidableEq, Repr

/-- What `copyVdisk` uses of the static config of a vdisk: the results of
`Type.StorageType()` and `Type.TlogSupport()`. -/
structure VdiskStaticConfig where
  StorageType : StorageType
  TlogSupport : Bool
deriving DecidableEq, Repr

/-- The config handed to the tlog copy, `copy.Config`. -/
structure CopyConfig where
  SourceVdiskID : String
  TargetVdiskID : String
  PrivKey : String
  FlushSize : Int
  JobCount : Int
deriving DecidableEq, Repr

/-- The three copy routines of package `storage`. -/
inductive CopyRoutine where
  | CopyDeduped
  | CopyNonDeduped
  | CopySemiDeduped
deriving DecidableEq, Repr

/-- What `copyVdisk` calls and `vdisk.go` does not define, with `κ` the type of a storage
cluster config: the creation of the config source (`none` is success), the four config
readers, the three copy routines of package `storage`, the tlog copy and the copy of the
tlog metadata.  A routine gives its error, `none` being nil. -/
structure CopySystem (κ : Type) where
  NewSource : Option String
  ReadVdiskStaticConfig : String → Except String VdiskStaticConfig
  ReadNBDStorageConfig : String → Except String κ
  ReadVdiskNBDConfig : String → Except String String
  ReadStorageClusterConfig : String → Except String κ
  CopyDeduped : String → String → κ → Option κ → Option String
  CopyNonDeduped : String → String → κ → Option κ → Option String
  CopySemiDeduped : String → String → κ → Option κ → Option String
  Copy : CopyConfig → Option String
  CopyMetadata : String → String → κ → Option κ → Option String

/-- The calls `copyVdisk` makes, in order. -/
inductive CopyEvent (κ : Type) where
  | readVdiskStaticConfig (vdiskID : String)
  | readNBDStorageConfig (vdiskID : String)
  | readVdiskNBDConfig (vdiskID : String)
  | readStorageClusterConfig (clusterID : String)
  | copyStorage (routine : CopyRoutine) (sourceVdiskID targetVdiskID : String)
      (sourceClusterConfig : κ) (targetClusterConfig : Option κ)
  | copyTlog (cfg : CopyConfig)
  | copyMetadata (sourceVdiskID targetVdiskID : String)
      (sourceClusterConfig : κ) (targetClusterConfig : Option κ)
  | closeSource
deriving DecidableEq, Repr

/-- The errors `copyVdisk` returns. -/
inductive CopyError where
  | newSource (cause : String)
  | notEnoughArguments
  | tooManyArguments
  | readStaticConfig (vdiskID cause : String)
  | readStorageConfig (vdiskID cause : String)
  | readTargetStorageConfig (vdiskID cause : String)
  | unknownStorageType (vdiskID : String) (stype : Nat)
  | copyStorage (cause : String)
  | copyTlog (vdiskID cause : String)
  | copyMetadata (cause : String)
deriving DecidableEq, Repr

/-- The target cluster ID among the positional arguments: the third one if there are
three, the empty string otherwise. -/
def targetClusterIDOf (args : List String) : String :=
  if args.length = 3 then args.getD 2 "" else ""

/-- The part of `copyVdisk` that fixes `targetClusterConfig`: if a target cluster ID is
given and differs from the storage cluster ID of the source vdisk, the config of that cluster
is read; otherwise the target config stays nil. -/
def readTargetClusterConfig {κ : Type} (sys : CopySystem κ)
    (sourceVdiskID targetVdiskID targetClusterID : String) :
    List (CopyEvent κ) × Except CopyError (Option κ) :=
  if targetClusterID ≠ "" then
    match sys.ReadVdiskNBDConfig sourceVdiskID with
    | Except.error e =>
      ([CopyEvent.readVdiskNBDConfig sourceVdiskID],
        Except.error (CopyError.readStorageConfig sourceVdiskID e))
    | Except.ok storageClusterID =>
      if storageClusterID ≠ targetClusterID then
        match sys.ReadStorageClusterConfig targetClusterID with
        | Except.error e =>
          ([CopyEvent.readVdiskNBDConfig sourceVdiskID,
            CopyEvent.readStorageClusterConfig targetClusterID],
            Except.error (CopyError.readTargetStorageConfig targetVdiskID e))
        | Except.ok c =>
          ([CopyEvent.readVdiskNBDConfig sourceVdiskID,
            CopyEvent.readStorageClusterConfig targetClusterID], Except.ok (some c))
      else ([CopyEvent.readVdiskNBDConfig sourceVdiskID], Except.ok none)
  else ([], Except.ok none)

/-- Step 1 of `copyVdisk`: the copy of the vdisk (meta)data by the routine of the storage
type. -/
def copyVdiskData {κ : Type} (sys : CopySystem κ) (stype : StorageType)
    (sourceVdiskID targetVdiskID : String) (sourceClusterConfig : κ)
    (targetClusterConfig : Option κ) : List (CopyEvent κ) × Option CopyError :=
  match stype with
  | StorageType.Deduped =>
    ([CopyEvent.copyStorage CopyRoutine.CopyDeduped sourceVdiskID targetVdiskID
        sourceClusterConfig targetClusterConfig],
      (sys.CopyDeduped sourceVdiskID targetVdiskID sourceClusterConfig
        targetClusterConfig).map CopyError.copyStorage)
  | StorageType.NonDeduped =>
    ([CopyEvent.copyStorage CopyRoutine.CopyNonDeduped sourceVdiskID targetVdiskID
        sourceClusterConfig targetClusterConfig],
      (sys.CopyNonDeduped sourceVdiskID targetVdiskID sourceClusterConfig
        targetClusterConfig).map CopyError.copyStorage)
  | StorageType.SemiDeduped =>
    ([CopyEvent.copyStorage CopyRoutine.CopySemiDeduped sourceVdiskID targetVdiskID
        sourceClusterConfig targetClusterConfig],
      (sys.CopySemiDeduped sourceVdiskID targetVdiskID sourceClusterConfig
        targetClusterConfig).map CopyError.copyStorage)
  | StorageType.Unknown code => ([], some (CopyError.unknownStorageType sourceVdiskID code))

/-- Step 2 of `copyVdisk`: the copy of the tlog data and, when the vdisk type supports
tlog, of the tlog metadata. -/
def copyVdiskTlog {κ : Type} (sys : CopySystem κ) (cfg : VdiskCmdCfg)
    (static : VdiskStaticConfig) (sourceVdiskID targetVdiskID : String)
    (sourceClusterConfig : κ) (targetClusterConfig : Option κ) :
    List (CopyEvent κ) × Option CopyError :=
  let copyConfig : CopyConfig :=
    { SourceVdiskID := sourceVdiskID, TargetVdiskID := targetVdiskID, PrivKey := cfg.PrivKey,
      FlushSize := cfg.FlushSize, JobCount := cfg.JobCount }
  match sys.Copy copyConfig with
  | some e => ([CopyEvent.copyTlog copyConfig], some (CopyError.copyTlog targetVdiskID e))
  | none =>
    if ! static.TlogSupport then ([CopyEvent.copyTlog copyConfig], none)
    else
      ([CopyEvent.copyTlog copyConfig,
        CopyEvent.copyMetadata sourceVdiskID targetVdiskID sourceClusterConfig
          targetClusterConfig],
        (sys.CopyMetadata sourceVdiskID targetVdiskID sourceClusterConfig
          targetClusterConfig).map CopyError.copyMetadata)

/-- The body of `copyVdisk` after the config source is created, up to the deferred close. -/
def copyVdiskBody {κ : Type} (sys : CopySystem κ) (cfg : VdiskCmdCfg) (args : List String) :
    List (CopyEvent κ) × Option CopyError :=
  let argn := args.length
  if argn < 2 then ([], some CopyError.notEnoughArguments)
  else if argn > 3 then ([], some CopyError.tooManyArguments)
  else
    let sourceVdiskID := args.getD 0 ""
    let targetVdiskID := args.getD 1 ""
    let targetClusterID := targetClusterIDOf args
    match sys.ReadVdiskStaticConfig sourceVdiskID with
    | Except.error e =>
      ([CopyEvent.readVdiskStaticConfig sourceVdiskID],
        some (CopyError.readStaticConfig sourceVdiskID e))
    | Except.ok sourceStaticConfig =>
      match sys.ReadNBDStorageConfig sourceVdiskID with
      | Except.error e =>
        ([CopyEvent.readVdiskStaticConfig sourceVdiskID,
          CopyEvent.readNBDStorageConfig sourceVdiskID],
          some (CopyError.readStorageConfig sourceVdiskID e))
      | Except.ok sourceClusterConfig =>
        let reads := [CopyEvent.readVdiskStaticConfig sourceVdiskID,
          CopyEvent.readNBDStorageConfig sourceVdiskID]
        match readTargetClusterConfig sys sourceVdiskID targetVdiskID targetClusterID with
        | (ev, Except.error e) => (reads ++ ev, some e)
        | (ev, Except.ok targetClusterConfig) =>
          let data := copyVdiskData sys sourceStaticConfig.StorageType sourceVdiskID
            targetVdiskID sourceClusterConfig targetClusterConfig
          match data.2 with
          | some e => (reads ++ ev ++ data.1, some e)
          | none =>
            let tlog := copyVdiskTlog sys cfg sourceStaticConfig sourceVdiskID targetVdiskID
              sourceClusterConfig targetClusterConfig
            (reads ++ ev ++ data.1 ++ tlog.1, tlog.2)

/-- The command `copyVdisk` on the positional arguments `args`: the calls it makes, ending
with the deferred `configSource.Close()`, and the error it returns (`none` is nil). -/
def copyVdisk {κ : Type} (sys : CopySystem κ) (cfg : VdiskCmdCfg) (args : List String) :
    List (CopyEvent κ) × Option CopyError :=
  match sys.NewSource with
  | some e => ([], some (CopyError.newSource e))
  | none =>
    let r := copyVdiskBody sys cfg args
    (r.1 ++ [CopyEvent.closeSource], r.2)

/-- A system with the clusters `mycluster` and `othercluster`, in which the vdisk `source`
is a deduped vdisk with tlog support stored on `mycluster`, and every copy succeeds.  A
cluster config is given by the name of the cluster. -/
def sampleCopySystem : CopySystem String where
  NewSource := none
  ReadVdiskStaticConfig := fun vdiskID =>
    if vdiskID = "source" then
      Except.ok { StorageType := StorageType.Deduped, TlogSupport := true }
    else Except.error "no such vdisk"
  ReadNBDStorageConfig := fun vdiskID =>
    if vdiskID = "source" then Except.ok "mycluster" else Except.error "no such vdisk"
  ReadVdiskNBDConfig := fun vdiskID =>
    if vdiskID = "source" then Except.ok "mycluster" else Except.error "no such vdisk"
  ReadStorageClusterConfig := fun clusterID =>
    if clusterID = "mycluster" ∨ clusterID = "othercluster" then Except.ok clusterID
    else Except.error "no such cluster"
  CopyDeduped := fun _ _ _ _ => none
  CopyNonDeduped := fun _ _ _ _ => none
  CopySemiDeduped := fun _ _ _ _ => none
  Copy := fun _ => none
  CopyMetadata := fun _ _ _ _ => none

/-- Flags with `same` set. -/
def sampleCmdCfg : VdiskCmdCfg :=
  { ForceSameStorageCluster := true, PrivKey := "12345678901234567890123456789012",
    FlushSize := 25, JobCount := 4 }

/-! ## `tlog/schema/tlog_schema.capnp.go`: the tlog response -/

/-- What the accessors of a generated type use of a `capnp.Struct`: the bytes of its data
section and the contents of its pointer section. -/
structure CapnpStruct where
  data : List Nat
  pointers : List (Option (List Nat))
deriving DecidableEq, Repr

/-- The struct `capnp.NewStruct` allocates for an `ObjectSize`: all bytes zero, all pointers
null. -/
def NewStruct (dataSize pointerCount : Nat) : CapnpStruct :=
  { data := List.replicate dataSize 0, pointers := List.replicate pointerCount none }

/-- `capnp.Struct.Uint8(off)`: the byte at offset `off` of the data section, and 0 when the
data section does not reach that far. -/
def CapnpStruct.Uint8 (p : CapnpStruct) (off : Nat) : Nat :=
  if off + 1 ≤ p.data.length then p.data.getD off 0 else 0

/-- `capnp.Struct.SetUint8(off, v)`: writes the byte at offset `off` of the data section.
The library panics when the data section does not reach that far; that case is not
represented, the struct is left as it is here, and what is proved of the setter is proved
for offsets inside the data section. -/
def CapnpStruct.SetUint8 (p : CapnpStruct) (off v : Nat) : CapnpStruct :=
  if off + 1 ≤ p.data.length then { p with data := p.data.set off v } else p

/-- Go's conversion `uint8(v)` of an int8. -/
def uint8OfInt8 (v : Int) : Nat :=
  (v % 256).toNat

/-- Go's conversion `int8(u)` of a uint8. -/
def int8OfUint8 (u : Nat) : Int :=
  if u % 256 < 128 then ((u % 256 : Nat) : Int) else ((u % 256 : Nat) : Int) - 256

/-- TlogResponse wraps a capnp struct. -/
structure TlogResponse where
  Struct : CapnpStruct
deriving DecidableEq, Repr

/-- NewTlogResponse allocates the struct with 8 data bytes and 1 pointer. -/
def NewTlogResponse : TlogResponse :=
  { Struct := NewStruct 8 1 }

/-- The getter of the status. -/
def TlogResponse.Status (s : TlogResponse) : Int :=
  int8OfUint8 (s.Struct.Uint8 0)

/-- The setter of the status. -/
def TlogResponse.SetStatus (s : TlogResponse) (v : Int) : TlogResponse :=
  { Struct := s.Struct.SetUint8 0 (uint8OfInt8 v) }

/-! ## The vdisk manager of the tlog server -/

/-- Modelled from the spec: the process-wide vdisk manager of the tlog server, which is
declared outside the files at hand; it owns one slot per vdiskID. -/
structure VdiskManager where
  vdisks : List Vdisk
deriving DecidableEq, Repr

/-- Modelled from the spec: `vdiskMgr.get`, which is declared outside the files at hand.  A
handshake with a vdiskID that has a slot reattaches to the existing slot, which is not
created; the first one creates the slot, with its flusher from `createFlusher`, and fails
when the flusher cannot be created.  The result is what `get` returns and the manager
after the call. -/
def VdiskManager.get (m : VdiskManager) (createFlusher : String → Except String Unit)
    (vdiskID : String) (_firstSequence : Nat) :
    Except String (Vdisk × Bool) × VdiskManager :=
  match m.vdisks.find? (fun vd => vd.vdiskID = vdiskID) with
  | some vd => (Except.ok (vd, false), m)
  | none =>
    match createFlusher vdiskID with
    | Except.error e => (Except.error e, m)
    | Except.ok _ =>
      (Except.ok ({ vdiskID := vdiskID }, true),
        { vdisks := m.vdisks ++ [{ vdiskID := vdiskID }] })

/-- The server whose vdisk manager is in the state `m`. -/
def Server.withVdiskManager (s : Server) (m : VdiskManager)
    (createFlusher : String → Except String Unit) : Server :=
  { s with vdiskMgrGet := fun vdiskID firstSequence =>
      (m.get createFlusher vdiskID firstSequence).1 }

/-- The vdisk manager after a handshake: `handshake` calls `get` only when the request is
decoded, its version is supported and its vdiskID can be read. -/
def Server.vdiskManagerAfter (s : Server) (m : VdiskManager)
    (createFlusher : String → Except String Unit)
    (decoded : Except String HandshakeRequest) : VdiskManager :=
  match decoded with
  | Except.error _ => m
  | Except.ok req =>
    if s.Compare req.Version s.MinSupportedVersion < 0 then m
    else
      match req.VdiskID with
      | Except.error _ => m
      | Except.ok vdiskID => (m.get createFlusher vdiskID req.FirstSequence).2

/-- The events of the handshakes of successive connections, the vdisk manager starting in
the state `m`. -/
def Server.handshakes (s : Server) (createFlusher : String → Except String Unit) :
    VdiskManager → List (Except String HandshakeRequest) → List Event
  | _, [] => []
  | m, decoded :: rest =>
    (s.withVdiskManager m createFlusher).handshakeEvents decoded ++
      s.handshakes createFlusher (s.vdiskManagerAfter m createFlusher decoded) rest

/-! ## The cluster of storage servers and the non-deduped storage -/

/-- Modelled from the spec: the state of a storage server in a cluster config. -/
inductive StorageServerState where
  | Online
  | Offline
  | Respread
  | RIP
deriving DecidableEq, Repr

/-- Modelled from the spec: a storage server of a cluster, which package `storage` handles
outside the files at hand: its configured state, whether the server has been closed, so that
connections to it fail, and the blocks of the vdisk it stores, by block index. -/
structure StorageServer where
  State : StorageServerState
  closed : Bool
  blocks : List (Nat × List Nat)
deriving DecidableEq, Repr

/-- Modelled from the spec: the errors of a storage operation, of which package `ardb`
declares `ErrServerUnavailable` outside the files at hand. -/
inductive StorageError where
  | ErrServerUnavailable
deriving DecidableEq, Repr

/-- Modelled from the spec: the mapping algorithm of the cluster controller,
`server = cluster[index mod len(cluster)]`. -/
def ServerFor (cluster : List StorageServer) (index : Nat) : Option StorageServer :=
  cluster[index % cluster.length]?

/-- Modelled from the spec: a read of block `index` on a server.  A server that is Offline,
or cannot be reached, gives `ErrServerUnavailable` and no content; a RIP server reads as
never written; otherwise the stored content is returned, nil for a block that is not
stored. -/
def StorageServer.GetBlock (server : StorageServer) (index : Nat) :
    Option (List Nat) × Option StorageError :=
  match server.State with
  | StorageServerState.Offline => (none, some StorageError.ErrServerUnavailable)
  | StorageServerState.RIP => (none, none)
  | _ =>
    if server.closed then (none, some StorageError.ErrServerUnavailable)
    else (server.blocks.lookup index, none)

/-- Modelled from the spec: `GetBlock` of the non-deduped storage on a cluster without
template: the read goes to the server the controller maps the index to. -/
def GetBlock (cluster : List StorageServer) (index : Nat) :
    Option (List Nat) × Option StorageError :=
  match ServerFor cluster index with
  | none => (none, some StorageError.ErrServerUnavailable)
  | some server => server.GetBlock index

/-- Modelled from the spec: `SetBlock` of the non-deduped storage.  A write to a server that
is not Online, or cannot be reached, fails with `ErrServerUnavailable`; empty or all-zero
content deletes the block; otherwise the content replaces what is stored at the index. -/
def SetBlock (cluster : List StorageServer) (index : Nat) (content : List Nat) :
    List StorageServer × Option StorageError :=
  match ServerFor cluster index with
  | none => (cluster, some StorageError.ErrServerUnavailable)
  | some server =>
    if server.State ≠ StorageServerState.Online ∨ server.closed = true then
      (cluster, some StorageError.ErrServerUnavailable)
    else
      let others := server.blocks.filter (fun b => b.1 ≠ index)
      let blocks := if content.all (fun b => b = 0) then others else (index, content) :: others
      (cluster.set (index % cluster.length) { server with blocks := blocks }, none)

/-- Modelled from the spec: the cluster in which server `i` is replaced by `f` of it, the
size of the cluster staying as it is. -/
def modifyServer (f : StorageServer → StorageServer) :
    List StorageServer → Nat → List StorageServer
  | [], _ => []
  | server :: rest, 0 => f server :: rest
  | server :: rest, i + 1 => server :: modifyServer f rest i

/-- Modelled from the spec: the cluster after server `i` has been closed, as
`slice.CloseServer(i)` does in the tests. -/
def closeServer (cluster : List StorageServer) (i : Nat) : List StorageServer :=
  modifyServer (fun server => { server with closed := true }) cluster i

/-- Modelled from the spec: the cluster after server `i` has been flagged Offline through
the config source and the controller has applied the update. -/
def markOffline (cluster : List StorageServer) (i : Nat) : List StorageServer :=
  modifyServer (fun server => { server with State := StorageServerState.Offline }) cluster i

/-- Modelled from the spec: the cluster after `SetBlock` of `contents[k]` at every index
`k` from the given one on, as the tests store their blocks. -/
def storeBlocks (cluster : List StorageServer) : Nat → List (List Nat) → List StorageServer
  | _, [] => cluster
  | k, content :: rest => storeBlocks (SetBlock cluster k content).1 (k + 1) rest

/-- Two servers, online, reachable and empty. -/
def sampleCluster2 : List StorageServer :=
  [{ State := StorageServerState.Online, closed := false, blocks := [] },
   { State := StorageServerState.Online, closed := false, blocks := [] }]

/-- The content of four blocks of size 8. -/
def sampleContents : List (List Nat) :=
  [[1, 2, 3, 4, 5, 6, 7, 8], [9, 9, 9, 9, 9, 9, 9, 9], [0, 0, 0, 0, 0, 0, 0, 1],
   [4, 3, 2, 1, 4, 3, 2, 1]]

/-! ## The status of a storage error -/

/-- The errors `MapErrorToBroadcastStatus` tells apart: `io.EOF`, an error that implements
`net.Error`, with the results of its `Timeout()` and `Temporary()`, and any other error. -/
inductive GoError where
  | EOF
  | netError (timeout temporary : Bool)
  | other (msg : String)
deriving DecidableEq, Repr

/-- Modelled from the spec: the statuses of package `log` that a storage error is mapped
to, declared outside the files at hand. -/
inductive MessageStatus where
  | StatusUnknownError
  | StatusServerTimeout
  | StatusServerDisconnect
  | StatusServerTempError
deriving DecidableEq, Repr

/-- Modelled from the spec: `MapErrorToBroadcastStatus`, which package `storage` defines
outside the files at hand, as its test and the status events of the spec (Timeout,
TempError, Disconnect, UnknownError) fix it. -/
def MapErrorToBroadcastStatus : GoError → MessageStatus
  | GoError.EOF => MessageStatus.StatusServerDisconnect
  | GoError.netError timeout temporary =>
    if timeout then MessageStatus.StatusServerTimeout
    else if temporary then MessageStatus.StatusServerTempError
    else MessageStatus.StatusUnknownError
  | GoError.other _ => MessageStatus.StatusUnknownError

/-! ## `nbd/ardb/storage/cache.go`: the background flusher -/

/-- What the `select` of the flusher receives from: the timer `time.After(d)`, or
`ctx.Done()`, which is ready from the cancellation on. -/
inductive FlusherSelect where
  | timer
  | done
deriving DecidableEq, Repr

/-- What an iteration of the flusher loop does: it forces the deletion of the expired
objects with `c.cache.Keys()`, or it receives from `ctx.Done()`. -/
inductive FlusherEvent where
  | forceExpiry
  | observeDone
deriving DecidableEq, Repr

/-- How the body of a loop ends: the loop goes on with the next iteration, or the function
returns. -/
inductive LoopControl where
  | next
  | ret
deriving DecidableEq, Repr

/-- The body of the loop of `flusher`, for the case the `select` takes.  The case of
`ctx.Done()` has an empty body: it holds no `return`, so that the `select` ends and the loop
goes on. -/
def flusherBody : FlusherSelect → FlusherEvent × LoopControl
  | FlusherSelect.timer => (FlusherEvent.forceExpiry, LoopControl.next)
  | FlusherSelect.done => (FlusherEvent.observeDone, LoopControl.next)

/-- The background task `flusher`.  `selects` lists the cases the successive `select`s take;
the result is the iterations done, one event each, and whether the function has returned.
When the list is used up the task waits in its `select`. -/
def Cache.flusher : List FlusherSelect → List FlusherEvent × Bool
  | [] => ([], false)
  | sel :: rest =>
    match flusherBody sel with
    | (ev, LoopControl.ret) => ([ev], true)
    | (ev, LoopControl.next) =>
      let r := Cache.flusher rest
      (ev :: r.1, r.2)

/-! ## `tlog/tlogserver/server/server.go`: the blocks enqueued and the handshake response -/

/-- The blocks put on the input channel of the vdisk, in order. -/
def enqueuedBlocks : List Event → List TlogBlock
  | [] => []
  | Event.enqueue block :: rest => block :: enqueuedBlocks rest
  | _ :: rest => enqueuedBlocks rest

/-- A block's data and hash can be read and the hash field equals `HashBytes(data)`. -/
def hashMatches (s : Server) (block : TlogBlock) : Bool :=
  match block.Data, block.Hash with
  | Except.ok data, Except.ok rawHash => rawHash = s.HashBytes data
  | _, _ => false

/-- The longest prefix of the received blocks that decode and whose hash field equals
`HashBytes(data)`. -/
def longestAcceptedRun (s : Server) : List (Except String TlogBlock) → List TlogBlock
  | Except.ok block :: rest =>
    if hashMatches s block then block :: longestAcceptedRun s rest else []
  | _ => []

/-- The handshake response of the schema. -/
structure HandshakeResponse where
  Version : Nat
  Status : Int
deriving DecidableEq, Repr

/-- The errors of the three fallible steps of `writeHandshakeResponse`: `capnp.NewMessage`,
`schema.NewRootHandshakeResponse` and the encoding onto the connection; `none` is nil. -/
structure WriteOutcome where
  newMessage : Option String
  newRoot : Option String
  encode : Option String
deriving DecidableEq, Repr

/-- The function `writeHandshakeResponse`: the response written to `w`, if any, and the error
returned. -/
def Server.writeHandshakeResponse (s : Server) (outcome : WriteOutcome)
    (status : HandshakeStatus) : Option HandshakeResponse × Option String :=
  match outcome.newMessage with
  | some e => (none, some e)
  | none =>
    match outcome.newRoot with
    | some e => (none, some e)
    | none =>
      let resp : HandshakeResponse := { Version := s.CurrentVersion, Status := status.Int8 }
      match outcome.encode with
      | some e => (none, some e)
      | none => (some resp, none)

/-- The event is a call of `writeHandshakeResponse`. -/
def Event.isWriteHandshakeResponse : Event → Bool
  | Event.writeHandshakeResponse _ _ => true
  | _ => false

/-- A handshake request of a supported version whose vdiskID cannot be read. -/
def noVdiskIDRequest : HandshakeRequest :=
  { Version := 4, VdiskID := Except.error "no vdiskID", FirstSequence := 0 }

/-! ## `zeroctl/cmd/copyvdisk/vdisk.go`: the copy routine of a storage type -/

/-- The copy routine that matches a storage type: deduped gives `CopyDeduped`, non-deduped
`CopyNonDeduped`, semi-deduped `CopySemiDeduped`, and an unknown type none. -/
def routineFor : StorageType → Option CopyRoutine
  | StorageType.Deduped => some CopyRoutine.CopyDeduped
  | StorageType.NonDeduped => some CopyRoutine.CopyNonDeduped
  | StorageType.SemiDeduped => some CopyRoutine.CopySemiDeduped
  | StorageType.Unknown _ => none

/-- What a copy routine of `sys` returns. -/
def CopySystem.runRoutine {κ : Type} (sys : CopySystem κ) (routine : CopyRoutine)
    (sourceVdiskID targetVdiskID : String) (sourceClusterConfig : κ)
    (targetClusterConfig : Option κ) : Option String :=
  match routine with
  | CopyRoutine.CopyDeduped =>
    sys.CopyDeduped sourceVdiskID targetVdiskID sourceClusterConfig targetClusterConfig
  | CopyRoutine.CopyNonDeduped =>
    sys.CopyNonDeduped sourceVdiskID targetVdiskID sourceClusterConfig targetClusterConfig
  | CopyRoutine.CopySemiDeduped =>
    sys.CopySemiDeduped sourceVdiskID targetVdiskID sourceClusterConfig targetClusterConfig

/-- The event is a call of a copy routine of package `storage`. -/
def CopyEvent.isCopyStorage {κ : Type} : CopyEvent κ → Bool
  | CopyEvent.copyStorage _ _ _ _ _ => true
  | _ => false

/-- The event is a copy of tlog data or of tlog metadata. -/
def CopyEvent.isTlogCopy {κ : Type} : CopyEvent κ → Bool
  | CopyEvent.copyTlog _ => true
  | CopyEvent.copyMetadata _ _ _ _ => true
  | _ => false

/-- The sample system with a vdisk `nondeduped` without tlog support and a vdisk `strange`
of an unknown storage type, and in which `CopyNonDeduped` fails. -/
def failingCopySystem : CopySystem String :=
  { sampleCopySystem with
    ReadVdiskStaticConfig := fun vdiskID =>
      if vdiskID = "nondeduped" then
        Except.ok { StorageType := StorageType.NonDeduped, TlogSupport := false }
      else if vdiskID = "strange" then
        Except.ok { StorageType := StorageType.Unknown 7, TlogSupport := false }
      else sampleCopySystem.ReadVdiskStaticConfig vdiskID
    ReadNBDStorageConfig := fun _ => Except.ok "mycluster"
    CopyNonDeduped := fun _ _ _ _ => some "connection refused" }

/-! ## `tlog/schema/tlog_schema.capnp.go`: the tlog block -/

/-- The `n` low bytes of `v`, the least significant first. -/
def leBytes : Nat → Nat → List Nat
  | 0, _ => []
  | n + 1, v => v % 256 :: leBytes n (v / 256)

/-- The number the `n` bytes of `data` from offset `off` on stand for, the least significant
first. -/
def readLE (data : List Nat) : Nat → Nat → Nat
  | _, 0 => 0
  | off, n + 1 => data.getD off 0 + 256 * readLE data (off + 1) n

/-- The data with `bytes` written from offset `off` on. -/
def writeBytes : List Nat → Nat → List Nat → List Nat
  | data, _, [] => data
  | data, off, b :: bs => writeBytes (data.set off b) (off + 1) bs

/-- `capnp.Struct.Uint64(off)`: the 8 bytes at offset `off` of the data section, in
little-endian order, and 0 when the data section does not reach that far. -/
def CapnpStruct.Uint64 (p : CapnpStruct) (off : Nat) : Nat :=
  if off + 8 ≤ p.data.length then readLE p.data off 8 else 0

/-- `capnp.Struct.SetUint64(off, v)`: writes the 8 bytes at offset `off` of the data section.
The library panics when the data section does not reach that far; that case is not
represented, the struct is left as it is here, and what is proved of the setter is proved
for offsets inside the data section. -/
def CapnpStruct.SetUint64 (p : CapnpStruct) (off v : Nat) : CapnpStruct :=
  if off + 8 ≤ p.data.length then { p with data := writeBytes p.data off (leBytes 8 v) } else p

/-- `capnp.Struct.Ptr(i)`: the content of pointer `i`, null beyond the pointer section. -/
def CapnpStruct.Ptr (p : CapnpStruct) (i : Nat) : Option (List Nat) :=
  p.pointers.getD i none

/-- `capnp.Struct.SetPtr(i, src)`: sets pointer `i` of the pointer section.  The library
panics for an index beyond the pointer section; that case is not represented, the struct is
left as it is here, and what is proved of the setter is proved for indices inside the
pointer section. -/
def CapnpStruct.SetPtr (p : CapnpStruct) (i : Nat) (src : Option (List Nat)) : CapnpStruct :=
  if i < p.pointers.length then { p with pointers := p.pointers.set i src } else p

/-- `capnp.Ptr.Text()` of pointer `i`: the text pointed to, given by the codes of its
characters, and the empty string for a null pointer. -/
def CapnpStruct.Text (p : CapnpStruct) (i : Nat) : String :=
  match p.Ptr i with
  | none => ""
  | some codes => String.mk (codes.map Char.ofNat)

/-- `capnp.Struct.SetText(i, v)`: the empty string sets a null pointer, any other string a
pointer to a new text. -/
def CapnpStruct.SetText (p : CapnpStruct) (i : Nat) (v : String) : CapnpStruct :=
  if v = "" then p.SetPtr i none else p.SetPtr i (some (v.toList.map Char.toNat))

/-- `capnp.Ptr.Data()` of pointer `i`: the bytes pointed to, none for a null pointer. -/
def CapnpStruct.Data (p : CapnpStruct) (i : Nat) : List Nat :=
  match p.Ptr i with
  | none => []
  | some bytes => bytes

/-- `capnp.Struct.SetData(i, v)`: sets a pointer to new data holding the bytes `v`. -/
def CapnpStruct.SetData (p : CapnpStruct) (i : Nat) (v : List Nat) : CapnpStruct :=
  p.SetPtr i (some v)

/-- The generated type `TlogBlock` of package `schema`, which wraps a capnp struct. -/
structure schema.TlogBlock where
  Struct : CapnpStruct
deriving DecidableEq, Repr

/-- NewTlogBlock allocates the struct with 40 data bytes and 3 pointers. -/
def schema.NewTlogBlock : schema.TlogBlock :=
  { Struct := NewStruct 40 3 }

/-- The getter of the vdiskID, pointer 0.  The error of the getters of the pointer fields is
that of an invalid pointer in a received message. -/
def schema.TlogBlock.VdiskID (s : schema.TlogBlock) : Except String String :=
  Except.ok (s.Struct.Text 0)

/-- The setter of the vdiskID. -/
def schema.TlogBlock.SetVdiskID (s : schema.TlogBlock) (v : String) : schema.TlogBlock :=
  { Struct := s.Struct.SetText 0 v }

/-- The getter of the sequence, at byte 0. -/
def schema.TlogBlock.Sequence (s : schema.TlogBlock) : Nat :=
  s.Struct.Uint64 0

/-- The setter of the sequence. -/
def schema.TlogBlock.SetSequence (s : schema.TlogBlock) (v : Nat) : schema.TlogBlock :=
  { Struct := s.Struct.SetUint64 0 v }

/-- The getter of the lba, at byte 8. -/
def schema.TlogBlock.Lba (s : schema.TlogBlock) : Nat :=
  s.Struct.Uint64 8

/-- The setter of the lba. -/
def schema.TlogBlock.SetLba (s : schema.TlogBlock) (v : Nat) : schema.TlogBlock :=
  { Struct := s.Struct.SetUint64 8 v }

/-- The getter of the size, at byte 16. -/
def schema.TlogBlock.Size (s : schema.TlogBlock) : Nat :=
  s.Struct.Uint64 16

/-- The setter of the size. -/
def schema.TlogBlock.SetSize (s : schema.TlogBlock) (v : Nat) : schema.TlogBlock :=
  { Struct := s.Struct.SetUint64 16 v }

/-- The getter of the hash, pointer 1. -/
def schema.TlogBlock.Hash (s : schema.TlogBlock) : Except String (List Nat) :=
  Except.ok (s.Struct.Data 1)

/-- The setter of the hash. -/
def schema.TlogBlock.SetHash (s : schema.TlogBlock) (v : List Nat) : schema.TlogBlock :=
  { Struct := s.Struct.SetData 1 v }

/-- The getter of the data, pointer 2. -/
def schema.TlogBlock.Data (s : schema.TlogBlock) : Except String (List Nat) :=
  Except.ok (s.Struct.Data 2)

/-- The setter of the data. -/
def schema.TlogBlock.SetData (s : schema.TlogBlock) (v : List Nat) : schema.TlogBlock :=
  { Struct := s.Struct.SetData 2 v }

/-- The getter of the timestamp, at byte 24. -/
def schema.TlogBlock.Timestamp (s : schema.TlogBlock) : Nat :=
  s.Struct.Uint64 24

/-- The setter of the timestamp. -/
def schema.TlogBlock.SetTimestamp (s : schema.TlogBlock) (v : Nat) : schema.TlogBlock :=
  { Struct := s.Struct.SetUint64 24 v }

/-- The getter of the operation, at byte 32. -/
def schema.TlogBlock.Operation (s : schema.TlogBlock) : Nat :=
  s.Struct.Uint8 32

/-- The setter of the operation. -/
def schema.TlogBlock.SetOperation (s : schema.TlogBlock) (v : Nat) : schema.TlogBlock :=
  { Struct := s.Struct.SetUint8 32 v }

/-- All fields of a block of the schema, as its getters give them. -/
def schema.TlogBlock.fields (s : schema.TlogBlock) : Blockstor.TlogBlock :=
  { VdiskID := s.VdiskID, Sequence := s.Sequence, Lba := s.Lba, Size := s.Size,
    Hash := s.Hash, Data := s.Data, Timestamp := s.Timestamp, Operation := s.Operation }

/-- The slots of the scalar fields in the data section, offset and width in bytes: sequence,
lba, size, timestamp and operation. -/
def tlogBlockDataSlots : List (Nat × Nat) :=
  [(0, 8), (8, 8), (16, 8), (24, 8), (32, 1)]

/-- The slots of the pointer fields in the pointer section: vdiskID, hash and data. -/
def tlogBlockPointerSlots : List Nat :=
  [0, 1, 2]

/-- A block with every field set. -/
def sampleTlogBlock : schema.TlogBlock :=
  ((((((((schema.NewTlogBlock.SetVdiskID "myvdisk").SetSequence 7).SetLba 1024).SetSize
    4096).SetHash [6]).SetData [1, 2, 3]).SetTimestamp 1500000000000000000).SetOperation 2)

/-! ## Lemmas on the string functions -/

theorem Split_ne_nil (sep : Char) (s : List Char) : Split sep s ≠ [] := by
  cases s with
  | nil => simp [Split]
  | cons c cs =>
    unfold Split
    split
    · simp
    · split <;> simp

theorem Split_of_not_mem (sep : Char) (s : List Char) (h : sep ∉ s) : Split sep s = [s] := by
  induction s with
  | nil => rfl
  | cons c cs ih =>
    have hc : c ≠ sep := fun e => h (by simp [e])
    have hcs : sep ∉ cs := fun e => h (by simp [e])
    simp [Split, hc, ih hcs]

theorem Split_cons_sep (sep : Char) (cs : List Char) :
    Split sep (sep :: cs) = [] :: Split sep cs := by
  simp [Split]

theorem Split_cons_of_ne (sep c : Char) (cs p : List Char) (ps : List (List Char))
    (hc : c ≠ sep) (hs : Split sep cs = p :: ps) :
    Split sep (c :: cs) = (c :: p) :: ps := by
  simp [Split, hc, hs]

theorem Split_append_sep_cons (sep : Char) (a b : List Char) (hb : sep ∉ b) :
    Split sep (a ++ sep :: b) = Split sep a ++ [b] := by
  induction a with
  | nil => simp [Split, Split_of_not_mem sep b hb]
  | cons c cs ih =>
    by_cases hc : c = sep
    · subst hc
      rw [List.cons_append, Split_cons_sep, Split_cons_sep, ih]
      rfl
    · cases hs : Split sep cs with
      | nil => exact absurd hs (Split_ne_nil sep cs)
      | cons p ps =>
        rw [hs] at ih
        rw [List.cons_append, Split_cons_of_ne sep c _ p (ps ++ [b]) hc (by simpa using ih),
          Split_cons_of_ne sep c cs p ps hc hs]
        rfl

theorem Split_cons_of_not_mem (sep : Char) (a b : List Char) (ha : sep ∉ a) :
    Split sep (a ++ sep :: b) = a :: Split sep b := by
  induction a with
  | nil => simp [Split]
  | cons c cs ih =>
    have hc : c ≠ sep := fun e => ha (by simp [e])
    have hcs : sep ∉ cs := fun e => ha (by simp [e])
    simp [Split, hc, ih hcs]

theorem Split_append_sep (sep : Char) (s : List Char) :
    Split sep (s ++ [sep]) = Split sep s ++ [[]] :=
  Split_append_sep_cons sep s [] (by simp)

theorem Join_cons_cons (sep c : Char) (p : List Char) (ps : List (List Char)) :
    Join sep ((c :: p) :: ps) = c :: Join sep (p :: ps) := by
  cases ps <;> simp [Join]

theorem Join_Split (sep : Char) (s : List Char) : Join sep (Split sep s) = s := by
  induction s with
  | nil => rfl
  | cons c cs ih =>
    cases hs : Split sep cs with
    | nil => exact absurd hs (Split_ne_nil sep cs)
    | cons p ps =>
      rw [hs] at ih
      by_cases hc : c = sep
      · simp [Split, hc, hs, Join, ih]
      · simp [Split, hc, hs, Join_cons_cons, ih]

theorem Split_Join (sep : Char) (parts : List (List Char)) (hne : parts ≠ [])
    (h : ∀ p ∈ parts, sep ∉ p) : Split sep (Join sep parts) = parts := by
  induction parts with
  | nil => exact absurd rfl hne
  | cons p ps ih =>
    cases ps with
    | nil => simpa [Join] using Split_of_not_mem sep p (h p (by simp))
    | cons q qs =>
      have hq : Split sep (Join sep (q :: qs)) = q :: qs :=
        ih (by simp) (fun r hr => h r (List.mem_cons_of_mem _ hr))
      simp only [Join]
      rw [Split_cons_of_not_mem sep p _ (h p (by simp)), hq]

theorem trimLeft_suffix (s : List Char) : trimLeft s <:+ s := by
  induction s with
  | nil => exact List.suffix_refl _
  | cons c cs ih =>
    unfold trimLeft
    split
    · exact List.IsSuffix.trans ih (List.suffix_cons c cs)
    · exact List.suffix_refl _

theorem trimRight_length_le (s : List Char) : (trimRight s).length ≤ s.length := by
  have h := (trimLeft_suffix s.reverse).length_le
  unfold trimRight
  simpa using h

theorem trimLeft_space_append (ws m : List Char) (hws : ∀ c ∈ ws, isSpace c = true) :
    trimLeft (ws ++ m) = trimLeft m := by
  induction ws with
  | nil => rfl
  | cons c cs ih =>
    have hc : isSpace c = true := hws c (by simp)
    simp only [List.cons_append, trimLeft, hc, if_true]
    exact ih (fun d hd => hws d (List.mem_cons_of_mem _ hd))

theorem trimRight_append_space (m ws : List Char) (hws : ∀ c ∈ ws, isSpace c = true) :
    trimRight (m ++ ws) = trimRight m := by
  unfold trimRight
  rw [List.reverse_append, trimLeft_space_append _ _ (by simpa using hws)]

theorem trimLeft_head (c : Char) (cs : List Char) (h : trimLeft (c :: cs) = c :: cs) :
    isSpace c = false := by
  by_contra hc
  have hc1 : isSpace c = true := by simpa using hc
  simp only [trimLeft, hc1, if_true] at h
  have hlen := (trimLeft_suffix cs).length_le
  rw [h] at hlen
  simp at hlen

theorem trimLeft_append (m x : List Char) (hm : trimLeft m = m) (hne : m ≠ []) :
    trimLeft (m ++ x) = m ++ x := by
  cases m with
  | nil => exact absurd rfl hne
  | cons c cs => simp [trimLeft, trimLeft_head c cs hm]

theorem trimRight_append (x m : List Char) (hm : trimRight m = m) (hne : m ≠ []) :
    trimRight (x ++ m) = x ++ m := by
  unfold trimRight at hm ⊢
  have h1 : trimLeft m.reverse = m.reverse := by
    rw [← List.reverse_reverse (trimLeft m.reverse), hm]
  rw [List.reverse_append, trimLeft_append _ _ h1 (by simpa using hne)]
  simp

theorem trimLeft_of_no_space (m : List Char) (h : ∀ c ∈ m, isSpace c = false) :
    trimLeft m = m := by
  cases m with
  | nil => rfl
  | cons c cs => simp [trimLeft, h c (by simp)]

theorem trimRight_of_no_space (m : List Char) (h : ∀ c ∈ m, isSpace c = false) :
    trimRight m = m := by
  unfold trimRight
  rw [trimLeft_of_no_space _ (by simpa using h), List.reverse_reverse]

theorem TrimSpace_fixed (m : List Char) (h : TrimSpace m = m) :
    trimLeft m = m ∧ trimRight m = m := by
  have h1 := trimLeft_suffix m
  have e2 := trimRight_length_le (trimLeft m)
  have hl : trimLeft m = m := by
    apply h1.eq_of_length
    have e1 := h1.length_le
    unfold TrimSpace at h
    rw [h] at e2
    omega
  refine ⟨hl, ?_⟩
  unfold TrimSpace at h
  rw [hl] at h
  exact h

theorem TrimSpace_space (ws : List Char) (hws : ∀ c ∈ ws, isSpace c = true) :
    TrimSpace ws = [] := by
  have h := trimLeft_space_append ws [] hws
  rw [List.append_nil] at h
  unfold TrimSpace
  rw [h]
  rfl

theorem TrimSpace_surround (pre m post : List Char) (hpre : ∀ c ∈ pre, isSpace c = true)
    (hpost : ∀ c ∈ post, isSpace c = true) (hl : trimLeft m = m) (hr : trimRight m = m)
    (hne : m ≠ []) : TrimSpace (pre ++ m ++ post) = m := by
  unfold TrimSpace
  rw [List.append_assoc, trimLeft_space_append _ _ hpre, trimLeft_append _ _ hl hne,
    trimRight_append_space _ _ hpost, hr]

theorem digitChar_toNat : ∀ d < 10, (Nat.digitChar d).toNat = 48 + d := by
  decide

theorem parseUintLoop_digit (m : Nat) (ds : List Char) (hm : m < 2 ^ 64) :
    parseUintLoop (Nat.digitChar (m % 10) :: ds) (m / 10) = parseUintLoop ds m := by
  have hd := digitChar_toNat (m % 10) (Nat.mod_lt _ (by decide))
  have h1 : ¬ (m / 10 ≥ maxUint64 / 10 + 1) := by
    simp only [maxUint64, Nat.reducePow] at hm ⊢
    omega
  have h2 : (m / 10 * 10 + (48 + m % 10 - 48)) % 2 ^ 64 = m := by
    simp only [Nat.reducePow] at hm ⊢
    omega
  have h3 : ¬ (m < m / 10 * 10 ∨ m > maxUint64) := by
    simp only [maxUint64, Nat.reducePow] at hm ⊢
    omega
  have h0 : 48 ≤ 48 + m % 10 ∧ 48 + m % 10 ≤ 57 := by omega
  simp only [parseUintLoop, hd, h0, h1, h2, h3, and_self, if_true, if_false]

theorem parseUintLoop_toDigitsCore (fuel : Nat) :
    ∀ (n : Nat) (ds : List Char), n < fuel → n < 2 ^ 64 →
      parseUintLoop (Nat.toDigitsCore 10 fuel n ds) 0 = parseUintLoop ds n := by
  induction fuel with
  | zero => intro n ds h; omega
  | succ fuel ih =>
    intro n ds hf hn
    unfold Nat.toDigitsCore
    by_cases h0 : n / 10 = 0
    · simp only [h0, if_true]
      have := parseUintLoop_digit n ds hn
      rw [h0] at this
      exact this
    · simp only [h0, if_false]
      rw [ih (n / 10) _ (by omega) (by omega)]
      exact parseUintLoop_digit n ds hn

theorem toDigitsCore_ne_nil (fuel n : Nat) (ds : List Char) :
    Nat.toDigitsCore 10 (fuel + 1) n ds ≠ [] := by
  induction fuel generalizing n ds with
  | zero =>
    unfold Nat.toDigitsCore
    by_cases h0 : n / 10 = 0 <;> simp [h0, Nat.toDigitsCore]
  | succ fuel ih =>
    unfold Nat.toDigitsCore
    by_cases h0 : n / 10 = 0
    · simp [h0]
    · simp only [h0, if_false]
      exact ih _ _

theorem toDigitsCore_mem (fuel : Nat) :
    ∀ (n : Nat) (ds : List Char) (c : Char), c ∈ Nat.toDigitsCore 10 fuel n ds →
      (48 ≤ c.toNat ∧ c.toNat ≤ 57) ∨ c ∈ ds := by
  induction fuel with
  | zero => intro n ds c h; right; simpa [Nat.toDigitsCore] using h
  | succ fuel ih =>
    intro n ds c h
    have hd := digitChar_toNat (n % 10) (Nat.mod_lt _ (by decide))
    unfold Nat.toDigitsCore at h
    by_cases h0 : n / 10 = 0
    · simp only [h0, if_true, List.mem_cons] at h
      rcases h with h | h
      · left; rw [h, hd]; omega
      · right; exact h
    · simp only [h0, if_false] at h
      rcases ih _ _ c h with h | h
      · left; exact h
      · rw [List.mem_cons] at h
        rcases h with h | h
        · left; rw [h, hd]; omega
        · right; exact h

theorem toDigits_mem (n : Nat) (c : Char) (h : c ∈ Nat.toDigits 10 n) :
    48 ≤ c.toNat ∧ c.toNat ≤ 57 := by
  rcases toDigitsCore_mem (n + 1) n [] c h with h | h
  · exact h
  · simp at h

theorem toDigits_ne_nil (n : Nat) : Nat.toDigits 10 n ≠ [] :=
  toDigitsCore_ne_nil n n []

theorem ParseUint_toDigits (n : Nat) (hn : n < 2 ^ 64) :
    ParseUint (Nat.toDigits 10 n) = (n, none) := by
  have h := parseUintLoop_toDigitsCore (n + 1) n [] (by omega) hn
  have hne := toDigits_ne_nil n
  unfold ParseUint
  cases hs : Nat.toDigits 10 n with
  | nil => exact absurd hs hne
  | cons c cs =>
    simp only
    rw [← hs]
    exact h

theorem Atoi_Itoa (d : Int) (hlo : -(2 : Int) ^ 63 ≤ d) (hhi : d < (2 : Int) ^ 63) :
    Atoi (Itoa d) = (d, none) := by
  unfold Atoi Itoa
  by_cases hneg : d < 0
  · have hu := ParseUint_toDigits d.natAbs (by simp only [Nat.reducePow]; norm_num at hlo; omega)
    simp only [hneg, if_true, ParseInt, or_true, hu]
    have h1 : ¬ (9223372036854775808 < d.natAbs) := by
      norm_num at hlo; omega
    simp [h1]
    rw [abs_of_neg hneg]
    omega
  · have hu := ParseUint_toDigits d.natAbs (by simp only [Nat.reducePow]; norm_num at hhi; omega)
    have hne := toDigits_ne_nil d.natAbs
    simp only [hneg, if_false]
    cases hs : Nat.toDigits 10 d.natAbs with
    | nil => exact absurd hs hne
    | cons c cs =>
      have hc := toDigits_mem d.natAbs c (by rw [hs]; simp)
      have hp : c ≠ '+' := by
        intro e; rw [e] at hc; revert hc; decide
      have hm : c ≠ '-' := by
        intro e; rw [e] at hc; revert hc; decide
      rw [hs] at hu
      simp only [ParseInt, hp, hm, or_self, if_false, hu]
      have h1 : ¬ (9223372036854775808 ≤ d.natAbs) := by
        norm_num at hhi; omega
      simp [h1]
      omega

theorem digit_not_space (c : Char) (h : 48 ≤ c.toNat ∧ c.toNat ≤ 57) : isSpace c = false := by
  unfold isSpace
  simp only [Bool.or_eq_false_iff, Bool.and_eq_false_iff, decide_eq_false_iff_not,
    beq_eq_false_iff_ne]
  simp
  omega

theorem Itoa_mem (d : Int) (c : Char) (h : c ∈ Itoa d) :
    c ≠ '@' ∧ c ≠ ',' ∧ isSpace c = false := by
  have key : c = '-' ∨ (48 ≤ c.toNat ∧ c.toNat ≤ 57) := by
    unfold Itoa at h
    split at h
    · rw [List.mem_cons] at h
      rcases h with h | h
      · left; exact h
      · right; exact toDigits_mem _ c h
    · right; exact toDigits_mem _ c h
  rcases key with h | h
  · subst h; decide
  · refine ⟨?_, ?_, digit_not_space c h⟩
    · intro e; rw [e] at h; revert h; decide
    · intro e; rw [e] at h; revert h; decide

theorem Itoa_ne_nil (d : Int) : Itoa d ≠ [] := by
  unfold Itoa
  split
  · simp
  · exact toDigits_ne_nil _

/-! ## Lemmas on the parser loop -/

theorem ParseCS_eq_parseLoop (isDialString : List Char → Bool) (s : List Char) :
    ParseCSStorageServerConfigStrings isDialString s =
      parseLoop isDialString (Split ',' s) [] := by
  unfold ParseCSStorageServerConfigStrings
  by_cases hs : s = []
  · subst hs
    simp [Split, parseLoop, TrimSpace, trimRight, trimLeft]
  · simp [hs]

theorem parseLoop_blank (isDialString : List Char → Bool) (raw : List Char)
    (rest : List (List Char)) (acc : List StorageServerConfig) (h : TrimSpace raw = []) :
    parseLoop isDialString (raw :: rest) acc = parseLoop isDialString rest acc := by
  simp [parseLoop, h]

theorem parseLoop_valid (isDialString : List Char → Bool) (raw : List Char)
    (rest : List (List Char)) (acc : List StorageServerConfig) (h : TrimSpace raw ≠ [])
    (hd : isDialString (entryConfig (TrimSpace raw)).Address = true) :
    parseLoop isDialString (raw :: rest) acc =
      parseLoop isDialString rest (acc ++ [entryConfig (TrimSpace raw)]) := by
  simp [parseLoop, h, hd]

theorem parseLoop_invalid (isDialString : List Char → Bool) (raw : List Char)
    (rest : List (List Char)) (acc : List StorageServerConfig) (h : TrimSpace raw ≠ [])
    (hd : isDialString (entryConfig (TrimSpace raw)).Address = false) :
    parseLoop isDialString (raw :: rest) acc =
      (acc, some (ParseError.invalidAddress (entryConfig (TrimSpace raw)).Address)) := by
  simp [parseLoop, h, hd]

theorem parseLoop_append (isDialString : List Char → Bool) (xs ys : List (List Char)) :
    ∀ acc : List StorageServerConfig,
      parseLoop isDialString (xs ++ ys) acc =
        if (parseLoop isDialString xs acc).2 = none then
          parseLoop isDialString ys (parseLoop isDialString xs acc).1
        else parseLoop isDialString xs acc := by
  induction xs with
  | nil => intro acc; simp [parseLoop]
  | cons x xs ih =>
    intro acc
    by_cases hx : TrimSpace x = []
    · rw [List.cons_append, parseLoop_blank _ _ _ _ hx, parseLoop_blank _ _ _ _ hx, ih]
    · by_cases hd : isDialString (entryConfig (TrimSpace x)).Address = true
      · rw [List.cons_append, parseLoop_valid _ _ _ _ hx hd, parseLoop_valid _ _ _ _ hx hd, ih]
      · have hd' : isDialString (entryConfig (TrimSpace x)).Address = false := by
          simpa using hd
        rw [List.cons_append, parseLoop_invalid _ _ _ _ hx hd', parseLoop_invalid _ _ _ _ hx hd']
        simp

theorem parseLoop_filter (isDialString : List Char → Bool) (entries : List (List Char)) :
    ∀ acc : List StorageServerConfig,
      parseLoop isDialString entries acc =
        parseLoop isDialString (entries.filter (fun e => decide (TrimSpace e ≠ []))) acc := by
  induction entries with
  | nil => intro acc; rfl
  | cons x xs ih =>
    intro acc
    by_cases hx : TrimSpace x = []
    · rw [parseLoop_blank _ _ _ _ hx, ih]
      simp [hx]
    · have hf : (x :: xs).filter (fun e => decide (TrimSpace e ≠ [])) =
          x :: xs.filter (fun e => decide (TrimSpace e ≠ [])) := by
        simp [hx]
      rw [hf]
      by_cases hd : isDialString (entryConfig (TrimSpace x)).Address = true
      · rw [parseLoop_valid _ _ _ _ hx hd, parseLoop_valid _ _ _ _ hx hd, ih]
      · have hd' : isDialString (entryConfig (TrimSpace x)).Address = false := by
          simpa using hd
        rw [parseLoop_invalid _ _ _ _ hx hd', parseLoop_invalid _ _ _ _ hx hd']

theorem parseLoop_error_iff (isDialString : List Char → Bool) (entries : List (List Char)) :
    ∀ acc : List StorageServerConfig,
      (parseLoop isDialString entries acc).2 ≠ none ↔
        ∃ e ∈ entries, TrimSpace e ≠ [] ∧
          isDialString (entryConfig (TrimSpace e)).Address = false := by
  induction entries with
  | nil => intro acc; simp [parseLoop]
  | cons x xs ih =>
    intro acc
    by_cases hx : TrimSpace x = []
    · rw [parseLoop_blank _ _ _ _ hx, ih]
      simp [hx]
    · by_cases hd : isDialString (entryConfig (TrimSpace x)).Address = true
      · rw [parseLoop_valid _ _ _ _ hx hd, ih]
        simp [hx, hd]
      · have hd' : isDialString (entryConfig (TrimSpace x)).Address = false := by
          simpa using hd
        rw [parseLoop_invalid _ _ _ _ hx hd']
        simp [hx, hd']

theorem parseLoop_all_valid (isDialString : List Char → Bool) (entries : List (List Char)) :
    ∀ acc : List StorageServerConfig,
      (∀ e ∈ entries, TrimSpace e ≠ [] →
        isDialString (entryConfig (TrimSpace e)).Address = true) →
      parseLoop isDialString entries acc =
        (acc ++ ((entries.map TrimSpace).filter (fun e => decide (e ≠ []))).map entryConfig,
          none) := by
  induction entries with
  | nil => intro acc _; simp [parseLoop]
  | cons x xs ih =>
    intro acc h
    have hxs : ∀ e ∈ xs, TrimSpace e ≠ [] →
        isDialString (entryConfig (TrimSpace e)).Address = true :=
      fun e he => h e (List.mem_cons_of_mem _ he)
    by_cases hx : TrimSpace x = []
    · rw [parseLoop_blank _ _ _ _ hx, ih acc hxs]
      simp [hx]
    · rw [parseLoop_valid _ _ _ _ hx (h x (by simp) hx), ih _ hxs]
      simp [hx]

theorem entryConfig_no_at (e : List Char) (h : '@' ∉ e) :
    entryConfig e = { Address := e, Database := 0 } := by
  simp [entryConfig, Split_of_not_mem '@' e h]

theorem entryConfig_at (a b : List Char) (hb : '@' ∉ b) :
    entryConfig (a ++ '@' :: b) =
      if (Atoi b).2.isSome then { Address := a ++ '@' :: b, Database := (Atoi b).1 }
      else { Address := a, Database := (Atoi b).1 } := by
  have hsplit := Split_append_sep_cons '@' a b hb
  have hlen : 1 ≤ (Split '@' a).length := by
    cases hs : Split '@' a with
    | nil => exact absurd hs (Split_ne_nil _ _)
    | cons p ps => simp
  have hjoin : Join '@' (Split '@' a ++ [b]) = a ++ '@' :: b := by
    rw [← hsplit, Join_Split]
  have hlast : (Split '@' a ++ [b]).getD (Split '@' a).length [] = b := by
    simp [List.getD_eq_getElem?_getD]
  have hn : ¬ ((Split '@' a).length + 1 < 2) := by omega
  unfold entryConfig
  simp only [hsplit, List.length_append, List.length_singleton, hn, if_false,
    Nat.add_sub_cancel, hlast]
  by_cases herr : (Atoi b).2.isSome = true
  · simp only [herr, if_true, Nat.add_sub_cancel]
    rw [List.take_of_length_le (by simp), hjoin]
  · have h1 : List.take (Split '@' a).length (Split '@' a ++ [b]) = Split '@' a :=
      List.take_left' rfl
    simp [herr, h1, Join_Split]

theorem space_ne_comma (c : Char) (h : isSpace c = true) : c ≠ ',' := by
  intro e
  rw [e] at h
  revert h
  decide

theorem renderConfig_facts (isDialString : List Char → Bool)
    (hdial : ∀ a, isDialString a = true → a ≠ [] ∧ TrimSpace a = a ∧ ',' ∉ a ∧ '@' ∉ a)
    (cfg : StorageServerConfig) (withDB : Bool) (hcfg : isDialString cfg.Address = true) :
    renderConfig cfg withDB ≠ [] ∧ trimLeft (renderConfig cfg withDB) = renderConfig cfg withDB ∧
      trimRight (renderConfig cfg withDB) = renderConfig cfg withDB ∧
      ',' ∉ renderConfig cfg withDB := by
  obtain ⟨hne, htrim, hcomma, _⟩ := hdial cfg.Address hcfg
  obtain ⟨hl, hr⟩ := TrimSpace_fixed _ htrim
  unfold renderConfig
  split
  · exact ⟨hne, hl, hr, hcomma⟩
  · refine ⟨by simp, trimLeft_append _ _ hl hne, ?_, ?_⟩
    · have h := trimRight_append (cfg.Address ++ ['@']) (Itoa cfg.Database)
        (trimRight_of_no_space _ (fun c hc => (Itoa_mem _ c hc).2.2)) (Itoa_ne_nil _)
      simpa using h
    · intro hmem
      rw [List.mem_append, List.mem_cons] at hmem
      rcases hmem with h | h | h
      · exact hcomma h
      · revert h; decide
      · exact (Itoa_mem _ _ h).2.1 rfl

theorem entryConfig_renderConfig (isDialString : List Char → Bool)
    (hdial : ∀ a, isDialString a = true → a ≠ [] ∧ TrimSpace a = a ∧ ',' ∉ a ∧ '@' ∉ a)
    (cfg : StorageServerConfig) (withDB : Bool) (hcfg : isDialString cfg.Address = true)
    (hlo : -(2 : Int) ^ 63 ≤ cfg.Database) (hhi : cfg.Database < (2 : Int) ^ 63) :
    entryConfig (renderConfig cfg withDB) = cfg := by
  obtain ⟨_, _, _, hat⟩ := hdial cfg.Address hcfg
  unfold renderConfig
  split
  · rename_i h
    rw [entryConfig_no_at _ hat, ← h.1]
  · rw [entryConfig_at _ _ (fun h => (Itoa_mem _ _ h).1 rfl), Atoi_Itoa _ hlo hhi]
    simp

theorem parseLoop_entries (isDialString : List Char → Bool)
    (hdial : ∀ a, isDialString a = true → a ≠ [] ∧ TrimSpace a = a ∧ ',' ∉ a ∧ '@' ∉ a)
    (entries : List CSEntry) :
    ∀ acc : List StorageServerConfig, (∀ e ∈ entries, e.WellFormed isDialString) →
      parseLoop isDialString (entries.map CSEntry.text) acc =
        (acc ++ entries.filterMap CSEntry.config, none) := by
  induction entries with
  | nil => intro acc _; simp [parseLoop]
  | cons e es ih =>
    intro acc hwf
    have hes : ∀ x ∈ es, x.WellFormed isDialString :=
      fun x hx => hwf x (List.mem_cons_of_mem _ hx)
    have he := hwf e (by simp)
    cases e with
    | blank ws =>
      have ht : TrimSpace (CSEntry.blank ws).text = [] := TrimSpace_space ws he
      rw [List.map_cons, parseLoop_blank _ _ _ _ ht, ih acc hes]
      simp [CSEntry.config]
    | server pre cfg withDB post =>
      obtain ⟨hpre, hpost, hcfg, hlo, hhi⟩ := he
      obtain ⟨hne, hl, hr, _⟩ := renderConfig_facts isDialString hdial cfg withDB hcfg
      have ht : TrimSpace (CSEntry.server pre cfg withDB post).text = renderConfig cfg withDB :=
        TrimSpace_surround _ _ _ hpre hpost hl hr hne
      have hc := entryConfig_renderConfig isDialString hdial cfg withDB hcfg hlo hhi
      rw [List.map_cons, parseLoop_valid _ _ _ _ (by rw [ht]; exact hne)
        (by rw [ht, hc]; exact hcfg), ht, hc, ih _ hes]
      simp [CSEntry.config]

theorem text_no_comma (isDialString : List Char → Bool)
    (hdial : ∀ a, isDialString a = true → a ≠ [] ∧ TrimSpace a = a ∧ ',' ∉ a ∧ '@' ∉ a)
    (e : CSEntry) (he : e.WellFormed isDialString) : ',' ∉ e.text := by
  cases e with
  | blank ws => exact fun h => space_ne_comma _ (he _ h) rfl
  | server pre cfg withDB post =>
    obtain ⟨hpre, hpost, hcfg, _, _⟩ := he
    obtain ⟨_, _, _, hc⟩ := renderConfig_facts isDialString hdial cfg withDB hcfg
    intro h
    simp only [CSEntry.text, List.mem_append] at h
    rcases h with (h | h) | h
    · exact space_ne_comma _ (hpre _ h) rfl
    · exact hc h
    · exact space_ne_comma _ (hpost _ h) rfl

theorem sampleIsDialString_facts (a : List Char) (h : sampleIsDialString a = true) :
    a ≠ [] ∧ TrimSpace a = a ∧ ',' ∉ a ∧ '@' ∉ a := by
  unfold sampleIsDialString at h
  rw [Bool.and_eq_true] at h
  obtain ⟨hc, hall⟩ := h
  rw [List.all_eq_true] at hall
  have hclass : ∀ c ∈ a, (46 ≤ c.toNat ∧ c.toNat ≤ 58) ∨ (97 ≤ c.toNat ∧ c.toNat ≤ 122) := by
    intro c hc
    simpa using hall c hc
  have hsp : ∀ c ∈ a, isSpace c = false := by
    intro c hc
    have := hclass c hc
    unfold isSpace
    simp only [Bool.or_eq_false_iff, Bool.and_eq_false_iff, decide_eq_false_iff_not,
      beq_eq_false_iff_ne]
    simp
    omega
  refine ⟨?_, ?_, ?_, ?_⟩
  · intro e; rw [e] at hc; simp at hc
  · unfold TrimSpace
    rw [trimLeft_of_no_space _ hsp, trimRight_of_no_space _ hsp]
  · intro hm; have := hclass _ hm; revert this; decide
  · intro hm; have := hclass _ hm; revert this; decide

/-! ## The configuration parser and validator -/

theorem Atoi_malformed_value (b : List Char) (h : (Atoi b).2 = some NumError.ErrSyntax) :
    (Atoi b).1 = 0 := by
  unfold Atoi ParseInt at h ⊢
  cases b with
  | nil => rfl
  | cons c cs =>
    simp only at h ⊢
    split at h
    · rfl
    · split at h
      · simp at h
      · split at h
        · simp at h
        · simp at h

/-- C1: for entries that are white space or the rendering `<address>@<db>` (or `<address>`
alone when db is 0) of a config with a valid dial address, padded with white space, parsing
the comma-joined text gives back exactly the configs, in order, with no error.  Of
`govalidator.IsDialString` it is used that a valid dial string is not empty, has no white
space at its ends and contains neither `,` nor `@`. -/
theorem ParseCSStorageServerConfigStrings_roundtrip (isDialString : List Char → Bool)
    (hdial : ∀ a, isDialString a = true → a ≠ [] ∧ TrimSpace a = a ∧ ',' ∉ a ∧ '@' ∉ a)
    (entries : List CSEntry) (hwf : ∀ e ∈ entries, e.WellFormed isDialString) :
    ParseCSStorageServerConfigStrings isDialString (Join ',' (entries.map CSEntry.text)) =
      (entries.filterMap CSEntry.config, none) := by
  rw [ParseCS_eq_parseLoop]
  by_cases hne : entries = []
  · subst hne
    simp [Join, Split, parseLoop, TrimSpace, trimRight, trimLeft]
  · have hsplit : Split ',' (Join ',' (entries.map CSEntry.text)) = entries.map CSEntry.text := by
      apply Split_Join
      · simpa using hne
      · intro p hp
        obtain ⟨e, he, rfl⟩ := List.mem_map.mp hp
        exact text_no_comma isDialString hdial e (hwf e he)
    rw [hsplit]
    simpa using parseLoop_entries isDialString hdial entries [] hwf

/-- Witness of C1 on `" 10.0.0.1:16379@5,,10.0.0.2:16379 , "`. -/
theorem ParseCSStorageServerConfigStrings_roundtrip_witness :
    ParseCSStorageServerConfigStrings sampleIsDialString
        " 10.0.0.1:16379@5,,10.0.0.2:16379 , ".toList =
      ([{ Address := "10.0.0.1:16379".toList, Database := 5 },
        { Address := "10.0.0.2:16379".toList, Database := 0 }], none) :=
  ParseCSStorageServerConfigStrings_roundtrip sampleIsDialString sampleIsDialString_facts
    sampleEntries (by decide)

theorem removeCluster_mem (clusterID name : String) (l : List String) (hmem : name ∈ l)
    (hne : name ≠ clusterID) : name ∈ removeCluster clusterID l := by
  induction l with
  | nil => exact absurd hmem (List.not_mem_nil _)
  | cons x xs ih =>
    unfold removeCluster
    rw [List.mem_cons] at hmem
    by_cases hx : x = clusterID
    · simp only [hx, if_true]
      rcases hmem with h | h
      · exact absurd (h.trans hx) hne
      · exact h
    · simp only [hx, if_false, List.mem_cons]
      rcases hmem with h | h
      · exact Or.inl h
      · exact Or.inr (ih h)

theorem pruneClusters_mem (name : String) (clusterIDs : List String) :
    ∀ l : List String, name ∈ l → name ∉ clusterIDs → name ∈ pruneClusters clusterIDs l := by
  induction clusterIDs with
  | nil => intro l hmem _; exact hmem
  | cons c cs ih =>
    intro l hmem hnot
    have hne : name ≠ c := fun e => hnot (by simp [e])
    have hcs : name ∉ cs := fun h => hnot (List.mem_cons_of_mem _ h)
    have h1 := removeCluster_mem c name l hmem hne
    unfold pruneClusters
    simp only
    split
    · exact h1
    · exact ih _ h1 hcs

theorem validateVdisks_ne_none (clusterIDs : List String) (vdisks : List (String × VdiskConfig))
    (vdiskID : String) (vdisk : VdiskConfig) (hmem : (vdiskID, vdisk) ∈ vdisks)
    (hleft : pruneClusters clusterIDs (referencedClusters vdisk) ≠ []) :
    validateVdisks clusterIDs vdisks ≠ none := by
  induction vdisks with
  | nil => exact absurd hmem (List.not_mem_nil _)
  | cons x xs ih =>
    obtain ⟨xid, xv⟩ := x
    unfold validateVdisks
    simp only
    split
    · simp
    · rename_i hlen
      rw [List.mem_cons] at hmem
      rcases hmem with h | h
      · injection h with h1 h2
        subst h2
        exact absurd (List.length_pos.mpr hleft) hlen
      · exact ih h

theorem referencedClusters_mem (vdisk : VdiskConfig) (name : String) :
    name ∈ referencedClusters vdisk ↔
      name = vdisk.Storagecluster ∨
      (vdisk.RootStorageCluster ≠ "" ∧ name = vdisk.RootStorageCluster) ∨
      (vdisk.TlogStoragecluster ≠ "" ∧ name = vdisk.TlogStoragecluster) := by
  unfold referencedClusters
  by_cases hr : vdisk.RootStorageCluster = "" <;> by_cases ht : vdisk.TlogStoragecluster = "" <;>
    simp [hr, ht]

theorem removeCluster_eq_erase (clusterID : String) (l : List String) :
    removeCluster clusterID l = l.erase clusterID := by
  induction l with
  | nil => rfl
  | cons x xs ih =>
    by_cases hx : x = clusterID
    · simp [removeCluster, hx]
    · simp [removeCluster, hx, ih, List.erase_cons_tail]

theorem pruneClusters_nil (clusterIDs : List String) : pruneClusters clusterIDs [] = [] := by
  cases clusterIDs <;> simp [pruneClusters, removeCluster]

theorem pruneClusters_cons (c : String) (cs l : List String) :
    pruneClusters (c :: cs) l = pruneClusters cs (l.erase c) := by
  have hstep : pruneClusters (c :: cs) l =
      if (removeCluster c l).length = 0 then removeCluster c l
      else pruneClusters cs (removeCluster c l) := rfl
  rw [hstep, removeCluster_eq_erase]
  split
  · rename_i h
    rw [List.length_eq_zero.mp h, pruneClusters_nil]
  · rfl

theorem pruneClusters_eq_nil_iff (clusterIDs : List String) (hnd : clusterIDs.Nodup) :
    ∀ l : List String,
      pruneClusters clusterIDs l = [] ↔ l.Nodup ∧ ∀ x ∈ l, x ∈ clusterIDs := by
  induction clusterIDs with
  | nil =>
    intro l
    cases l with
    | nil => simp [pruneClusters]
    | cons x xs =>
      simp only [pruneClusters]
      constructor
      · intro h
        cases h
      · rintro ⟨_, hsub⟩
        exact absurd (hsub x (by simp)) (List.not_mem_nil _)
  | cons c cs ih =>
    intro l
    rw [List.nodup_cons] at hnd
    rw [pruneClusters_cons, ih hnd.2]
    constructor
    · rintro ⟨hn, hsub⟩
      by_cases hc : c ∈ l
      · have hperm := List.perm_cons_erase hc
        have hnot : c ∉ l.erase c := fun h => hnd.1 (hsub c h)
        refine ⟨hperm.nodup_iff.mpr (List.nodup_cons.mpr ⟨hnot, hn⟩), ?_⟩
        intro x hx
        rcases List.mem_cons.mp (hperm.mem_iff.mp hx) with h | h
        · simp [h]
        · exact List.mem_cons_of_mem _ (hsub x h)
      · rw [List.erase_of_not_mem hc] at hn hsub
        exact ⟨hn, fun x hx => List.mem_cons_of_mem _ (hsub x hx)⟩
    · rintro ⟨hn, hsub⟩
      refine ⟨hn.erase c, ?_⟩
      intro x hx
      have hx' := (hn.mem_erase_iff).mp hx
      rcases List.mem_cons.mp (hsub x hx'.2) with h | h
      · exact absurd h hx'.1
      · exact h

theorem validateVdisks_eq_none_iff (clusterIDs : List String)
    (vdisks : List (String × VdiskConfig)) :
    validateVdisks clusterIDs vdisks = none ↔
      ∀ v ∈ vdisks, pruneClusters clusterIDs (referencedClusters v.2) = [] := by
  induction vdisks with
  | nil => simp [validateVdisks]
  | cons x xs ih =>
    obtain ⟨xid, xv⟩ := x
    unfold validateVdisks
    simp only
    split
    · rename_i h
      simp only [false_iff, reduceCtorEq]
      intro hall
      have := hall (xid, xv) (by simp)
      simp only at this
      rw [this] at h
      simp at h
    · rename_i h
      rw [ih]
      have h0 : pruneClusters clusterIDs (referencedClusters xv) = [] :=
        List.length_eq_zero.mp (by omega)
      simp [h0]

/-- What `Config.Validate` checks once the struct-tag validation passes: it returns no
error exactly when every vdisk names only existing clusters and names none of them twice. -/
theorem Validate_eq_none_iff (validateStruct : Config → Option String) (cfg : Config)
    (hstruct : validateStruct cfg = none)
    (hkeys : (cfg.StorageClusters.map Prod.fst).Nodup) :
    cfg.Validate validateStruct = none ↔
      ∀ v ∈ cfg.Vdisks, (referencedClusters v.2).Nodup ∧
        ∀ name ∈ referencedClusters v.2, name ∈ cfg.StorageClusters.map Prod.fst := by
  unfold Config.Validate
  rw [hstruct]
  simp only
  rw [validateVdisks_eq_none_iff]
  constructor
  · intro h v hv
    exact (pruneClusters_eq_nil_iff _ hkeys _).mp (h v hv)
  · intro h v hv
    exact (pruneClusters_eq_nil_iff _ hkeys _).mpr (h v hv)

/-- C2 (evaluation of the code): for the config whose vdisk names the existing cluster
`mycluster` both as storageCluster and as tlogStorageCluster, every referenced cluster is a
key of StorageClusters, and yet `Validate` returns the error that `mycluster` is an
unexisting storage cluster. -/
theorem Validate_rejects_shared_cluster :
    (∀ v ∈ sharedClusterConfig.Vdisks,
      v.2.Storagecluster ∈ sharedClusterConfig.StorageClusters.map Prod.fst ∧
      (v.2.RootStorageCluster ≠ "" →
        v.2.RootStorageCluster ∈ sharedClusterConfig.StorageClusters.map Prod.fst) ∧
      (v.2.TlogStoragecluster ≠ "" →
        v.2.TlogStoragecluster ∈ sharedClusterConfig.StorageClusters.map Prod.fst)) ∧
    sharedClusterConfig.Validate (fun _ => none) =
      some (ValidateError.unexistingClusters "myvdisk" ["mycluster"]) := by
  decide

/-- C3: when some vdisk's storageCluster, non-empty rootStorageCluster or non-empty
tlogStorageCluster is not a key of StorageClusters, `Validate` returns an error, whatever the
struct-tag validation says. -/
theorem Validate_rejects_dangling_reference (validateStruct : Config → Option String)
    (cfg : Config) (vdiskID : String) (vdisk : VdiskConfig)
    (hmem : (vdiskID, vdisk) ∈ cfg.Vdisks)
    (hdangling : vdisk.Storagecluster ∉ cfg.StorageClusters.map Prod.fst ∨
      (vdisk.RootStorageCluster ≠ "" ∧
        vdisk.RootStorageCluster ∉ cfg.StorageClusters.map Prod.fst) ∨
      (vdisk.TlogStoragecluster ≠ "" ∧
        vdisk.TlogStoragecluster ∉ cfg.StorageClusters.map Prod.fst)) :
    cfg.Validate validateStruct ≠ none := by
  unfold Config.Validate
  cases validateStruct cfg with
  | some msg => simp
  | none =>
    simp only
    apply validateVdisks_ne_none _ _ vdiskID vdisk hmem
    have key : ∃ name, name ∈ referencedClusters vdisk ∧
        name ∉ cfg.StorageClusters.map Prod.fst := by
      rcases hdangling with h | ⟨h1, h2⟩ | ⟨h1, h2⟩
      · exact ⟨_, (referencedClusters_mem vdisk _).mpr (Or.inl rfl), h⟩
      · exact ⟨_, (referencedClusters_mem vdisk _).mpr (Or.inr (Or.inl ⟨h1, rfl⟩)), h2⟩
      · exact ⟨_, (referencedClusters_mem vdisk _).mpr (Or.inr (Or.inr ⟨h1, rfl⟩)), h2⟩
    obtain ⟨name, hin, hnot⟩ := key
    exact List.ne_nil_of_mem (pruneClusters_mem name _ _ hin hnot)

/-- Witness of C3: the tlog cluster of `myvdisk` does not exist. -/
theorem Validate_rejects_dangling_reference_witness :
    danglingClusterConfig.Validate (fun _ => none) ≠ none :=
  Validate_rejects_dangling_reference (fun _ => none) danglingClusterConfig "myvdisk"
    { Blocksize := 4096, ReadOnly := false, Size := 10, Storagecluster := "mycluster",
      RootStorageCluster := "", TlogStoragecluster := "tlogcluster", Type' := "boot" }
    (by decide) (by decide)

/-- C4: an entry `a@b` whose text `b` after the last `@` makes `Atoi` fail is treated as an
entry without a database.  The address that is validated is the entire trimmed entry, `@`
and `b` included, and the loop goes on exactly as it does for the config with that address
and Database 0: the config is appended when the address is valid, the error names the
address otherwise.  This holds when `b` is no decimal numeral, and for every `b` when no
valid dial string contains `@`, as is the case for `govalidator.IsDialString`; for a numeral
outside the range of `int`, `Atoi` leaves the nearest bound in the Database field of a
config that is then rejected. -/
theorem ParseCSStorageServerConfigStrings_non_integer_database
    (isDialString : List Char → Bool) (raw a b : List Char) (rest : List (List Char))
    (acc : List StorageServerConfig)
    (hraw : TrimSpace raw = a ++ '@' :: b) (hb : '@' ∉ b) (hfail : (Atoi b).2 ≠ none) :
    (entryConfig (TrimSpace raw)).Address = TrimSpace raw ∧
    ((Atoi b).2 = some NumError.ErrSyntax ∨ (∀ s, isDialString s = true → '@' ∉ s) →
      parseLoop isDialString (raw :: rest) acc =
        if isDialString (TrimSpace raw) = true then
          parseLoop isDialString rest (acc ++ [{ Address := TrimSpace raw, Database := 0 }])
        else (acc, some (ParseError.invalidAddress (TrimSpace raw)))) := by
  have hsome : (Atoi b).2.isSome = true := by
    cases h : (Atoi b).2 with
    | none => exact absurd h hfail
    | some e => rfl
  have hcfg : entryConfig (TrimSpace raw) =
      { Address := TrimSpace raw, Database := (Atoi b).1 } := by
    rw [hraw, entryConfig_at a b hb, if_pos hsome]
  have hne : TrimSpace raw ≠ [] := by rw [hraw]; simp
  refine ⟨by rw [hcfg], ?_⟩
  intro h
  by_cases hd : isDialString (TrimSpace raw) = true
  · rw [if_pos hd]
    rcases h with h | h
    · rw [parseLoop_valid _ _ _ _ hne (by rw [hcfg]; exact hd), hcfg, Atoi_malformed_value b h]
    · exact absurd (by rw [hraw]; simp) (h _ hd)
  · rw [if_neg hd]
    have hd' : isDialString (entryConfig (TrimSpace raw)).Address = false := by
      rw [hcfg]; simpa using hd
    rw [parseLoop_invalid _ _ _ _ hne hd', hcfg]

/-- Witness of C4 on the entry `" host@x:1 "`. -/
theorem ParseCSStorageServerConfigStrings_non_integer_database_witness :
    (entryConfig (TrimSpace " host@x:1 ".toList)).Address = TrimSpace " host@x:1 ".toList ∧
    ((Atoi "x:1".toList).2 = some NumError.ErrSyntax ∨
        (∀ s, sampleIsDialString s = true → '@' ∉ s) →
      parseLoop sampleIsDialString [" host@x:1 ".toList] [] =
        if sampleIsDialString (TrimSpace " host@x:1 ".toList) = true then
          parseLoop sampleIsDialString []
            ([] ++ [{ Address := TrimSpace " host@x:1 ".toList, Database := 0 }])
        else ([], some (ParseError.invalidAddress (TrimSpace " host@x:1 ".toList)))) :=
  ParseCSStorageServerConfigStrings_non_integer_database sampleIsDialString
    " host@x:1 ".toList "host".toList "x:1".toList [] [] (by decide) (by decide) (by decide)

/-- The one case in which the Database field read from an entry with a failing `Atoi` is not
0: a decimal numeral outside the range of `int`.  The address is the entire entry here too,
and it contains `@`. -/
theorem entryConfig_numeral_out_of_range :
    (Atoi "99999999999999999999".toList).2 = some NumError.ErrRange ∧
    entryConfig "10.0.0.1:16379@99999999999999999999".toList =
      { Address := "10.0.0.1:16379@99999999999999999999".toList,
        Database := 9223372036854775807 } := by
  decide

/-- C5: a trailing comma changes neither the configs nor the error; entries that are empty
after trimming can be dropped without changing the result; the empty string gives the empty
list and no error. -/
theorem ParseCSStorageServerConfigStrings_trailing_comma (isDialString : List Char → Bool)
    (s : List Char) :
    ParseCSStorageServerConfigStrings isDialString (s ++ [',']) =
      ParseCSStorageServerConfigStrings isDialString s ∧
    ParseCSStorageServerConfigStrings isDialString s =
      parseLoop isDialString
        ((Split ',' s).filter (fun e => decide (TrimSpace e ≠ []))) [] ∧
    ParseCSStorageServerConfigStrings isDialString [] = ([], none) := by
  refine ⟨?_, ?_, rfl⟩
  · rw [ParseCS_eq_parseLoop, ParseCS_eq_parseLoop, Split_append_sep, parseLoop_append]
    have hblank : ∀ acc, parseLoop isDialString [[]] acc = (acc, none) := by
      intro acc
      simp [parseLoop, TrimSpace, trimRight, trimLeft]
    split
    · rename_i h
      rw [hblank, ← h]
    · rfl
  · rw [ParseCS_eq_parseLoop]
    exact parseLoop_filter isDialString _ []

/-- C6: the parser fails exactly when some comma-separated entry that is non-empty after
trimming has an address that is no valid dial string; when there is none, it returns the
config of every non-blank entry, in input order, and no error. -/
theorem ParseCSStorageServerConfigStrings_error_iff (isDialString : List Char → Bool)
    (s : List Char) :
    ((ParseCSStorageServerConfigStrings isDialString s).2 ≠ none ↔
      ∃ e ∈ Split ',' s, TrimSpace e ≠ [] ∧
        isDialString (entryConfig (TrimSpace e)).Address = false) ∧
    ((∀ e ∈ Split ',' s, TrimSpace e ≠ [] →
        isDialString (entryConfig (TrimSpace e)).Address = true) →
      ParseCSStorageServerConfigStrings isDialString s =
        ((((Split ',' s).map TrimSpace).filter (fun e => decide (e ≠ []))).map entryConfig,
          none)) := by
  rw [ParseCS_eq_parseLoop]
  refine ⟨parseLoop_error_iff isDialString _ [], ?_⟩
  intro h
  simpa using parseLoop_all_valid isDialString _ [] h

/-! ## The tlog server -/

theorem hash_eq_none_of_match (s : Server) (b : TlogBlock) (data : List Nat)
    (hdata : b.Data = Except.ok data) (hhash : b.Hash = Except.ok (s.HashBytes data)) :
    s.hash b = none := by
  simp [Server.hash, hdata, hhash]

theorem hash_of_mismatch (s : Server) (b : TlogBlock) (data rawHash : List Nat)
    (hdata : b.Data = Except.ok data) (hhash : b.Hash = Except.ok rawHash)
    (hne : rawHash ≠ s.HashBytes data) : s.hash b = some HandleError.hashIncorrect := by
  simp [Server.hash, hdata, hhash, hne]

theorem handleLoop_cons_ok (s : Server) (b : TlogBlock)
    (rest : List (Except String TlogBlock)) (hb : s.hash b = none) :
    s.handleLoop (Except.ok b :: rest) =
      (acceptEvents b ++ (s.handleLoop rest).1, (s.handleLoop rest).2) := by
  simp [Server.handleLoop, hb]

theorem handleLoop_cons_bad (s : Server) (b : TlogBlock)
    (rest : List (Except String TlogBlock)) (e : HandleError) (hb : s.hash b = some e) :
    s.handleLoop (Except.ok b :: rest) = ([Event.decodeBlock], e) := by
  simp [Server.handleLoop, hb]

theorem handleLoop_accepted (s : Server) (pre : List TlogBlock)
    (rest : List (Except String TlogBlock)) (hpre : ∀ p ∈ pre, s.hash p = none) :
    s.handleLoop (pre.map Except.ok ++ rest) =
      (pre.flatMap acceptEvents ++ (s.handleLoop rest).1, (s.handleLoop rest).2) := by
  induction pre with
  | nil => simp
  | cons p ps ih =>
    have hp : s.hash p = none := hpre p (by simp)
    have hps : ∀ q ∈ ps, s.hash q = none := fun q hq => hpre q (List.mem_cons_of_mem _ hq)
    rw [List.map_cons, List.cons_append, handleLoop_cons_ok s p _ hp, ih hps]
    simp

theorem handle_of_ok (s : Server) (decoded : Except String HandshakeRequest)
    (reads : List (Except String TlogBlock)) (vd : Vdisk)
    (hok : (s.handshake decoded).result = Except.ok vd) :
    s.handle decoded reads =
      (s.handshakeEvents decoded ++ (s.handleLoop reads).1 ++ [Event.close],
        (s.handleLoop reads).2) := by
  simp [Server.handle, hok]

theorem handshake_OK_iff (s : Server) (decoded : Except String HandshakeRequest) :
    (s.handshake decoded).status = HandshakeStatus.OK ↔
      ∃ vd, (s.handshake decoded).result = Except.ok vd := by
  cases decoded with
  | error e => simp [Server.handshake]
  | ok req =>
    by_cases hlt : s.Compare req.Version s.MinSupportedVersion < 0
    · simp [Server.handshake, hlt]
    · cases hid : req.VdiskID with
      | error e => simp [Server.handshake, hlt, hid]
      | ok vdiskID =>
        cases hget : s.vdiskMgrGet vdiskID req.FirstSequence with
        | error e => simp [Server.handshake, hlt, hid, hget]
        | ok r =>
          obtain ⟨vd, created⟩ := r
          simp [Server.handshake, hlt, hid, hget]

/-- C7: the status handed to the handshake response is decided by the first failing check:
undecodable request, then version below the minimum, then unreadable vdiskID, then failure
of the vdisk manager, and OK otherwise; that status is the one written; and OK is written
exactly when `handshake` returns a vdisk and no error. -/
theorem handshake_status (s : Server) (decoded : Except String HandshakeRequest) :
    (∀ e, decoded = Except.error e →
      (s.handshake decoded).status = HandshakeStatus.InvalidRequest) ∧
    (∀ req, decoded = Except.ok req →
      (s.Compare req.Version s.MinSupportedVersion < 0 →
        (s.handshake decoded).status = HandshakeStatus.InvalidVersion) ∧
      (¬ s.Compare req.Version s.MinSupportedVersion < 0 →
        (∀ e, req.VdiskID = Except.error e →
          (s.handshake decoded).status = HandshakeStatus.InvalidVdiskID) ∧
        (∀ vdiskID, req.VdiskID = Except.ok vdiskID →
          (∀ e, s.vdiskMgrGet vdiskID req.FirstSequence = Except.error e →
            (s.handshake decoded).status = HandshakeStatus.InternalServerError) ∧
          (∀ r, s.vdiskMgrGet vdiskID req.FirstSequence = Except.ok r →
            (s.handshake decoded).status = HandshakeStatus.OK)))) ∧
    Event.writeHandshakeResponse s.CurrentVersion (s.handshake decoded).status.Int8 ∈
      s.handshakeEvents decoded ∧
    ((s.handshake decoded).status = HandshakeStatus.OK ↔
      ∃ vd, (s.handshake decoded).result = Except.ok vd) := by
  refine ⟨?_, ?_, ?_, ?_⟩
  · intro e he
    subst he
    rfl
  · intro req hreq
    subst hreq
    refine ⟨fun hlt => by simp [Server.handshake, hlt], fun hge => ⟨?_, ?_⟩⟩
    · intro e he
      simp [Server.handshake, hge, he]
    · intro vdiskID hid
      refine ⟨fun e he => by simp [Server.handshake, hge, hid, he], fun r hr => ?_⟩
      obtain ⟨vd, created⟩ := r
      simp [Server.handshake, hge, hid, hr]
  · simp [Server.handshakeEvents]
  · exact handshake_OK_iff s decoded

/-- C8 (what the code does): a block whose hash field differs from the hash of its data,
arriving after blocks that were accepted, ends the handler: the block is decoded, nothing is
enqueued and no response is emitted for it, later blocks are not read, the connection is
closed and the error "data hash is incorrect" is returned. -/
theorem handle_hash_mismatch (s : Server) (decoded : Except String HandshakeRequest)
    (vd : Vdisk) (pre : List TlogBlock) (block : TlogBlock)
    (post : List (Except String TlogBlock)) (data rawHash : List Nat)
    (hok : (s.handshake decoded).result = Except.ok vd)
    (hpre : ∀ p ∈ pre, s.hash p = none)
    (hdata : block.Data = Except.ok data) (hhash : block.Hash = Except.ok rawHash)
    (hne : rawHash ≠ s.HashBytes data) :
    s.handle decoded (pre.map Except.ok ++ Except.ok block :: post) =
      (s.handshakeEvents decoded ++ pre.flatMap acceptEvents ++
        [Event.decodeBlock, Event.close], HandleError.hashIncorrect) := by
  rw [handle_of_ok s decoded _ vd hok, handleLoop_accepted s pre _ hpre]
  rw [handleLoop_cons_bad s block post _ (hash_of_mismatch s block data rawHash hdata hhash hne)]
  simp

/-- Witness of C8 (what the code does): a good block followed by a bad one and a further
good one. -/
theorem handle_hash_mismatch_witness :
    sampleServer.handle (Except.ok sampleRequest)
        ([goodBlock].map Except.ok ++ Except.ok badBlock :: [Except.ok goodBlock]) =
      (sampleServer.handshakeEvents (Except.ok sampleRequest) ++
        [goodBlock].flatMap acceptEvents ++ [Event.decodeBlock, Event.close],
        HandleError.hashIncorrect) :=
  handle_hash_mismatch sampleServer (Except.ok sampleRequest) { vdiskID := "myvdisk" }
    [goodBlock] badBlock [Except.ok goodBlock] [1, 2, 3] [0] (by decide) (by decide)
    (by decide) (by decide) (by decide)

/-- C8 (counterexample): the sample server, after a successful handshake, receives
`badBlock`, whose hash field `[0]` differs from the hash `[6]` of its data; the handler
writes the handshake response, decodes the block and closes: no response at all is emitted,
so none with status BlockStatusRecvFailed. -/
theorem handle_hash_mismatch_no_RecvFailed :
    badBlock.Hash = Except.ok [0] ∧ badBlock.Data = Except.ok [1, 2, 3] ∧
    sampleServer.HashBytes [1, 2, 3] = [6] ∧
    (sampleServer.handle (Except.ok sampleRequest) [Except.ok badBlock]).1 =
      [Event.startSendResp "myvdisk", Event.writeHandshakeResponse 5 0, Event.decodeBlock,
        Event.close] ∧
    ¬ ∃ seqs, Event.respond { Status := BlockStatus.RecvFailed.Int8, Sequences := seqs } ∈
      (sampleServer.handle (Except.ok sampleRequest) [Except.ok badBlock]).1 := by
  have h : (sampleServer.handle (Except.ok sampleRequest) [Except.ok badBlock]).1 =
      [Event.startSendResp "myvdisk", Event.writeHandshakeResponse 5 0, Event.decodeBlock,
        Event.close] := by decide
  refine ⟨rfl, rfl, by decide, h, ?_⟩
  rw [h]
  simp

/-- C9: a block that decodes and whose hash field is the hash of its data, arriving after
blocks that were accepted, is first put on the input channel and then answered by exactly
one response, with status BlockStatusRecvOK and the sequence list `[block.Sequence]`; the
handler then goes on with the next read. -/
theorem handle_accepts_block (s : Server) (decoded : Except String HandshakeRequest)
    (vd : Vdisk) (pre : List TlogBlock) (block : TlogBlock)
    (post : List (Except String TlogBlock)) (data : List Nat)
    (hok : (s.handshake decoded).result = Except.ok vd)
    (hpre : ∀ p ∈ pre, s.hash p = none)
    (hdata : block.Data = Except.ok data)
    (hhash : block.Hash = Except.ok (s.HashBytes data)) :
    (s.handle decoded (pre.map Except.ok ++ Except.ok block :: post)).1 =
      s.handshakeEvents decoded ++ pre.flatMap acceptEvents ++
        [Event.decodeBlock, Event.enqueue block,
          Event.respond { Status := BlockStatus.RecvOK.Int8, Sequences := [block.Sequence] }] ++
        (s.handleLoop post).1 ++ [Event.close] := by
  rw [handle_of_ok s decoded _ vd hok, handleLoop_accepted s pre _ hpre]
  rw [handleLoop_cons_ok s block post (hash_eq_none_of_match s block data hdata hhash)]
  simp [acceptEvents]

/-- Witness of C9: `goodBlock` after one accepted block and before a bad one. -/
theorem handle_accepts_block_witness :
    (sampleServer.handle (Except.ok sampleRequest)
        ([goodBlock].map Except.ok ++ Except.ok goodBlock :: [Except.ok badBlock])).1 =
      sampleServer.handshakeEvents (Except.ok sampleRequest) ++
        [goodBlock].flatMap acceptEvents ++
        [Event.decodeBlock, Event.enqueue goodBlock,
          Event.respond
            { Status := BlockStatus.RecvOK.Int8, Sequences := [goodBlock.Sequence] }] ++
        (sampleServer.handleLoop [Except.ok badBlock]).1 ++ [Event.close] :=
  handle_accepts_block sampleServer (Except.ok sampleRequest) { vdiskID := "myvdisk" }
    [goodBlock] goodBlock [Except.ok badBlock] [1, 2, 3] (by decide) (by decide) (by decide)
    (by decide)

/-- C10: when the handshake is rejected, the handler writes the handshake response, closes
the connection and returns the handshake error: no block is decoded, enqueued or
acknowledged, whatever the client sends after its request.  A client version below
MinSupportedVersion is such a case, answered with InvalidVersion. -/
theorem handle_handshake_rejected (s : Server) (decoded : Except String HandshakeRequest)
    (reads : List (Except String TlogBlock)) (e : HandshakeError)
    (hrej : (s.handshake decoded).result = Except.error e) :
    s.handle decoded reads =
      ([Event.writeHandshakeResponse s.CurrentVersion (s.handshake decoded).status.Int8,
        Event.close], HandleError.handshakeFailed e) ∧
    (s.handshake decoded).status ≠ HandshakeStatus.OK ∧
    (∀ req, decoded = Except.ok req → s.Compare req.Version s.MinSupportedVersion < 0 →
      (s.handshake decoded).status = HandshakeStatus.InvalidVersion ∧
      e = HandshakeError.unsupportedVersion req.Version) := by
  refine ⟨?_, ?_, ?_⟩
  · simp [Server.handle, hrej, Server.handshakeEvents]
  · intro hst
    rw [handshake_OK_iff s decoded] at hst
    obtain ⟨vd, hvd⟩ := hst
    rw [hrej] at hvd
    cases hvd
  · intro req hreq hlt
    subst hreq
    have hs : s.handshake (Except.ok req) =
        { result := Except.error (HandshakeError.unsupportedVersion req.Version),
          status := HandshakeStatus.InvalidVersion, senderStarted := false } := by
      simp [Server.handshake, hlt]
    rw [hs] at hrej ⊢
    injection hrej with h
    exact ⟨rfl, h.symm⟩

/-- Witness of C10: the client's version 2 is one below the minimum 3 of the sample
server. -/
theorem handle_handshake_rejected_witness :
    sampleServer.handle (Except.ok oldRequest) [Except.ok goodBlock] =
      ([Event.writeHandshakeResponse sampleServer.CurrentVersion
          (sampleServer.handshake (Except.ok oldRequest)).status.Int8,
        Event.close], HandleError.handshakeFailed (HandshakeError.unsupportedVersion 2)) ∧
    (sampleServer.handshake (Except.ok oldRequest)).status ≠ HandshakeStatus.OK ∧
    (∀ req, (Except.ok oldRequest : Except String HandshakeRequest) = Except.ok req →
      sampleServer.Compare req.Version sampleServer.MinSupportedVersion < 0 →
      (sampleServer.handshake (Except.ok oldRequest)).status = HandshakeStatus.InvalidVersion ∧
      HandshakeError.unsupportedVersion 2 = HandshakeError.unsupportedVersion req.Version) :=
  handle_handshake_rejected sampleServer (Except.ok oldRequest) [Except.ok goodBlock]
    (HandshakeError.unsupportedVersion 2) (by decide)

/-! ## The cache and the vdisk types -/

theorem float64Shift_le (fuel a : Nat) : float64Shift fuel a ≤ fuel := by
  induction fuel generalizing a with
  | zero => simp [float64Shift]
  | succ fuel ih =>
    unfold float64Shift
    split
    · omega
    · have := ih (a / 2)
      omega

theorem float64OfInt_exact (x : Int) (h : x.natAbs < 2 ^ 53) : float64OfInt x = x := by
  have h0 : float64Shift 11 x.natAbs = 0 := by
    unfold float64Shift
    rw [if_pos h]
  have hq : (if 2 * 0 > 1 ∨ 2 * 0 = 1 ∧ x.natAbs % 2 = 1 then x.natAbs + 1 else x.natAbs) =
      x.natAbs := by
    simp
  unfold float64OfInt
  simp only [h0, pow_zero, Nat.div_one, Nat.mod_one, Nat.mul_one, hq]
  split <;> omega

theorem float64OfInt_cleanup : float64OfInt cacheDefaultCleanup = cacheDefaultCleanup := by
  decide

theorem float64OfInt_round_ge (x : Int) (h : (2 : Int) ^ 53 ≤ x) :
    (2 : Int) ^ 53 - 2048 ≤ float64OfInt x := by
  have he := float64Shift_le 11 x.natAbs
  have hp : 2 ^ float64Shift 11 x.natAbs ≤ 2 ^ 11 :=
    Nat.pow_le_pow_right (by decide) he
  have hpos : 0 < 2 ^ float64Shift 11 x.natAbs := pow_pos (by decide) _
  have hdm := Nat.div_add_mod x.natAbs (2 ^ float64Shift 11 x.natAbs)
  have hml := Nat.mod_lt x.natAbs hpos
  have hx : ¬ x < 0 := by
    have : (0 : Int) < 2 ^ 53 := by decide
    omega
  have hna : (x.natAbs : Int) = x := by omega
  unfold float64OfInt
  simp only [hx, if_false]
  generalize 2 ^ float64Shift 11 x.natAbs = p at hp hpos hdm hml
  have hq : x.natAbs / p * p ≤
      (if 2 * (x.natAbs % p) > p ∨ 2 * (x.natAbs % p) = p ∧ x.natAbs / p % 2 = 1 then
        x.natAbs / p + 1 else x.natAbs / p) * p := by
    apply Nat.mul_le_mul_right
    split <;> omega
  have hdm' : x.natAbs / p * p + x.natAbs % p = x.natAbs := by
    rw [Nat.mul_comm]; exact hdm
  have h53 : (2 : Int) ^ 53 = 9007199254740992 := by decide
  rw [h53] at h ⊢
  have hp' : p ≤ 2048 := hp
  have : (x.natAbs : Int) - 2048 ≤
      (((if 2 * (x.natAbs % p) > p ∨ 2 * (x.natAbs % p) = p ∧ x.natAbs / p % 2 = 1 then
        x.natAbs / p + 1 else x.natAbs / p) * p : Nat) : Int) := by
    have : x.natAbs ≤ (if 2 * (x.natAbs % p) > p ∨ 2 * (x.natAbs % p) = p ∧
        x.natAbs / p % 2 = 1 then x.natAbs / p + 1 else x.natAbs / p) * p + 2048 := by
      omega
    omega
  omega

theorem float64OfInt_round_neg (x : Int) (h : x < -(2 : Int) ^ 53) : float64OfInt x < 0 := by
  have he := float64Shift_le 11 x.natAbs
  have hp : 2 ^ float64Shift 11 x.natAbs ≤ 2 ^ 11 :=
    Nat.pow_le_pow_right (by decide) he
  have hpos : 0 < 2 ^ float64Shift 11 x.natAbs := pow_pos (by decide) _
  have h53 : (2 : Int) ^ 53 = 9007199254740992 := by decide
  rw [h53] at h
  have hx : x < 0 := by omega
  have hbig : 2 ^ 11 ≤ x.natAbs := by
    have : (2 : Nat) ^ 11 = 2048 := by decide
    omega
  have hq1 : 1 ≤ x.natAbs / 2 ^ float64Shift 11 x.natAbs :=
    (Nat.one_le_div_iff hpos).mpr (le_trans hp hbig)
  unfold float64OfInt
  simp only [hx, if_true]
  generalize 2 ^ float64Shift 11 x.natAbs = p at hp hpos hq1
  have hq : 1 ≤
      (if 2 * (x.natAbs % p) > p ∨ 2 * (x.natAbs % p) = p ∧ x.natAbs / p % 2 = 1 then
        x.natAbs / p + 1 else x.natAbs / p) := by
    split <;> omega
  have hprod : 0 <
      (if 2 * (x.natAbs % p) > p ∨ 2 * (x.natAbs % p) = p ∧ x.natAbs / p % 2 = 1 then
        x.natAbs / p + 1 else x.natAbs / p) * p := Nat.mul_pos hq hpos
  omega

theorem mathMin_float64_exact (e : Int) (h : -(2 : Int) ^ 53 ≤ e) :
    mathMin (float64OfInt e) (float64OfInt cacheDefaultCleanup) = min e cacheDefaultCleanup := by
  rw [float64OfInt_cleanup]
  have h53 : (2 : Int) ^ 53 = 9007199254740992 := by decide
  have hc : cacheDefaultCleanup = 5000000000 := by decide
  by_cases hbig : (2 : Int) ^ 53 ≤ e
  · have := float64OfInt_round_ge e hbig
    rw [h53] at hbig this
    unfold mathMin
    rw [hc]
    split <;> omega
  · by_cases hlow : e = -(2 : Int) ^ 53
    · subst hlow
      decide
    · have hex : float64OfInt e = e := by
        apply float64OfInt_exact
        have : (2 : Nat) ^ 53 = 9007199254740992 := by decide
        rw [h53] at h hbig hlow
        omega
      rw [hex]
      unfold mathMin
      split <;> omega

/-- The value `NewCache` gives: no cache for a negative maxSize, for which the LRU cannot be
built, and otherwise the cache with the effective expiration, the effective maxSize and the
interval of the flusher. -/
theorem NewCache_eq (expiration cleanup maxSize : Int) :
    NewCache expiration cleanup maxSize =
      if maxSize < 0 then none
      else some
        { expiration := if expiration = 0 then cacheDefaultExpiration else expiration
          maxSize := if maxSize = 0 then cacheDefaultMaxSize else maxSize
          flusherInterval :=
            if cleanup = 0 then
              mathMin (float64OfInt (if expiration = 0 then cacheDefaultExpiration
                else expiration)) (float64OfInt cacheDefaultCleanup)
            else cleanup } := by
  have h100 : cacheDefaultMaxSize = 100 := rfl
  unfold NewCache gcacheNew
  by_cases h0 : maxSize = 0
  · subst h0
    simp [h100]
  · by_cases hneg : maxSize < 0
    · have hle : maxSize ≤ 0 := by omega
      simp [h0, hneg, hle]
    · have hle : ¬ maxSize ≤ 0 := by omega
      simp [h0, hneg, hle]

/-- C11 (what the code does): when `NewCache` is given a zero cleanup interval, the interval
at which the background flusher of the cache it builds forces the expiry is at most 5
seconds. -/
theorem NewCache_default_cleanup_le (expiration cleanup maxSize : Int) (c : Cache)
    (h : cleanup = 0) (hc : NewCache expiration cleanup maxSize = some c) :
    c.flusherInterval ≤ 5 * Second := by
  subst h
  have h5 : float64OfInt cacheDefaultCleanup = 5 * Second := by decide
  rw [NewCache_eq] at hc
  split at hc
  · simp at hc
  · simp only [Option.some.injEq, if_true, h5] at hc
    subst hc
    simp only
    unfold mathMin
    split <;> omega

/-- Witness of C11 (what the code does): an expiration of 2 seconds and no cleanup given. -/
theorem NewCache_default_cleanup_le_witness :
    NewCache (2 * Second) 0 0 =
        some { expiration := 2 * Second, maxSize := 100, flusherInterval := 2 * Second } ∧
    (Cache.mk (2 * Second) 100 (2 * Second)).flusherInterval ≤ 5 * Second :=
  ⟨by decide, NewCache_default_cleanup_le (2 * Second) 0 0 _ rfl (by decide)⟩

/-- C11 (counterexample): a cache built with a cleanup interval of 60 seconds has its expiry
forced every 60 seconds, which is more than 5 seconds. -/
theorem NewCache_cleanup_above_five_seconds :
    NewCache 0 (60 * Second) 0 =
        some { expiration := 10 * Second, maxSize := 100, flusherInterval := 60 * Second } ∧
    ¬ (Cache.mk (10 * Second) 100 (60 * Second)).flusherInterval ≤ 5 * Second := by
  decide

/-- C12 (what the code does): `NewCache` builds a cache for every maxSize that is not
negative, and none for a negative one, for which the LRU cannot be built.  The cache has a
zero expiration replaced by 10 seconds and a zero maxSize by 100, and has a non-zero
expiration, a positive maxSize and a non-zero cleanup interval unchanged.  A zero cleanup
interval becomes the minimum of the effective expiration and 5 seconds: exactly so for every
expiration from `-2 ^ 53` nanoseconds on, where the conversion to float64 is harmless, and
for every expiration as to the time the flusher waits. -/
theorem NewCache_defaults (expiration cleanup maxSize : Int) :
    (maxSize < 0 → NewCache expiration cleanup maxSize = none) ∧
    (0 ≤ maxSize → ∃ c, NewCache expiration cleanup maxSize = some c ∧
      c.expiration = (if expiration = 0 then 10 * Second else expiration) ∧
      c.maxSize = (if maxSize = 0 then 100 else maxSize) ∧
      (cleanup ≠ 0 → c.flusherInterval = cleanup) ∧
      (cleanup = 0 → -(2 : Int) ^ 53 ≤ expiration →
        c.flusherInterval = min c.expiration (5 * Second)) ∧
      (cleanup = 0 →
        waitingTime c.flusherInterval = waitingTime (min c.expiration (5 * Second)))) := by
  have hs : (5 : Int) * Second = cacheDefaultCleanup := by decide
  have key : ∀ e : Int, -(2 : Int) ^ 53 ≤ e →
      mathMin (float64OfInt e) (float64OfInt cacheDefaultCleanup) = min e (5 * Second) := by
    intro e he
    rw [hs]
    exact mathMin_float64_exact e he
  have heff : -(2 : Int) ^ 53 ≤ expiration →
      -(2 : Int) ^ 53 ≤ (if expiration = 0 then cacheDefaultExpiration else expiration) := by
    intro h
    split
    · decide
    · exact h
  refine ⟨?_, ?_⟩
  · intro hneg
    rw [NewCache_eq, if_pos hneg]
  intro hpos
  have hnot : ¬ maxSize < 0 := by omega
  rw [NewCache_eq, if_neg hnot]
  refine ⟨_, rfl, ?_, ?_, ?_, ?_, ?_⟩
  · simp only
    split <;> first | decide | rfl
  · simp only
    split <;> rfl
  · intro hc
    simp [hc]
  · intro hc hexp
    subst hc
    simp only [if_true]
    exact key _ (heff hexp)
  · intro hc
    subst hc
    simp only [if_true]
    by_cases hexp : -(2 : Int) ^ 53 ≤ expiration
    · rw [key _ (heff hexp)]
    · have hne : expiration ≠ 0 := by
        intro h0
        apply hexp
        rw [h0]
        decide
      have hlt : expiration < -(2 : Int) ^ 53 := by omega
      have hneg := float64OfInt_round_neg expiration hlt
      have h53 : (2 : Int) ^ 53 = 9007199254740992 := by decide
      have hcl : float64OfInt cacheDefaultCleanup = 5000000000 := by decide
      have h5 : (5 : Int) * Second = 5000000000 := by decide
      rw [h53] at hlt
      simp only [hne, if_false, hcl, h5]
      unfold waitingTime mathMin
      have hmin : min expiration 5000000000 = expiration := by
        apply min_eq_left
        omega
      rw [hmin]
      split <;> split <;> split <;> omega

/-- C12 (counterexample): with an expiration of `-(2 ^ 53 + 1)` nanoseconds and no cleanup
interval given, the interval of the flusher is `-2 ^ 53` nanoseconds, the expiration rounded
by the conversion to float64, and not the minimum of the expiration and 5 seconds; and a
maxSize of -1 is not used at all, as no cache is built for it. -/
theorem NewCache_cleanup_rounded :
    NewCache (-9007199254740993) 0 0 =
        some { expiration := -9007199254740993, maxSize := 100,
               flusherInterval := -9007199254740992 } ∧
    (Cache.mk (-9007199254740993) 100 (-9007199254740992)).flusherInterval ≠
      min (Cache.mk (-9007199254740993) 100 (-9007199254740992)).expiration (5 * Second) ∧
    NewCache 0 0 (-1) = none := by
  decide

theorem VdiskType_valid_iff (t : VdiskType) :
    (t = VdiskTypeBoot ∨ t = VdiskTypeDB ∨ t = VdiskTypeCache) ↔
      (t = "boot" ∨ t = "db" ∨ t = "cache") := by
  simp [VdiskTypeBoot, VdiskTypeDB, VdiskTypeCache]

/-- C13: `MarshalYAML` and `UnmarshalYAML` accept exactly the vdisk types boot, db and
cache; both answer the nil type and every other string with an error (and `UnmarshalYAML`
then leaves its receiver as it was); unmarshalling what `MarshalYAML` produced for a type
gives that type again. -/
theorem VdiskType_yaml (t : VdiskType) :
    ((∃ s, VdiskType.MarshalYAML t = Except.ok s) ↔ (t = "boot" ∨ t = "db" ∨ t = "cache")) ∧
    (∀ t₀ : VdiskType, (VdiskType.UnmarshalYAML t₀ (Except.ok t)).2 = none ↔
      (t = "boot" ∨ t = "db" ∨ t = "cache")) ∧
    (∀ t₀ : VdiskType, ¬ (t = "boot" ∨ t = "db" ∨ t = "cache") →
      VdiskType.MarshalYAML t = Except.error VdiskTypeError.notValid ∧
      VdiskType.UnmarshalYAML t₀ (Except.ok t) = (t₀, some VdiskTypeError.notValid)) ∧
    VdiskType.MarshalYAML VdiskTypeNil = Except.error VdiskTypeError.notValid ∧
    (∀ t₀ : VdiskType,
      VdiskType.UnmarshalYAML t₀ (Except.ok VdiskTypeNil) =
        (t₀, some VdiskTypeError.notValid)) ∧
    (∀ (s : String) (t₀ : VdiskType), VdiskType.MarshalYAML t = Except.ok s →
      VdiskType.UnmarshalYAML t₀ (Except.ok s) = (t, none)) := by
  have hv := VdiskType_valid_iff t
  refine ⟨?_, ?_, ?_, by decide, fun t₀ => by simp [VdiskType.UnmarshalYAML, VdiskTypeNil, VdiskTypeBoot, VdiskTypeDB, VdiskTypeCache], ?_⟩
  · unfold VdiskType.MarshalYAML
    rw [← hv]
    split <;> simp_all
  · intro t₀
    simp only [VdiskType.UnmarshalYAML]
    rw [← hv]
    split <;> simp_all
  · intro t₀ hnot
    rw [← hv] at hnot
    simp [VdiskType.MarshalYAML, VdiskType.UnmarshalYAML, hnot]
  · intro s t₀ hm
    unfold VdiskType.MarshalYAML at hm
    split at hm
    · rename_i hvalid
      injection hm with hs
      subst hs
      simp [VdiskType.UnmarshalYAML, hvalid]
    · cases hm

/-! ## The vdisk copy command -/

theorem readTargetClusterConfig_ok {κ : Type} (sys : CopySystem κ)
    (sourceVdiskID targetVdiskID targetClusterID : String) (ev : List (CopyEvent κ))
    (tc : Option κ)
    (h : readTargetClusterConfig sys sourceVdiskID targetVdiskID targetClusterID =
      (ev, Except.ok tc)) :
    (tc = none ↔ (targetClusterID = "" ∨
      sys.ReadVdiskNBDConfig sourceVdiskID = Except.ok targetClusterID)) ∧
    (∀ c, tc = some c → sys.ReadStorageClusterConfig targetClusterID = Except.ok c) := by
  unfold readTargetClusterConfig at h
  by_cases hid : targetClusterID = ""
  · simp only [hid, ne_eq, not_true_eq_false, if_false, Prod.mk.injEq, Except.ok.injEq] at h
    rw [← h.2]
    simp [hid]
  · simp only [ne_eq, hid, not_false_eq_true, if_true] at h
    cases hnbd : sys.ReadVdiskNBDConfig sourceVdiskID with
    | error e =>
      rw [hnbd] at h
      simp at h
    | ok storageClusterID =>
      rw [hnbd] at h
      by_cases hsame : storageClusterID = targetClusterID
      · simp only [hsame, not_true_eq_false, if_false, Prod.mk.injEq, Except.ok.injEq] at h
        rw [← h.2]
        simp [hsame]
      · simp only [hsame, not_false_eq_true, if_true] at h
        cases hcl : sys.ReadStorageClusterConfig targetClusterID with
        | error e =>
          rw [hcl] at h
          simp at h
        | ok c =>
          rw [hcl] at h
          simp only [Prod.mk.injEq, Except.ok.injEq] at h
          rw [← h.2]
          simp [hid, hsame]

theorem readTargetClusterConfig_events {κ : Type} (sys : CopySystem κ)
    (sourceVdiskID targetVdiskID targetClusterID : String) (e : CopyEvent κ)
    (h : e ∈ (readTargetClusterConfig sys sourceVdiskID targetVdiskID targetClusterID).1) :
    e = CopyEvent.readVdiskNBDConfig sourceVdiskID ∨
      e = CopyEvent.readStorageClusterConfig targetClusterID := by
  unfold readTargetClusterConfig at h
  split at h
  · split at h
    · simp at h; exact Or.inl h
    · split at h
      · split at h <;> simpa using h
      · simp at h; exact Or.inl h
  · simp at h

theorem copyVdiskData_events {κ : Type} (sys : CopySystem κ) (stype : StorageType)
    (sourceVdiskID targetVdiskID : String) (sc : κ) (tc : Option κ) (e : CopyEvent κ)
    (h : e ∈ (copyVdiskData sys stype sourceVdiskID targetVdiskID sc tc).1) :
    ∃ routine, e = CopyEvent.copyStorage routine sourceVdiskID targetVdiskID sc tc := by
  unfold copyVdiskData at h
  split at h
  · exact ⟨_, by simpa using h⟩
  · exact ⟨_, by simpa using h⟩
  · exact ⟨_, by simpa using h⟩
  · simp at h

theorem copyVdiskTlog_events {κ : Type} (sys : CopySystem κ) (cfg : VdiskCmdCfg)
    (static : VdiskStaticConfig) (sourceVdiskID targetVdiskID : String) (sc : κ)
    (tc : Option κ) (e : CopyEvent κ)
    (h : e ∈ (copyVdiskTlog sys cfg static sourceVdiskID targetVdiskID sc tc).1) :
    (∃ c, e = CopyEvent.copyTlog c) ∨
      e = CopyEvent.copyMetadata sourceVdiskID targetVdiskID sc tc := by
  unfold copyVdiskTlog at h
  simp only at h
  split at h
  · exact Or.inl ⟨_, by simpa using h⟩
  · split at h
    · exact Or.inl ⟨_, by simpa using h⟩
    · simp only [List.mem_cons, List.mem_singleton, List.not_mem_nil, or_false] at h
      rcases h with h | h
      · exact Or.inl ⟨_, h⟩
      · exact Or.inr h

theorem copyVdisk_copyStorage_reached {κ : Type} (sys : CopySystem κ) (cfg : VdiskCmdCfg)
    (args : List String) (routine : CopyRoutine) (src tgt : String) (sc : κ) (tc : Option κ)
    (h : CopyEvent.copyStorage routine src tgt sc tc ∈ (copyVdisk sys cfg args).1) :
    ∃ ev, readTargetClusterConfig sys (args.getD 0 "") (args.getD 1 "")
      (targetClusterIDOf args) = (ev, Except.ok tc) := by
  unfold copyVdisk at h
  split at h
  · simp at h
  · simp only [List.mem_append, List.mem_singleton, reduceCtorEq, or_false] at h
    unfold copyVdiskBody at h
    simp only at h
    split at h
    · simp at h
    · split at h
      · simp at h
      · split at h
        · simp at h
        · split at h
          · simp at h
          · split at h
            · rename_i ev e hrt
              simp only [List.mem_append, List.mem_cons, reduceCtorEq, List.not_mem_nil,
                or_false, false_or] at h
              have := readTargetClusterConfig_events sys _ _ _ _ (by rw [hrt]; exact h)
              simp at this
            · rename_i static hst x1 c hc x0 ev tc' hrt
              have hmem : CopyEvent.copyStorage routine src tgt sc tc ∈ ev ∨
                  CopyEvent.copyStorage routine src tgt sc tc ∈
                    (copyVdiskData sys static.StorageType (args.getD 0 "") (args.getD 1 "") c
                      tc').1 ∨
                  CopyEvent.copyStorage routine src tgt sc tc ∈
                    (copyVdiskTlog sys cfg static (args.getD 0 "") (args.getD 1 "") c tc').1 := by
                split at h
                · simp only [List.mem_append, List.mem_cons, reduceCtorEq, List.not_mem_nil,
                    or_false, false_or] at h
                  rcases h with h | h
                  · exact Or.inl h
                  · exact Or.inr (Or.inl h)
                · simp only [List.mem_append, List.mem_cons, reduceCtorEq, List.not_mem_nil,
                    or_false, false_or] at h
                  rcases h with (h | h) | h
                  · exact Or.inl h
                  · exact Or.inr (Or.inl h)
                  · exact Or.inr (Or.inr h)
              rcases hmem with h1 | h1 | h1
              · have := readTargetClusterConfig_events sys _ _ _ _ (by rw [hrt]; exact h1)
                simp at this
              · obtain ⟨r, hr⟩ := copyVdiskData_events sys _ _ _ _ _ _ h1
                injection hr with _ _ _ _ htc
                rw [htc]
                exact ⟨ev, hrt⟩
              · rcases copyVdiskTlog_events sys cfg _ _ _ _ _ _ h1 with ⟨c, hc⟩ | hc
                · cases hc
                · cases hc

/-- C14: whenever `copyVdisk` invokes a copy routine, the target cluster config it passes is
nil exactly when no target cluster ID is given (there is no third argument, or it is empty)
or the given ID is the storage cluster ID of the source vdisk; otherwise it is the config
read for the given target cluster ID. -/
theorem copyVdisk_target_cluster_config {κ : Type} (sys : CopySystem κ) (cfg : VdiskCmdCfg)
    (args : List String) (routine : CopyRoutine) (src tgt : String) (sc : κ) (tc : Option κ)
    (h : CopyEvent.copyStorage routine src tgt sc tc ∈ (copyVdisk sys cfg args).1) :
    (tc = none ↔ (targetClusterIDOf args = "" ∨
      sys.ReadVdiskNBDConfig (args.getD 0 "") = Except.ok (targetClusterIDOf args))) ∧
    (∀ c, tc = some c →
      sys.ReadStorageClusterConfig (targetClusterIDOf args) = Except.ok c) := by
  obtain ⟨ev, hev⟩ := copyVdisk_copyStorage_reached sys cfg args routine src tgt sc tc h
  exact readTargetClusterConfig_ok sys _ _ _ ev tc hev

/-- Witness of C14: the copy of `source` to `target` with the target cluster
`othercluster`. -/
theorem copyVdisk_target_cluster_config_witness :
    ((some "othercluster" : Option String) = none ↔
      (targetClusterIDOf ["source", "target", "othercluster"] = "" ∨
        sampleCopySystem.ReadVdiskNBDConfig (["source", "target", "othercluster"].getD 0 "") =
          Except.ok (targetClusterIDOf ["source", "target", "othercluster"]))) ∧
    (∀ c, (some "othercluster" : Option String) = some c →
      sampleCopySystem.ReadStorageClusterConfig
        (targetClusterIDOf ["source", "target", "othercluster"]) = Except.ok c) :=
  copyVdisk_target_cluster_config sampleCopySystem sampleCmdCfg
    ["source", "target", "othercluster"] CopyRoutine.CopyDeduped "source" "target" "mycluster"
    (some "othercluster") (by decide)

/-- The flag `same` has no part in what `copyVdisk` does. -/
theorem copyVdisk_ignores_same_flag {κ : Type} (sys : CopySystem κ) (cfg : VdiskCmdCfg)
    (same : Bool) (args : List String) :
    copyVdisk sys { cfg with ForceSameStorageCluster := same } args = copyVdisk sys cfg args := by
  rfl

/-- C15 (evaluation of the code): with the flag `same` set and the target cluster
`othercluster` given for a source vdisk stored on `mycluster`, `copyVdisk` reads the config
of `othercluster` and hands it to the copy routine as the target cluster config, which is
not nil. -/
theorem copyVdisk_same_flag_other_cluster :
    sampleCmdCfg.ForceSameStorageCluster = true ∧
    sampleCopySystem.ReadVdiskNBDConfig "source" = Except.ok "mycluster" ∧
    copyVdisk sampleCopySystem sampleCmdCfg ["source", "target", "othercluster"] =
      ([CopyEvent.readVdiskStaticConfig "source", CopyEvent.readNBDStorageConfig "source",
        CopyEvent.readVdiskNBDConfig "source",
        CopyEvent.readStorageClusterConfig "othercluster",
        CopyEvent.copyStorage CopyRoutine.CopyDeduped "source" "target" "mycluster"
          (some "othercluster"),
        CopyEvent.copyTlog
          { SourceVdiskID := "source", TargetVdiskID := "target",
            PrivKey := "12345678901234567890123456789012", FlushSize := 25, JobCount := 4 },
        CopyEvent.copyMetadata "source" "target" "mycluster" (some "othercluster"),
        CopyEvent.closeSource], none) := by
  decide

theorem copyVdiskData_error {κ : Type} (sys : CopySystem κ) (stype : StorageType)
    (src tgt : String) (sc : κ) (tc : Option κ) :
    (copyVdiskData sys stype src tgt sc tc).2 ≠ some CopyError.notEnoughArguments ∧
    (copyVdiskData sys stype src tgt sc tc).2 ≠ some CopyError.tooManyArguments := by
  unfold copyVdiskData
  split
  · cases sys.CopyDeduped src tgt sc tc <;> simp
  · cases sys.CopyNonDeduped src tgt sc tc <;> simp
  · cases sys.CopySemiDeduped src tgt sc tc <;> simp
  · simp

theorem copyVdiskTlog_error {κ : Type} (sys : CopySystem κ) (cfg : VdiskCmdCfg)
    (static : VdiskStaticConfig) (src tgt : String) (sc : κ) (tc : Option κ) :
    (copyVdiskTlog sys cfg static src tgt sc tc).2 ≠ some CopyError.notEnoughArguments ∧
    (copyVdiskTlog sys cfg static src tgt sc tc).2 ≠ some CopyError.tooManyArguments := by
  unfold copyVdiskTlog
  simp only
  split
  · simp
  · split
    · simp
    · cases sys.CopyMetadata src tgt sc tc <;> simp

theorem readTargetClusterConfig_error {κ : Type} (sys : CopySystem κ)
    (src tgt tid : String) (ev : List (CopyEvent κ)) (e : CopyError)
    (h : readTargetClusterConfig sys src tgt tid = (ev, Except.error e)) :
    e ≠ CopyError.notEnoughArguments ∧ e ≠ CopyError.tooManyArguments := by
  unfold readTargetClusterConfig at h
  split at h
  · split at h
    · simp only [Prod.mk.injEq, Except.error.injEq] at h
      rw [← h.2]
      simp
    · split at h
      · split at h
        · simp only [Prod.mk.injEq, Except.error.injEq] at h
          rw [← h.2]
          simp
        · simp at h
      · simp at h
  · simp at h

/-- C16: once the config source is created, `copyVdisk` with fewer than two positional
arguments returns "not enough arguments" and with more than three "too many arguments", in
both cases having done nothing but close the config source: no config is read and nothing is
copied.  With two or three arguments the check passes: the command goes on to read the
static config of the source vdisk, and the error it returns, if any, is neither of the two. -/
theorem copyVdisk_argument_count {κ : Type} (sys : CopySystem κ) (cfg : VdiskCmdCfg)
    (args : List String) (hsource : sys.NewSource = none) :
    (args.length < 2 →
      copyVdisk sys cfg args = ([CopyEvent.closeSource], some CopyError.notEnoughArguments)) ∧
    (args.length > 3 →
      copyVdisk sys cfg args = ([CopyEvent.closeSource], some CopyError.tooManyArguments)) ∧
    (2 ≤ args.length → args.length ≤ 3 →
      (∃ rest, (copyVdisk sys cfg args).1 =
        CopyEvent.readVdiskStaticConfig (args.getD 0 "") :: rest) ∧
      (copyVdisk sys cfg args).2 ≠ some CopyError.notEnoughArguments ∧
      (copyVdisk sys cfg args).2 ≠ some CopyError.tooManyArguments) := by
  refine ⟨?_, ?_, ?_⟩
  · intro h
    simp [copyVdisk, hsource, copyVdiskBody, h]
  · intro h
    have h2 : ¬ args.length < 2 := by omega
    simp [copyVdisk, hsource, copyVdiskBody, h, h2]
  · intro h2 h3
    have h2' : ¬ args.length < 2 := by omega
    have h3' : ¬ args.length > 3 := by omega
    simp only [copyVdisk, hsource, copyVdiskBody, h2', h3', if_false]
    split
    · simp
    · split
      · simp
      · split
        · rename_i ev e hrt
          have := readTargetClusterConfig_error sys _ _ _ ev e hrt
          simp [this.1, this.2]
        · rename_i static hst x1 c hc x0 ev tc hrt
          split
          · rename_i e he
            have hd := copyVdiskData_error sys static.StorageType (args.getD 0 "")
              (args.getD 1 "") c tc
            rw [he] at hd
            simp only [ne_eq, Option.some.injEq] at hd
            simp [hd.1, hd.2]
          · have ht := copyVdiskTlog_error sys cfg static (args.getD 0 "") (args.getD 1 "") c tc
            simp only [List.cons_append, List.nil_append, List.append_assoc]
            exact ⟨⟨_, rfl⟩, ht.1, ht.2⟩

/-- Witness of C16: the sample system, called with the one argument `source`. -/
theorem copyVdisk_argument_count_witness :
    (["source"].length < 2 →
      copyVdisk sampleCopySystem sampleCmdCfg ["source"] =
        ([CopyEvent.closeSource], some CopyError.notEnoughArguments)) ∧
    (["source"].length > 3 →
      copyVdisk sampleCopySystem sampleCmdCfg ["source"] =
        ([CopyEvent.closeSource], some CopyError.tooManyArguments)) ∧
    (2 ≤ ["source"].length → ["source"].length ≤ 3 →
      (∃ rest, (copyVdisk sampleCopySystem sampleCmdCfg ["source"]).1 =
        CopyEvent.readVdiskStaticConfig (["source"].getD 0 "") :: rest) ∧
      (copyVdisk sampleCopySystem sampleCmdCfg ["source"]).2 ≠
        some CopyError.notEnoughArguments ∧
      (copyVdisk sampleCopySystem sampleCmdCfg ["source"]).2 ≠
        some CopyError.tooManyArguments) :=
  copyVdisk_argument_count sampleCopySystem sampleCmdCfg ["source"] rfl

/-! ## The tlog response -/

theorem int8OfUint8_uint8OfInt8 (v : Int) (hlo : -128 ≤ v) (hhi : v ≤ 127) :
    int8OfUint8 (uint8OfInt8 v) = v := by
  unfold int8OfUint8 uint8OfInt8
  have h1 : ((v % 256).toNat % 256 : Nat) = (v % 256).toNat := by
    apply Nat.mod_eq_of_lt
    omega
  rw [h1]
  split <;> omega

theorem CapnpStruct_Uint8_SetUint8 (p : CapnpStruct) (off v : Nat)
    (h : off + 1 ≤ p.data.length) : (p.SetUint8 off v).Uint8 off = v := by
  have hlt : off < p.data.length := by omega
  simp [CapnpStruct.SetUint8, CapnpStruct.Uint8, h, List.getD_eq_getElem?_getD, hlt]

/-- C17: on a tlog response whose struct has a data section, as the one `NewTlogResponse`
allocates with its 8 data bytes, `SetStatus(v)` followed by `Status()` returns `v` for every
int8 value `v`, the negative status codes included. -/
theorem TlogResponse_Status_SetStatus (s : TlogResponse) (v : Int)
    (hdata : 1 ≤ s.Struct.data.length) (hlo : -128 ≤ v) (hhi : v ≤ 127) :
    (s.SetStatus v).Status = v ∧ (NewTlogResponse.SetStatus v).Status = v := by
  have key : ∀ r : TlogResponse, 1 ≤ r.Struct.data.length → (r.SetStatus v).Status = v := by
    intro r hr
    unfold TlogResponse.Status TlogResponse.SetStatus
    rw [CapnpStruct_Uint8_SetUint8 r.Struct 0 _ (by omega)]
    exact int8OfUint8_uint8OfInt8 v hlo hhi
  exact ⟨key s hdata, key NewTlogResponse (by decide)⟩

/-- Witness of C17: the status code -3 on a new response. -/
theorem TlogResponse_Status_SetStatus_witness :
    (NewTlogResponse.SetStatus (-3)).Status = -3 ∧
    (NewTlogResponse.SetStatus (-3)).Status = -3 :=
  TlogResponse_Status_SetStatus NewTlogResponse (-3) (by decide) (by decide) (by decide)

/-! ## The response sender of a vdisk -/

theorem handshake_senderStarted_iff (s : Server) (decoded : Except String HandshakeRequest) :
    (s.handshake decoded).senderStarted = true ↔
      ∃ req vdiskID vd, decoded = Except.ok req ∧
        ¬ s.Compare req.Version s.MinSupportedVersion < 0 ∧
        req.VdiskID = Except.ok vdiskID ∧
        s.vdiskMgrGet vdiskID req.FirstSequence = Except.ok (vd, true) := by
  cases decoded with
  | error e => simp [Server.handshake]
  | ok req =>
    by_cases hlt : s.Compare req.Version s.MinSupportedVersion < 0
    · simp [Server.handshake, hlt]
    · cases hid : req.VdiskID with
      | error e => simp [Server.handshake, hlt, hid]
      | ok vdiskID =>
        cases hget : s.vdiskMgrGet vdiskID req.FirstSequence with
        | error e => simp [Server.handshake, hlt, hid, hget]
        | ok r =>
          obtain ⟨vd, created⟩ := r
          have hge := not_lt.mp hlt
          simp [Server.handshake, hlt, hid, hget, hge]

theorem handshakeEvents_start_iff (s : Server) (decoded : Except String HandshakeRequest)
    (vdiskID : String) :
    Event.startSendResp vdiskID ∈ s.handshakeEvents decoded ↔
      (s.handshake decoded).senderStarted = true ∧
        ∃ vd, (s.handshake decoded).result = Except.ok vd ∧ vd.vdiskID = vdiskID := by
  unfold Server.handshakeEvents
  cases hst : (s.handshake decoded).senderStarted <;>
    cases hres : (s.handshake decoded).result <;> simp [hst, hres]
  exact eq_comm

/-- A vdiskID has a slot in the vdisk manager. -/
theorem VdiskManager_get_existing (m : VdiskManager)
    (createFlusher : String → Except String Unit) (vdiskID : String) (firstSequence : Nat)
    (h : ∃ vd ∈ m.vdisks, vd.vdiskID = vdiskID) :
    ∃ vd, vd ∈ m.vdisks ∧ vd.vdiskID = vdiskID ∧
      m.get createFlusher vdiskID firstSequence = (Except.ok (vd, false), m) := by
  obtain ⟨vd₀, hmem, hid⟩ := h
  cases hf : m.vdisks.find? (fun vd => decide (vd.vdiskID = vdiskID)) with
  | none =>
    have := List.find?_eq_none.mp hf vd₀ hmem
    simp [hid] at this
  | some vd =>
    have h1 := List.find?_some hf
    have h2 := List.mem_of_find?_eq_some hf
    refine ⟨vd, h2, by simpa using h1, ?_⟩
    simp [VdiskManager.get, hf]

theorem handshake_step (s : Server) (createFlusher : String → Except String Unit)
    (m : VdiskManager) (decoded : Except String HandshakeRequest) (vdiskID : String) :
    ((∃ vd ∈ m.vdisks, vd.vdiskID = vdiskID) →
      ((s.withVdiskManager m createFlusher).handshakeEvents decoded).count
          (Event.startSendResp vdiskID) = 0 ∧
        ∃ vd ∈ (s.vdiskManagerAfter m createFlusher decoded).vdisks, vd.vdiskID = vdiskID) ∧
    (((s.withVdiskManager m createFlusher).handshakeEvents decoded).count
        (Event.startSendResp vdiskID) = 0 ∨
      (((s.withVdiskManager m createFlusher).handshakeEvents decoded).count
          (Event.startSendResp vdiskID) = 1 ∧
        ∃ vd ∈ (s.vdiskManagerAfter m createFlusher decoded).vdisks,
          vd.vdiskID = vdiskID)) := by
  cases decoded with
  | error e =>
    simp [Server.handshakeEvents, Server.handshake, Server.vdiskManagerAfter]
  | ok req =>
    by_cases hlt : s.Compare req.Version s.MinSupportedVersion < 0
    · simp [Server.handshakeEvents, Server.handshake, Server.vdiskManagerAfter,
        Server.withVdiskManager, hlt]
    · cases hid : req.VdiskID with
      | error e =>
        simp [Server.handshakeEvents, Server.handshake, Server.vdiskManagerAfter,
          Server.withVdiskManager, hlt, hid]
      | ok vid =>
        cases hf : m.vdisks.find? (fun vd => decide (vd.vdiskID = vid)) with
        | some vd =>
          simp [Server.handshakeEvents, Server.handshake, Server.vdiskManagerAfter,
            Server.withVdiskManager, hlt, hid, VdiskManager.get, hf]
        | none =>
          cases hcf : createFlusher vid with
          | error e =>
            simp [Server.handshakeEvents, Server.handshake, Server.vdiskManagerAfter,
              Server.withVdiskManager, hlt, hid, VdiskManager.get, hf, hcf]
          | ok u =>
            have hnone := List.find?_eq_none.mp hf
            by_cases hsame : vid = vdiskID
            · subst hsame
              constructor
              · rintro ⟨vd, hmem, hvd⟩
                have := hnone vd hmem
                simp [hvd] at this
              · right
                simp [Server.handshakeEvents, Server.handshake, Server.vdiskManagerAfter,
                  Server.withVdiskManager, hlt, hid, VdiskManager.get, hf, hcf]
                exact ⟨{ vdiskID := vid }, Or.inr rfl, rfl⟩
            · have hsame' : ¬ vdiskID = vid := fun h => hsame h.symm
              have hcount : ((s.withVdiskManager m createFlusher).handshakeEvents
                  (Except.ok req)).count (Event.startSendResp vdiskID) = 0 := by
                apply List.count_eq_zero.mpr
                simp [Server.handshakeEvents, Server.handshake, Server.withVdiskManager,
                  hlt, hid, VdiskManager.get, hf, hcf, hsame']
              constructor
              · rintro ⟨vd, hmem, hvd⟩
                refine ⟨hcount, vd, ?_, hvd⟩
                simp [Server.vdiskManagerAfter, hlt, hid, VdiskManager.get, hf, hcf, hmem]
              · left
                exact hcount

theorem handshakes_count (s : Server) (createFlusher : String → Except String Unit)
    (requests : List (Except String HandshakeRequest)) (vdiskID : String) :
    ∀ m : VdiskManager,
      (s.handshakes createFlusher m requests).count (Event.startSendResp vdiskID) ≤ 1 ∧
      ((∃ vd ∈ m.vdisks, vd.vdiskID = vdiskID) →
        (s.handshakes createFlusher m requests).count (Event.startSendResp vdiskID) = 0) := by
  induction requests with
  | nil => intro m; simp [Server.handshakes]
  | cons d ds ih =>
    intro m
    have hstep := handshake_step s createFlusher m d vdiskID
    have hrest := ih (s.vdiskManagerAfter m createFlusher d)
    simp only [Server.handshakes, List.count_append]
    constructor
    · rcases hstep.2 with h0 | ⟨h1, hslot⟩
      · rw [h0]
        omega
      · rw [h1, hrest.2 hslot]
    · intro hslot
      obtain ⟨h0, hslot'⟩ := hstep.1 hslot
      rw [h0, hrest.2 hslot']

/-- C18: `handshake` starts the response sender of a vdisk exactly when the vdisk manager
reports the slot as created by this call.  A handshake for a vdiskID that has a slot gets
that slot, not created, so that no sender is started; over the handshakes of any number of
connections at most one sender is started per vdiskID, and none for a vdiskID that had its
slot before. -/
theorem handshake_response_sender (s : Server) (createFlusher : String → Except String Unit) :
    (∀ decoded, (s.handshake decoded).senderStarted = true ↔
      ∃ req vdiskID vd, decoded = Except.ok req ∧
        ¬ s.Compare req.Version s.MinSupportedVersion < 0 ∧
        req.VdiskID = Except.ok vdiskID ∧
        s.vdiskMgrGet vdiskID req.FirstSequence = Except.ok (vd, true)) ∧
    (∀ decoded vdiskID, Event.startSendResp vdiskID ∈ s.handshakeEvents decoded ↔
      (s.handshake decoded).senderStarted = true ∧
        ∃ vd, (s.handshake decoded).result = Except.ok vd ∧ vd.vdiskID = vdiskID) ∧
    (∀ (m : VdiskManager) (vdiskID : String) (firstSequence : Nat),
      (∃ vd ∈ m.vdisks, vd.vdiskID = vdiskID) →
      ∃ vd, vd ∈ m.vdisks ∧ vd.vdiskID = vdiskID ∧
        m.get createFlusher vdiskID firstSequence = (Except.ok (vd, false), m)) ∧
    (∀ (m : VdiskManager) (requests : List (Except String HandshakeRequest))
      (vdiskID : String),
      (s.handshakes createFlusher m requests).count (Event.startSendResp vdiskID) ≤ 1 ∧
      ((∃ vd ∈ m.vdisks, vd.vdiskID = vdiskID) →
        (s.handshakes createFlusher m requests).count (Event.startSendResp vdiskID) = 0)) :=
  ⟨handshake_senderStarted_iff s, handshakeEvents_start_iff s,
    fun m vdiskID firstSequence h => VdiskManager_get_existing m createFlusher vdiskID
      firstSequence h,
    fun m requests vdiskID => handshakes_count s createFlusher requests vdiskID m⟩

/-- Three connections for the same vdisk, the second with an unsupported version: the
response sender is started once, by the first. -/
theorem handshakes_sample :
    sampleServer.handshakes (fun _ => Except.ok ()) { vdisks := [] }
        [Except.ok sampleRequest, Except.ok oldRequest, Except.ok sampleRequest] =
      [Event.startSendResp "myvdisk", Event.writeHandshakeResponse 5 0,
        Event.writeHandshakeResponse 5 (-2), Event.writeHandshakeResponse 5 0] := by
  decide

/-! ## The cluster with an offline server -/

theorem GetBlock_two_even (s0 s1 : StorageServer) (index : Nat) (h : index % 2 = 0) :
    GetBlock [s0, s1] index = s0.GetBlock index := by
  simp [GetBlock, ServerFor, h]

theorem GetBlock_two_odd (s0 s1 : StorageServer) (index : Nat) (h : index % 2 = 1) :
    GetBlock [s0, s1] index = s1.GetBlock index := by
  simp [GetBlock, ServerFor, h]

theorem StorageServer_GetBlock_online (server : StorageServer) (index : Nat)
    (hstate : server.State = StorageServerState.Online) (hopen : server.closed = false) :
    server.GetBlock index = (server.blocks.lookup index, none) := by
  simp [StorageServer.GetBlock, hstate, hopen]

theorem StorageServer_GetBlock_offline (server : StorageServer) (index : Nat)
    (h : (server.State = StorageServerState.Online ∧ server.closed = true) ∨
      server.State = StorageServerState.Offline) :
    server.GetBlock index = (none, some StorageError.ErrServerUnavailable) := by
  rcases h with ⟨hstate, hclosed⟩ | hstate
  · simp [StorageServer.GetBlock, hstate, hclosed]
  · simp [StorageServer.GetBlock, hstate]

/-- C19: the controller maps block index `i` to server `i mod n` of its cluster.  In a
cluster of two servers of which server 0 is online and server 1 is offline, closed or
flagged Offline, `GetBlock` returns the content stored on server 0 for every even index and
fails with `ErrServerUnavailable` and nil content for every odd index; closing server 1 or
flagging it Offline leaves the reads of the even indices as they were; and what such a read
returned before is the content last stored there with `SetBlock`. -/
theorem GetBlock_with_offline_server :
    (∀ (cluster : List StorageServer) (index : Nat),
      ServerFor cluster index = cluster[index % cluster.length]? ∧
      GetBlock cluster index =
        match cluster[index % cluster.length]? with
        | none => (none, some StorageError.ErrServerUnavailable)
        | some server => server.GetBlock index) ∧
    (∀ (s0 s1 : StorageServer) (index : Nat),
      s0.State = StorageServerState.Online → s0.closed = false →
      ((s1.State = StorageServerState.Online ∧ s1.closed = true) ∨
        s1.State = StorageServerState.Offline) →
      (index % 2 = 0 → GetBlock [s0, s1] index = (s0.blocks.lookup index, none)) ∧
      (index % 2 = 1 →
        GetBlock [s0, s1] index = (none, some StorageError.ErrServerUnavailable))) ∧
    (∀ (s0 s1 : StorageServer) (index : Nat),
      s1.State = StorageServerState.Online → s1.closed = false →
      (index % 2 = 0 →
        GetBlock (closeServer [s0, s1] 1) index = GetBlock [s0, s1] index ∧
        GetBlock (markOffline [s0, s1] 1) index = GetBlock [s0, s1] index) ∧
      (index % 2 = 1 →
        GetBlock (closeServer [s0, s1] 1) index =
          (none, some StorageError.ErrServerUnavailable) ∧
        GetBlock (markOffline [s0, s1] 1) index =
          (none, some StorageError.ErrServerUnavailable))) ∧
    (∀ (s0 s1 : StorageServer) (index : Nat) (content : List Nat),
      s0.State = StorageServerState.Online → s0.closed = false →
      s1.State = StorageServerState.Online → s1.closed = false →
      content.all (fun b => b = 0) = false →
      (SetBlock [s0, s1] index content).2 = none ∧
      GetBlock (SetBlock [s0, s1] index content).1 index = (some content, none)) := by
  refine ⟨?_, ?_, ?_, ?_⟩
  · intro cluster index
    refine ⟨rfl, ?_⟩
    simp only [GetBlock, ServerFor]
  · intro s0 s1 index h0 hopen h1
    constructor
    · intro heven
      rw [GetBlock_two_even s0 s1 index heven, StorageServer_GetBlock_online s0 index h0 hopen]
    · intro hodd
      rw [GetBlock_two_odd s0 s1 index hodd, StorageServer_GetBlock_offline s1 index h1]
  · intro s0 s1 index h1 hopen
    constructor
    · intro heven
      constructor
      · simp only [closeServer, modifyServer]
        rw [GetBlock_two_even _ _ index heven, GetBlock_two_even _ _ index heven]
      · simp only [markOffline, modifyServer]
        rw [GetBlock_two_even _ _ index heven, GetBlock_two_even _ _ index heven]
    · intro hodd
      constructor
      · simp only [closeServer, modifyServer]
        rw [GetBlock_two_odd _ _ index hodd]
        exact StorageServer_GetBlock_offline _ index (Or.inl ⟨h1, rfl⟩)
      · simp only [markOffline, modifyServer]
        rw [GetBlock_two_odd _ _ index hodd]
        exact StorageServer_GetBlock_offline _ index (Or.inr rfl)
  · intro s0 s1 index content h0 hopen0 h1 hopen1 hcontent
    rcases Nat.mod_two_eq_zero_or_one index with heven | hodd
    · have hset : SetBlock [s0, s1] index content =
          ([{ s0 with blocks := (index, content) ::
              s0.blocks.filter (fun b => decide (b.1 ≠ index)) }, s1], none) := by
        simp [SetBlock, ServerFor, heven, h0, hopen0, hcontent]
      rw [hset]
      refine ⟨rfl, ?_⟩
      rw [GetBlock_two_even _ _ index heven]
      simp [StorageServer.GetBlock, h0, hopen0, List.lookup]
    · have hset : SetBlock [s0, s1] index content =
          ([s0, { s1 with blocks := (index, content) ::
              s1.blocks.filter (fun b => decide (b.1 ≠ index)) }], none) := by
        simp [SetBlock, ServerFor, hodd, h1, hopen1, hcontent]
      rw [hset]
      refine ⟨rfl, ?_⟩
      rw [GetBlock_two_odd _ _ index hodd]
      simp [StorageServer.GetBlock, h1, hopen1, List.lookup]

/-- The scenario of the tests with four blocks: after the blocks are stored on two servers
and server 1 is closed, or flagged Offline, the even indices read the stored content and the
odd ones fail. -/
theorem GetBlock_sample_scenario :
    [0, 1, 2, 3].map (GetBlock (closeServer (storeBlocks sampleCluster2 0 sampleContents) 1)) =
      [(some [1, 2, 3, 4, 5, 6, 7, 8], none),
       (none, some StorageError.ErrServerUnavailable),
       (some [0, 0, 0, 0, 0, 0, 0, 1], none),
       (none, some StorageError.ErrServerUnavailable)] ∧
    [0, 1, 2, 3].map (GetBlock (markOffline (storeBlocks sampleCluster2 0 sampleContents) 1)) =
      [(some [1, 2, 3, 4, 5, 6, 7, 8], none),
       (none, some StorageError.ErrServerUnavailable),
       (some [0, 0, 0, 0, 0, 0, 0, 1], none),
       (none, some StorageError.ErrServerUnavailable)] := by
  decide

/-! ## The status of a storage error -/

/-- C20: `MapErrorToBroadcastStatus` maps `io.EOF` to StatusServerDisconnect, a `net.Error`
that is a timeout to StatusServerTimeout whether or not it is temporary, a `net.Error` that
is temporary and no timeout to StatusServerTempError, and every other error, a `net.Error`
that is neither included, to StatusUnknownError. -/
theorem MapErrorToBroadcastStatus_cases :
    MapErrorToBroadcastStatus GoError.EOF = MessageStatus.StatusServerDisconnect ∧
    (∀ temporary, MapErrorToBroadcastStatus (GoError.netError true temporary) =
      MessageStatus.StatusServerTimeout) ∧
    MapErrorToBroadcastStatus (GoError.netError false true) =
      MessageStatus.StatusServerTempError ∧
    MapErrorToBroadcastStatus (GoError.netError false false) =
      MessageStatus.StatusUnknownError ∧
    (∀ msg, MapErrorToBroadcastStatus (GoError.other msg) =
      MessageStatus.StatusUnknownError) ∧
    (∀ err, MapErrorToBroadcastStatus err = MessageStatus.StatusUnknownError ↔
      (err = GoError.netError false false ∨ ∃ msg, err = GoError.other msg)) := by
  refine ⟨rfl, fun _ => rfl, rfl, rfl, fun _ => rfl, ?_⟩
  intro err
  cases err with
  | EOF => simp [MapErrorToBroadcastStatus]
  | netError timeout temporary =>
    cases timeout <;> cases temporary <;> simp [MapErrorToBroadcastStatus]
  | other msg => simp [MapErrorToBroadcastStatus]

/-- The six assertions of `TestMapErrorToBroadcastStatus`. -/
theorem MapErrorToBroadcastStatus_test :
    MapErrorToBroadcastStatus (GoError.other "foo") = MessageStatus.StatusUnknownError ∧
    MapErrorToBroadcastStatus GoError.EOF = MessageStatus.StatusServerDisconnect ∧
    MapErrorToBroadcastStatus (GoError.netError false false) =
      MessageStatus.StatusUnknownError ∧
    MapErrorToBroadcastStatus (GoError.netError false true) =
      MessageStatus.StatusServerTempError ∧
    MapErrorToBroadcastStatus (GoError.netError true false) =
      MessageStatus.StatusServerTimeout ∧
    MapErrorToBroadcastStatus (GoError.netError true true) =
      MessageStatus.StatusServerTimeout := by
  decide

/-! ## The background flusher of the cache -/

/-- The flusher never returns, whatever its `select`s receive, and every `select` is followed
by an iteration. -/
theorem flusher_never_returns (selects : List FlusherSelect) :
    (Cache.flusher selects).2 = false ∧ (Cache.flusher selects).1.length = selects.length := by
  induction selects with
  | nil => exact ⟨rfl, rfl⟩
  | cons sel rest ih =>
    cases sel <;> simp [Cache.flusher, flusherBody, ih.1, ih.2]

/-- C21 (evaluation of the code): once the cache is closed, `ctx.Done()` is ready; the
flusher receives from it and goes on with the next iteration, here twice more, of which the
last one forces the expiry again; it has not returned. -/
theorem flusher_iterates_after_cancellation :
    Cache.flusher [FlusherSelect.done, FlusherSelect.done, FlusherSelect.timer] =
      ([FlusherEvent.observeDone, FlusherEvent.observeDone, FlusherEvent.forceExpiry], false) := by
  decide

/-! ## The blocks enqueued by the handler -/

theorem hash_eq_none_iff (s : Server) (block : TlogBlock) :
    s.hash block = none ↔ hashMatches s block = true := by
  unfold Server.hash hashMatches
  cases block.Data with
  | error e => simp
  | ok data =>
    cases block.Hash with
    | error e => simp
    | ok rawHash => simp

theorem enqueuedBlocks_append (a b : List Event) :
    enqueuedBlocks (a ++ b) = enqueuedBlocks a ++ enqueuedBlocks b := by
  induction a with
  | nil => rfl
  | cons e rest ih =>
    cases e <;> simp [enqueuedBlocks, ih]

theorem enqueuedBlocks_handshakeEvents (s : Server) (decoded : Except String HandshakeRequest) :
    enqueuedBlocks (s.handshakeEvents decoded) = [] := by
  unfold Server.handshakeEvents
  simp only [enqueuedBlocks_append]
  split <;> simp [enqueuedBlocks]

theorem enqueuedBlocks_handleLoop (s : Server) (reads : List (Except String TlogBlock)) :
    enqueuedBlocks (s.handleLoop reads).1 = longestAcceptedRun s reads := by
  induction reads with
  | nil => simp [Server.handleLoop, enqueuedBlocks, longestAcceptedRun]
  | cons r rest ih =>
    cases r with
    | error e => simp [Server.handleLoop, enqueuedBlocks, longestAcceptedRun]
    | ok block =>
      by_cases hm : hashMatches s block = true
      · have hh := (hash_eq_none_iff s block).mpr hm
        simp [Server.handleLoop, hh, acceptEvents, enqueuedBlocks, longestAcceptedRun, hm, ih]
      · have hh : s.hash block ≠ none := fun h => hm ((hash_eq_none_iff s block).mp h)
        cases hs : s.hash block with
        | none => exact absurd hs hh
        | some e => simp [Server.handleLoop, hs, enqueuedBlocks, longestAcceptedRun, hm]

theorem longestAcceptedRun_stops (s : Server) (pre : List (Except String TlogBlock))
    (bad : TlogBlock) (post : List (Except String TlogBlock))
    (hbad : hashMatches s bad = false) :
    longestAcceptedRun s (pre ++ Except.ok bad :: post) = longestAcceptedRun s pre := by
  induction pre with
  | nil => simp [longestAcceptedRun, hbad]
  | cons r rest ih =>
    cases r with
    | error e => simp [longestAcceptedRun]
    | ok block =>
      by_cases hm : hashMatches s block = true
      · simp [longestAcceptedRun, hm, ih]
      · simp [longestAcceptedRun, hm]

/-- C22: the blocks `handle` puts on the input channel of the vdisk are, in the order sent,
exactly the longest prefix of the received blocks that decode and whose hash field equals
`HashBytes(data)` (none at all when the handshake is rejected); a block with a wrong hash
ends that prefix, so that neither it nor any block after it is enqueued. -/
theorem handle_enqueues_accepted_run (s : Server) (decoded : Except String HandshakeRequest)
    (reads : List (Except String TlogBlock)) :
    (enqueuedBlocks (s.handle decoded reads).1 =
      match (s.handshake decoded).result with
      | Except.ok _ => longestAcceptedRun s reads
      | Except.error _ => []) ∧
    (∀ pre bad post, reads = pre ++ Except.ok bad :: post → hashMatches s bad = false →
      enqueuedBlocks (s.handle decoded reads).1 =
        (match (s.handshake decoded).result with
        | Except.ok _ => longestAcceptedRun s pre
        | Except.error _ => []) ∧
      (enqueuedBlocks (s.handle decoded reads).1).length ≤ pre.length) := by
  have hlen : ∀ l : List (Except String TlogBlock), (longestAcceptedRun s l).length ≤ l.length := by
    intro l
    induction l with
    | nil => simp [longestAcceptedRun]
    | cons r rest ih =>
      cases r with
      | error e => simp [longestAcceptedRun]
      | ok block =>
        by_cases hm : hashMatches s block = true
        · simp [longestAcceptedRun, hm, ih]
        · simp [longestAcceptedRun, hm]
  have main : enqueuedBlocks (s.handle decoded reads).1 =
      match (s.handshake decoded).result with
      | Except.ok _ => longestAcceptedRun s reads
      | Except.error _ => [] := by
    unfold Server.handle
    cases hres : (s.handshake decoded).result with
    | error e =>
      simp [enqueuedBlocks_append, enqueuedBlocks_handshakeEvents, enqueuedBlocks]
    | ok vd =>
      simp [enqueuedBlocks_append, enqueuedBlocks_handshakeEvents, enqueuedBlocks,
        enqueuedBlocks_handleLoop]
  refine ⟨main, ?_⟩
  intro pre bad post hreads hbad
  rw [main, hreads, longestAcceptedRun_stops s pre bad post hbad]
  refine ⟨rfl, ?_⟩
  cases (s.handshake decoded).result with
  | error e => simp
  | ok vd => exact hlen pre

/-! ## The handshake response -/

/-- C23: on every return path `handshake` calls `writeHandshakeResponse` exactly once, with
the status of that path; the response that is then written carries the server's
CurrentVersion and that status, whatever the request holds. -/
theorem handshake_writes_one_response (s : Server)
    (decoded : Except String HandshakeRequest) :
    (s.handshakeEvents decoded).filter Event.isWriteHandshakeResponse =
      [Event.writeHandshakeResponse s.CurrentVersion (s.handshake decoded).status.Int8] ∧
    (∀ status, s.writeHandshakeResponse { newMessage := none, newRoot := none, encode := none }
      status = (some { Version := s.CurrentVersion, Status := status.Int8 }, none)) ∧
    (∀ outcome status resp, (s.writeHandshakeResponse outcome status).1 = some resp →
      resp = { Version := s.CurrentVersion, Status := status.Int8 }) := by
  refine ⟨?_, fun _ => rfl, ?_⟩
  · unfold Server.handshakeEvents
    simp only [List.filter_append]
    split <;> simp [Event.isWriteHandshakeResponse]
  · intro outcome status resp h
    unfold Server.writeHandshakeResponse at h
    split at h
    · simp at h
    · split at h
      · simp at h
      · split at h
        · simp at h
        · simp only [Option.some.injEq] at h
          exact h.symm

/-- The response of each return path of `handshake` on the sample server: undecodable
request, unsupported version, unreadable vdiskID, failing vdisk manager, success. -/
theorem handshake_responses_sample :
    sampleServer.handshakeEvents (Except.error "EOF") =
      [Event.writeHandshakeResponse 5 (-1)] ∧
    sampleServer.handshakeEvents (Except.ok oldRequest) =
      [Event.writeHandshakeResponse 5 (-2)] ∧
    sampleServer.handshakeEvents (Except.ok noVdiskIDRequest) =
      [Event.writeHandshakeResponse 5 (-3)] ∧
    sampleServer.handshakeEvents
        (Except.ok { Version := 3, VdiskID := Except.ok "", FirstSequence := 0 }) =
      [Event.writeHandshakeResponse 5 (-4)] ∧
    sampleServer.handshakeEvents (Except.ok sampleRequest) =
      [Event.startSendResp "myvdisk", Event.writeHandshakeResponse 5 0] := by
  decide

/-! ## The partial result of the configuration parser -/

/-- C26: when the parser fails on an entry, it returns the error together with the configs
of the entries before it, in order; the result does not depend on the entries after the
failing one. -/
theorem ParseCSStorageServerConfigStrings_partial (isDialString : List Char → Bool)
    (s : List Char) (pre : List (List Char)) (bad : List Char) (post : List (List Char))
    (hsplit : Split ',' s = pre ++ bad :: post)
    (hpre : ∀ e ∈ pre, TrimSpace e ≠ [] →
      isDialString (entryConfig (TrimSpace e)).Address = true)
    (hbad : TrimSpace bad ≠ [])
    (hinvalid : isDialString (entryConfig (TrimSpace bad)).Address = false) :
    ParseCSStorageServerConfigStrings isDialString s =
      (((pre.map TrimSpace).filter (fun e => decide (e ≠ []))).map entryConfig,
        some (ParseError.invalidAddress (entryConfig (TrimSpace bad)).Address)) := by
  rw [ParseCS_eq_parseLoop, hsplit, parseLoop_append, parseLoop_all_valid isDialString pre [] hpre]
  simp only [if_true, List.nil_append]
  exact parseLoop_invalid isDialString bad post _ hbad hinvalid

/-- Witness of C26: the third entry of `"a:1, b:2@3,bad, c:4"` is no dial string. -/
theorem ParseCSStorageServerConfigStrings_partial_witness :
    ParseCSStorageServerConfigStrings sampleIsDialString "a:1, b:2@3,bad, c:4".toList =
      (((["a:1".toList, " b:2@3".toList].map TrimSpace).filter
          (fun e => decide (e ≠ []))).map entryConfig,
        some (ParseError.invalidAddress (entryConfig (TrimSpace "bad".toList)).Address)) :=
  ParseCSStorageServerConfigStrings_partial sampleIsDialString "a:1, b:2@3,bad, c:4".toList
    ["a:1".toList, " b:2@3".toList] "bad".toList [" c:4".toList] (by decide) (by decide)
    (by decide) (by decide)

/-- The partial result of the witness, spelled out: two configs and the error. -/
theorem ParseCSStorageServerConfigStrings_partial_sample :
    ParseCSStorageServerConfigStrings sampleIsDialString "a:1, b:2@3,bad, c:4".toList =
      ([{ Address := "a:1".toList, Database := 0 }, { Address := "b:2".toList, Database := 3 }],
        some (ParseError.invalidAddress "bad".toList)) := by
  decide

/-! ## The copy routine of a storage type -/

theorem readTargetClusterConfig_filter {κ : Type} (sys : CopySystem κ)
    (src tgt tid : String) :
    (readTargetClusterConfig sys src tgt tid).1.filter CopyEvent.isCopyStorage = [] ∧
    (readTargetClusterConfig sys src tgt tid).1.filter CopyEvent.isTlogCopy = [] := by
  unfold readTargetClusterConfig
  split
  · split
    · simp [CopyEvent.isCopyStorage, CopyEvent.isTlogCopy]
    · split
      · split <;> simp [CopyEvent.isCopyStorage, CopyEvent.isTlogCopy]
      · simp [CopyEvent.isCopyStorage, CopyEvent.isTlogCopy]
  · simp

theorem copyVdiskTlog_filter {κ : Type} (sys : CopySystem κ) (cfg : VdiskCmdCfg)
    (static : VdiskStaticConfig) (src tgt : String) (sc : κ) (tc : Option κ) :
    (copyVdiskTlog sys cfg static src tgt sc tc).1.filter CopyEvent.isCopyStorage = [] := by
  unfold copyVdiskTlog
  simp only
  split
  · simp [CopyEvent.isCopyStorage]
  · split <;> simp [CopyEvent.isCopyStorage]

theorem copyVdisk_reached {κ : Type} (sys : CopySystem κ) (cfg : VdiskCmdCfg)
    (args : List String) (static : VdiskStaticConfig) (sc : κ) (ev : List (CopyEvent κ))
    (tc : Option κ) (hsource : sys.NewSource = none) (h2 : 2 ≤ args.length)
    (h3 : args.length ≤ 3)
    (hstatic : sys.ReadVdiskStaticConfig (args.getD 0 "") = Except.ok static)
    (hstorage : sys.ReadNBDStorageConfig (args.getD 0 "") = Except.ok sc)
    (htarget : readTargetClusterConfig sys (args.getD 0 "") (args.getD 1 "")
      (targetClusterIDOf args) = (ev, Except.ok tc)) :
    copyVdisk sys cfg args =
      match (copyVdiskData sys static.StorageType (args.getD 0 "") (args.getD 1 "") sc tc).2 with
      | some e =>
        ([CopyEvent.readVdiskStaticConfig (args.getD 0 ""),
          CopyEvent.readNBDStorageConfig (args.getD 0 "")] ++ ev ++
          (copyVdiskData sys static.StorageType (args.getD 0 "") (args.getD 1 "") sc tc).1 ++
          [CopyEvent.closeSource], some e)
      | none =>
        ([CopyEvent.readVdiskStaticConfig (args.getD 0 ""),
          CopyEvent.readNBDStorageConfig (args.getD 0 "")] ++ ev ++
          (copyVdiskData sys static.StorageType (args.getD 0 "") (args.getD 1 "") sc tc).1 ++
          (copyVdiskTlog sys cfg static (args.getD 0 "") (args.getD 1 "") sc tc).1 ++
          [CopyEvent.closeSource],
          (copyVdiskTlog sys cfg static (args.getD 0 "") (args.getD 1 "") sc tc).2) := by
  have h2' : ¬ args.length < 2 := by omega
  have h3' : ¬ args.length > 3 := by omega
  simp only [copyVdisk, hsource, copyVdiskBody, h2', h3', if_false, hstatic, hstorage, htarget]
  split <;> simp

/-- C25: in a run of `copyVdisk` that gets as far as the copy, the one routine of package
`storage` that is called is the one of the storage type of the source vdisk, `CopyDeduped`,
`CopyNonDeduped` or `CopySemiDeduped`; for an unknown storage type none is called.  When the
storage type is unknown or the routine fails, `copyVdisk` returns the error and copies
neither tlog data nor tlog metadata. -/
theorem copyVdisk_copy_routine {κ : Type} (sys : CopySystem κ) (cfg : VdiskCmdCfg)
    (args : List String) (static : VdiskStaticConfig) (sc : κ) (ev : List (CopyEvent κ))
    (tc : Option κ) (hsource : sys.NewSource = none) (h2 : 2 ≤ args.length)
    (h3 : args.length ≤ 3)
    (hstatic : sys.ReadVdiskStaticConfig (args.getD 0 "") = Except.ok static)
    (hstorage : sys.ReadNBDStorageConfig (args.getD 0 "") = Except.ok sc)
    (htarget : readTargetClusterConfig sys (args.getD 0 "") (args.getD 1 "")
      (targetClusterIDOf args) = (ev, Except.ok tc)) :
    ((copyVdisk sys cfg args).1.filter CopyEvent.isCopyStorage =
      match routineFor static.StorageType with
      | some routine =>
        [CopyEvent.copyStorage routine (args.getD 0 "") (args.getD 1 "") sc tc]
      | none => []) ∧
    (∀ code, static.StorageType = StorageType.Unknown code →
      (copyVdisk sys cfg args).2 =
        some (CopyError.unknownStorageType (args.getD 0 "") code) ∧
      (copyVdisk sys cfg args).1.filter CopyEvent.isTlogCopy = []) ∧
    (∀ routine e, routineFor static.StorageType = some routine →
      sys.runRoutine routine (args.getD 0 "") (args.getD 1 "") sc tc = some e →
      (copyVdisk sys cfg args).2 = some (CopyError.copyStorage e) ∧
      (copyVdisk sys cfg args).1.filter CopyEvent.isTlogCopy = []) := by
  have hrun := copyVdisk_reached sys cfg args static sc ev tc hsource h2 h3 hstatic hstorage
    htarget
  have hev := readTargetClusterConfig_filter sys (args.getD 0 "") (args.getD 1 "")
    (targetClusterIDOf args)
  rw [htarget] at hev
  have hev1 : ev.filter CopyEvent.isCopyStorage = [] := hev.1
  have hev2 : ev.filter CopyEvent.isTlogCopy = [] := hev.2
  have htl := copyVdiskTlog_filter sys cfg static (args.getD 0 "") (args.getD 1 "") sc tc
  have hreads1 : [CopyEvent.readVdiskStaticConfig (args.getD 0 ""),
      CopyEvent.readNBDStorageConfig (args.getD 0 "")].filter
        (CopyEvent.isCopyStorage : CopyEvent κ → Bool) = [] := rfl
  have hreads2 : [CopyEvent.readVdiskStaticConfig (args.getD 0 ""),
      CopyEvent.readNBDStorageConfig (args.getD 0 "")].filter
        (CopyEvent.isTlogCopy : CopyEvent κ → Bool) = [] := rfl
  have hclose1 : [CopyEvent.closeSource].filter
      (CopyEvent.isCopyStorage : CopyEvent κ → Bool) = [] := rfl
  have hclose2 : [CopyEvent.closeSource].filter
      (CopyEvent.isTlogCopy : CopyEvent κ → Bool) = [] := rfl
  have hdata1 : (copyVdiskData sys static.StorageType (args.getD 0 "") (args.getD 1 "") sc
      tc).1.filter CopyEvent.isCopyStorage =
      match routineFor static.StorageType with
      | some routine =>
        [CopyEvent.copyStorage routine (args.getD 0 "") (args.getD 1 "") sc tc]
      | none => [] := by
    cases static.StorageType <;> rfl
  have hdata2 : (copyVdiskData sys static.StorageType (args.getD 0 "") (args.getD 1 "") sc
      tc).1.filter CopyEvent.isTlogCopy = [] := by
    cases static.StorageType <;> rfl
  have hfailed : ∀ e, (copyVdiskData sys static.StorageType (args.getD 0 "") (args.getD 1 "")
      sc tc).2 = some e →
      (copyVdisk sys cfg args).2 = some e ∧
        (copyVdisk sys cfg args).1.filter CopyEvent.isTlogCopy = [] := by
    intro e he
    rw [hrun, he]
    simp only [List.filter_append, hreads2, hev2, hdata2, hclose2, List.append_nil, and_self]
  refine ⟨?_, ?_, ?_⟩
  · rw [hrun, ← hdata1]
    cases (copyVdiskData sys static.StorageType (args.getD 0 "") (args.getD 1 "") sc tc).2 <;>
      simp only [List.filter_append, hreads1, hev1, htl, hclose1, List.append_nil,
        List.nil_append]
  · intro code hcode
    apply hfailed
    rw [hcode]
    rfl
  · intro routine e hr hfail
    apply hfailed
    cases hst : static.StorageType with
    | Unknown code =>
      rw [hst] at hr
      cases hr
    | Deduped =>
      rw [hst] at hr
      injection hr with hr
      subst hr
      simp only [copyVdiskData]
      exact congrArg (Option.map CopyError.copyStorage) hfail
    | NonDeduped =>
      rw [hst] at hr
      injection hr with hr
      subst hr
      simp only [copyVdiskData]
      exact congrArg (Option.map CopyError.copyStorage) hfail
    | SemiDeduped =>
      rw [hst] at hr
      injection hr with hr
      subst hr
      simp only [copyVdiskData]
      exact congrArg (Option.map CopyError.copyStorage) hfail

/-- Witness of C25: the copy of the non-deduped vdisk `nondeduped`, for which
`CopyNonDeduped` fails. -/
theorem copyVdisk_copy_routine_witness :
    ((copyVdisk failingCopySystem sampleCmdCfg ["nondeduped", "target"]).1.filter
        CopyEvent.isCopyStorage =
      match routineFor StorageType.NonDeduped with
      | some routine =>
        [CopyEvent.copyStorage routine (["nondeduped", "target"].getD 0 "")
          (["nondeduped", "target"].getD 1 "") "mycluster" none]
      | none => []) ∧
    (∀ code, StorageType.NonDeduped = StorageType.Unknown code →
      (copyVdisk failingCopySystem sampleCmdCfg ["nondeduped", "target"]).2 =
        some (CopyError.unknownStorageType (["nondeduped", "target"].getD 0 "") code) ∧
      (copyVdisk failingCopySystem sampleCmdCfg ["nondeduped", "target"]).1.filter
        CopyEvent.isTlogCopy = []) ∧
    (∀ routine e, routineFor StorageType.NonDeduped = some routine →
      failingCopySystem.runRoutine routine (["nondeduped", "target"].getD 0 "")
        (["nondeduped", "target"].getD 1 "") "mycluster" none = some e →
      (copyVdisk failingCopySystem sampleCmdCfg ["nondeduped", "target"]).2 =
        some (CopyError.copyStorage e) ∧
      (copyVdisk failingCopySystem sampleCmdCfg ["nondeduped", "target"]).1.filter
        CopyEvent.isTlogCopy = []) :=
  copyVdisk_copy_routine failingCopySystem sampleCmdCfg ["nondeduped", "target"]
    { StorageType := StorageType.NonDeduped, TlogSupport := false } "mycluster" [] none
    rfl (by decide) (by decide) (by decide) (by decide) (by decide)

/-- The runs of the failing sample system: the routine fails, and the storage type is
unknown; in both the error is returned and nothing of the tlog is copied. -/
theorem copyVdisk_failing_sample :
    copyVdisk failingCopySystem sampleCmdCfg ["nondeduped", "target"] =
      ([CopyEvent.readVdiskStaticConfig "nondeduped",
        CopyEvent.readNBDStorageConfig "nondeduped",
        CopyEvent.copyStorage CopyRoutine.CopyNonDeduped "nondeduped" "target" "mycluster"
          none,
        CopyEvent.closeSource], some (CopyError.copyStorage "connection refused")) ∧
    copyVdisk failingCopySystem sampleCmdCfg ["strange", "target"] =
      ([CopyEvent.readVdiskStaticConfig "strange", CopyEvent.readNBDStorageConfig "strange",
        CopyEvent.closeSource], some (CopyError.unknownStorageType "strange" 7)) := by
  decide

/-! ## The tlog block of the schema -/

theorem leBytes_length (n v : Nat) : (leBytes n v).length = n := by
  induction n generalizing v with
  | zero => rfl
  | succ n ih => simp [leBytes, ih]

theorem writeBytes_length (data : List Nat) (off : Nat) (bs : List Nat) :
    (writeBytes data off bs).length = data.length := by
  induction bs generalizing data off with
  | nil => rfl
  | cons b bs ih => simp [writeBytes, ih]

theorem getD_set_zero (data : List Nat) (off b i : Nat) :
    (data.set off b).getD i 0 = if i = off ∧ off < data.length then b else data.getD i 0 := by
  simp only [List.getD_eq_getElem?_getD, List.getElem?_set]
  by_cases h1 : off = i
  · subst h1
    by_cases h2 : off < data.length
    · simp [h2]
    · simp [h2, List.getElem?_eq_none (Nat.le_of_not_lt h2)]
  · have h3 : ¬ i = off := fun h => h1 h.symm
    simp [h1, h3]

theorem writeBytes_getD (data : List Nat) (off : Nat) (bs : List Nat) (i : Nat) :
    (writeBytes data off bs).getD i 0 =
      if off ≤ i ∧ i < off + bs.length ∧ i < data.length then bs.getD (i - off) 0
      else data.getD i 0 := by
  induction bs generalizing data off with
  | nil =>
    have h : ¬ (off ≤ i ∧ i < off + ([] : List Nat).length ∧ i < data.length) := by
      simp only [List.length_nil]
      omega
    rw [if_neg h]
    rfl
  | cons b bs ih =>
    simp only [writeBytes]
    rw [ih, getD_set_zero, List.length_set, List.length_cons]
    by_cases h1 : i = off
    · subst h1
      by_cases h2 : i < data.length
      · have h3 : ¬ (i + 1 ≤ i ∧ i < i + 1 + bs.length ∧ i < data.length) := by omega
        have h4 : i ≤ i ∧ i < i + (bs.length + 1) ∧ i < data.length := by omega
        rw [if_neg h3, if_pos h4, if_pos ⟨rfl, h2⟩]
        simp
      · have h3 : ¬ (i + 1 ≤ i ∧ i < i + 1 + bs.length ∧ i < data.length) := by omega
        have h4 : ¬ (i ≤ i ∧ i < i + (bs.length + 1) ∧ i < data.length) := by omega
        have h5 : ¬ (i = i ∧ i < data.length) := by omega
        rw [if_neg h3, if_neg h4, if_neg h5]
    · have h5 : ¬ (i = off ∧ off < data.length) := fun h => h1 h.1
      rw [if_neg h5]
      by_cases h2 : off + 1 ≤ i ∧ i < off + 1 + bs.length ∧ i < data.length
      · have h4 : off ≤ i ∧ i < off + (bs.length + 1) ∧ i < data.length := by omega
        rw [if_pos h2, if_pos h4]
        have h6 : i - off = (i - (off + 1)) + 1 := by omega
        rw [h6]
        rfl
      · have h4 : ¬ (off ≤ i ∧ i < off + (bs.length + 1) ∧ i < data.length) := by omega
        rw [if_neg h2, if_neg h4]

theorem readLE_congr (d1 d2 : List Nat) (n off : Nat)
    (h : ∀ k, k < n → d1.getD (off + k) 0 = d2.getD (off + k) 0) :
    readLE d1 off n = readLE d2 off n := by
  induction n generalizing off with
  | zero => rfl
  | succ n ih =>
    simp only [readLE]
    have h0 := h 0 (by omega)
    rw [Nat.add_zero] at h0
    rw [h0, ih (off + 1)]
    intro k hk
    have hk1 := h (k + 1) (by omega)
    have e : off + 1 + k = off + (k + 1) := by omega
    rw [e]
    exact hk1

theorem readLE_leBytes (d : List Nat) (n off v : Nat)
    (h : ∀ k, k < n → d.getD (off + k) 0 = (leBytes n v).getD k 0) :
    readLE d off n = v % 256 ^ n := by
  induction n generalizing off v with
  | zero => simp [readLE, Nat.mod_one]
  | succ n ih =>
    simp only [readLE]
    have h0 := h 0 (by omega)
    rw [Nat.add_zero] at h0
    have hrest : readLE d (off + 1) n = (v / 256) % 256 ^ n := by
      apply ih
      intro k hk
      have hk1 := h (k + 1) (by omega)
      have e : off + 1 + k = off + (k + 1) := by omega
      rw [e, hk1]
      rfl
    rw [h0, hrest, pow_succ', Nat.mod_mul]
    rfl

theorem CapnpStruct_Uint64_SetUint64 (p : CapnpStruct) (off v : Nat)
    (h : off + 8 ≤ p.data.length) : (p.SetUint64 off v).Uint64 off = v % 2 ^ 64 := by
  have hlen : off + 8 ≤ (writeBytes p.data off (leBytes 8 v)).length := by
    rw [writeBytes_length]
    exact h
  simp only [CapnpStruct.SetUint64, CapnpStruct.Uint64, if_pos h, if_pos hlen]
  rw [readLE_leBytes _ 8 off v]
  · norm_num
  intro k hk
  rw [writeBytes_getD, leBytes_length]
  have hc : off ≤ off + k ∧ off + k < off + 8 ∧ off + k < p.data.length := by omega
  rw [if_pos hc]
  have e : off + k - off = k := by omega
  rw [e]

theorem CapnpStruct_Uint64_SetUint64_other (p : CapnpStruct) (off other v : Nat)
    (hd : other + 8 ≤ off ∨ off + 8 ≤ other) :
    (p.SetUint64 off v).Uint64 other = p.Uint64 other := by
  unfold CapnpStruct.SetUint64
  split
  · simp only [CapnpStruct.Uint64, writeBytes_length]
    split
    · apply readLE_congr
      intro k hk
      rw [writeBytes_getD, leBytes_length]
      have hc : ¬ (off ≤ other + k ∧ other + k < off + 8 ∧ other + k < p.data.length) := by
        omega
      rw [if_neg hc]
    · rfl
  · rfl

theorem CapnpStruct_Uint8_SetUint64_other (p : CapnpStruct) (off other v : Nat)
    (hd : other < off ∨ off + 8 ≤ other) :
    (p.SetUint64 off v).Uint8 other = p.Uint8 other := by
  unfold CapnpStruct.SetUint64
  split
  · simp only [CapnpStruct.Uint8, writeBytes_length]
    split
    · rw [writeBytes_getD, leBytes_length]
      have hc : ¬ (off ≤ other ∧ other < off + 8 ∧ other < p.data.length) := by omega
      rw [if_neg hc]
    · rfl
  · rfl

theorem CapnpStruct_Uint64_SetUint8_other (p : CapnpStruct) (off other v : Nat)
    (hd : off < other ∨ other + 8 ≤ off) :
    (p.SetUint8 off v).Uint64 other = p.Uint64 other := by
  unfold CapnpStruct.SetUint8
  split
  · simp only [CapnpStruct.Uint64, List.length_set]
    split
    · apply readLE_congr
      intro k hk
      rw [getD_set_zero]
      have hc : ¬ (other + k = off ∧ off < p.data.length) := by omega
      rw [if_neg hc]
    · rfl
  · rfl

theorem CapnpStruct_pointers_SetUint64 (p : CapnpStruct) (off v : Nat) :
    (p.SetUint64 off v).pointers = p.pointers := by
  unfold CapnpStruct.SetUint64
  split <;> rfl

theorem CapnpStruct_pointers_SetUint8 (p : CapnpStruct) (off v : Nat) :
    (p.SetUint8 off v).pointers = p.pointers := by
  unfold CapnpStruct.SetUint8
  split <;> rfl

theorem CapnpStruct_data_SetPtr (p : CapnpStruct) (i : Nat) (src : Option (List Nat)) :
    (p.SetPtr i src).data = p.data := by
  unfold CapnpStruct.SetPtr
  split <;> rfl

theorem CapnpStruct_Ptr_SetPtr (p : CapnpStruct) (i : Nat) (src : Option (List Nat))
    (h : i < p.pointers.length) : (p.SetPtr i src).Ptr i = src := by
  simp [CapnpStruct.SetPtr, CapnpStruct.Ptr, h, List.getD_eq_getElem?_getD]

theorem CapnpStruct_Ptr_SetPtr_other (p : CapnpStruct) (i j : Nat) (src : Option (List Nat))
    (h : j ≠ i) : (p.SetPtr i src).Ptr j = p.Ptr j := by
  unfold CapnpStruct.SetPtr
  split
  · simp [CapnpStruct.Ptr, List.getD_eq_getElem?_getD, List.getElem?_set, h.symm]
  · rfl

theorem CapnpStruct_Text_SetText (p : CapnpStruct) (i : Nat) (v : String)
    (h : i < p.pointers.length) : (p.SetText i v).Text i = v := by
  unfold CapnpStruct.SetText CapnpStruct.Text
  by_cases hv : v = ""
  · rw [if_pos hv, CapnpStruct_Ptr_SetPtr p i _ h, hv]
  · rw [if_neg hv, CapnpStruct_Ptr_SetPtr p i _ h]
    simp only [List.map_map]
    have hid : (Char.ofNat ∘ Char.toNat) = id := by
      funext c
      simp
    rw [hid, List.map_id]
    rfl

theorem CapnpStruct_Data_SetData (p : CapnpStruct) (i : Nat) (v : List Nat)
    (h : i < p.pointers.length) : (p.SetData i v).Data i = v := by
  simp only [CapnpStruct.SetData, CapnpStruct.Data, CapnpStruct_Ptr_SetPtr p i _ h]

theorem CapnpStruct_Ptr_SetUint64 (p : CapnpStruct) (off v i : Nat) :
    (p.SetUint64 off v).Ptr i = p.Ptr i := by
  simp only [CapnpStruct.Ptr, CapnpStruct_pointers_SetUint64]

theorem CapnpStruct_Ptr_SetUint8 (p : CapnpStruct) (off v i : Nat) :
    (p.SetUint8 off v).Ptr i = p.Ptr i := by
  simp only [CapnpStruct.Ptr, CapnpStruct_pointers_SetUint8]

theorem CapnpStruct_Uint64_SetPtr (p : CapnpStruct) (i : Nat) (src : Option (List Nat))
    (off : Nat) : (p.SetPtr i src).Uint64 off = p.Uint64 off := by
  simp only [CapnpStruct.Uint64, CapnpStruct_data_SetPtr]

theorem CapnpStruct_Uint8_SetPtr (p : CapnpStruct) (i : Nat) (src : Option (List Nat))
    (off : Nat) : (p.SetPtr i src).Uint8 off = p.Uint8 off := by
  simp only [CapnpStruct.Uint8, CapnpStruct_data_SetPtr]

theorem CapnpStruct_SetText_eq (p : CapnpStruct) (i : Nat) (v : String) :
    ∃ src, p.SetText i v = p.SetPtr i src := by
  unfold CapnpStruct.SetText
  split
  · exact ⟨_, rfl⟩
  · exact ⟨_, rfl⟩

/-- The fields of a block after a pointer other than those of its fields' getters is set:
the scalar fields are those of before, and so is every pointer field at another index. -/
theorem TlogBlock_fields_SetPtr (p : CapnpStruct) (i : Nat) (src : Option (List Nat)) :
    schema.TlogBlock.fields { Struct := p.SetPtr i src } =
      { schema.TlogBlock.fields { Struct := p } with
        VdiskID := Except.ok ((p.SetPtr i src).Text 0)
        Hash := Except.ok ((p.SetPtr i src).Data 1)
        Data := Except.ok ((p.SetPtr i src).Data 2) } := by
  simp only [schema.TlogBlock.fields, schema.TlogBlock.VdiskID, schema.TlogBlock.Sequence,
    schema.TlogBlock.Lba, schema.TlogBlock.Size, schema.TlogBlock.Hash, schema.TlogBlock.Data,
    schema.TlogBlock.Timestamp, schema.TlogBlock.Operation, CapnpStruct_Uint64_SetPtr,
    CapnpStruct_Uint8_SetPtr]

/-- C24: on a block of the declared object size (40 data bytes and 3 pointers, the size
`NewTlogBlock` allocates), each setter followed by the getters gives the fields of before
with the field of that setter replaced by the value set, for every uint64 value of the
sequence, lba, size and timestamp, every value of the operation, every string as
vdiskID and all bytes as hash and data; the slots of the scalar fields are pairwise disjoint
and lie within the 40 data bytes, and the pointer fields have distinct indices below 3.
The allocation errors of the setters of the pointer fields are not part of the model. -/
theorem TlogBlock_setter_getter_frame (b : schema.TlogBlock) (id : String)
    (seq lba size ts op : Nat) (hash data : List Nat)
    (hdata : b.Struct.data.length = 40) (hptr : b.Struct.pointers.length = 3)
    (hseq : seq < 2 ^ 64) (hlba : lba < 2 ^ 64) (hsize : size < 2 ^ 64) (hts : ts < 2 ^ 64) :
    (b.SetVdiskID id).fields = { b.fields with VdiskID := Except.ok id } ∧
    (b.SetSequence seq).fields = { b.fields with Sequence := seq } ∧
    (b.SetLba lba).fields = { b.fields with Lba := lba } ∧
    (b.SetSize size).fields = { b.fields with Size := size } ∧
    (b.SetHash hash).fields = { b.fields with Hash := Except.ok hash } ∧
    (b.SetData data).fields = { b.fields with Data := Except.ok data } ∧
    (b.SetTimestamp ts).fields = { b.fields with Timestamp := ts } ∧
    (b.SetOperation op).fields = { b.fields with Operation := op } ∧
    schema.NewTlogBlock.Struct.data.length = 40 ∧
    schema.NewTlogBlock.Struct.pointers.length = 3 ∧
    tlogBlockDataSlots.Pairwise (fun x y => x.1 + x.2 ≤ y.1 ∨ y.1 + y.2 ≤ x.1) ∧
    (∀ x ∈ tlogBlockDataSlots, x.1 + x.2 ≤ 40) ∧
    tlogBlockPointerSlots.Nodup ∧ (∀ i ∈ tlogBlockPointerSlots, i < 3) := by
  obtain ⟨p⟩ := b
  simp only at hdata hptr
  have h64 : ∀ v, v < 2 ^ 64 → v % 2 ^ 64 = v := fun v hv => Nat.mod_eq_of_lt hv
  refine ⟨?_, ?_, ?_, ?_, ?_, ?_, ?_, ?_, by decide, by decide, by decide, by decide,
    by decide, by decide⟩
  · obtain ⟨src, hsrc⟩ := CapnpStruct_SetText_eq p 0 id
    have ht := CapnpStruct_Text_SetText p 0 id (by omega)
    simp only [schema.TlogBlock.SetVdiskID]
    rw [hsrc] at ht ⊢
    rw [TlogBlock_fields_SetPtr, ht]
    simp only [CapnpStruct.Data, CapnpStruct_Ptr_SetPtr_other p 0 1 src (by decide),
      CapnpStruct_Ptr_SetPtr_other p 0 2 src (by decide)]
    rfl
  · simp only [schema.TlogBlock.fields, schema.TlogBlock.VdiskID, schema.TlogBlock.Sequence,
      schema.TlogBlock.Lba, schema.TlogBlock.Size, schema.TlogBlock.Hash,
      schema.TlogBlock.Data, schema.TlogBlock.Timestamp, schema.TlogBlock.Operation,
      schema.TlogBlock.SetSequence, CapnpStruct.Text, CapnpStruct.Data,
      CapnpStruct_Ptr_SetUint64,
      CapnpStruct_Uint64_SetUint64 p 0 seq (by omega), h64 seq hseq,
      CapnpStruct_Uint64_SetUint64_other p 0 8 seq (by omega),
      CapnpStruct_Uint64_SetUint64_other p 0 16 seq (by omega),
      CapnpStruct_Uint64_SetUint64_other p 0 24 seq (by omega),
      CapnpStruct_Uint8_SetUint64_other p 0 32 seq (by omega)]
  · simp only [schema.TlogBlock.fields, schema.TlogBlock.VdiskID, schema.TlogBlock.Sequence,
      schema.TlogBlock.Lba, schema.TlogBlock.Size, schema.TlogBlock.Hash,
      schema.TlogBlock.Data, schema.TlogBlock.Timestamp, schema.TlogBlock.Operation,
      schema.TlogBlock.SetLba, CapnpStruct.Text, CapnpStruct.Data,
      CapnpStruct_Ptr_SetUint64,
      CapnpStruct_Uint64_SetUint64 p 8 lba (by omega), h64 lba hlba,
      CapnpStruct_Uint64_SetUint64_other p 8 0 lba (by omega),
      CapnpStruct_Uint64_SetUint64_other p 8 16 lba (by omega),
      CapnpStruct_Uint64_SetUint64_other p 8 24 lba (by omega),
      CapnpStruct_Uint8_SetUint64_other p 8 32 lba (by omega)]
  · simp only [schema.TlogBlock.fields, schema.TlogBlock.VdiskID, schema.TlogBlock.Sequence,
      schema.TlogBlock.Lba, schema.TlogBlock.Size, schema.TlogBlock.Hash,
      schema.TlogBlock.Data, schema.TlogBlock.Timestamp, schema.TlogBlock.Operation,
      schema.TlogBlock.SetSize, CapnpStruct.Text, CapnpStruct.Data,
      CapnpStruct_Ptr_SetUint64,
      CapnpStruct_Uint64_SetUint64 p 16 size (by omega), h64 size hsize,
      CapnpStruct_Uint64_SetUint64_other p 16 0 size (by omega),
      CapnpStruct_Uint64_SetUint64_other p 16 8 size (by omega),
      CapnpStruct_Uint64_SetUint64_other p 16 24 size (by omega),
      CapnpStruct_Uint8_SetUint64_other p 16 32 size (by omega)]
  · have hd := CapnpStruct_Data_SetData p 1 hash (by omega)
    simp only [schema.TlogBlock.SetHash]
    simp only [CapnpStruct.SetData] at hd ⊢
    rw [TlogBlock_fields_SetPtr, hd]
    simp only [CapnpStruct.Data, CapnpStruct.Text,
      CapnpStruct_Ptr_SetPtr_other p 1 0 _ (by decide),
      CapnpStruct_Ptr_SetPtr_other p 1 2 _ (by decide)]
    rfl
  · have hd := CapnpStruct_Data_SetData p 2 data (by omega)
    simp only [schema.TlogBlock.SetData]
    simp only [CapnpStruct.SetData] at hd ⊢
    rw [TlogBlock_fields_SetPtr, hd]
    simp only [CapnpStruct.Data, CapnpStruct.Text,
      CapnpStruct_Ptr_SetPtr_other p 2 0 _ (by decide),
      CapnpStruct_Ptr_SetPtr_other p 2 1 _ (by decide)]
    rfl
  · simp only [schema.TlogBlock.fields, schema.TlogBlock.VdiskID, schema.TlogBlock.Sequence,
      schema.TlogBlock.Lba, schema.TlogBlock.Size, schema.TlogBlock.Hash,
      schema.TlogBlock.Data, schema.TlogBlock.Timestamp, schema.TlogBlock.Operation,
      schema.TlogBlock.SetTimestamp, CapnpStruct.Text, CapnpStruct.Data,
      CapnpStruct_Ptr_SetUint64,
      CapnpStruct_Uint64_SetUint64 p 24 ts (by omega), h64 ts hts,
      CapnpStruct_Uint64_SetUint64_other p 24 0 ts (by omega),
      CapnpStruct_Uint64_SetUint64_other p 24 8 ts (by omega),
      CapnpStruct_Uint64_SetUint64_other p 24 16 ts (by omega),
      CapnpStruct_Uint8_SetUint64_other p 24 32 ts (by omega)]
  · simp only [schema.TlogBlock.fields, schema.TlogBlock.VdiskID, schema.TlogBlock.Sequence,
      schema.TlogBlock.Lba, schema.TlogBlock.Size, schema.TlogBlock.Hash,
      schema.TlogBlock.Data, schema.TlogBlock.Timestamp, schema.TlogBlock.Operation,
      schema.TlogBlock.SetOperation, CapnpStruct.Text, CapnpStruct.Data,
      CapnpStruct_Ptr_SetUint8,
      CapnpStruct_Uint8_SetUint8 p 32 op (by omega),
      CapnpStruct_Uint64_SetUint8_other p 32 0 op (by omega),
      CapnpStruct_Uint64_SetUint8_other p 32 8 op (by omega),
      CapnpStruct_Uint64_SetUint8_other p 32 16 op (by omega),
      CapnpStruct_Uint64_SetUint8_other p 32 24 op (by omega)]

/-- Witness of C24: the setters on the sample block, which has every field set. -/
theorem TlogBlock_setter_getter_frame_witness :
    (sampleTlogBlock.SetLba 77).fields = { sampleTlogBlock.fields with Lba := 77 } ∧
    (sampleTlogBlock.SetOperation 255).fields =
      { sampleTlogBlock.fields with Operation := 255 } ∧
    (sampleTlogBlock.SetVdiskID "").fields =
      { sampleTlogBlock.fields with VdiskID := Except.ok "" } :=
  have h := TlogBlock_setter_getter_frame sampleTlogBlock "" 0 77 0 0 255 [] []
    (by decide) (by decide) (by decide) (by decide) (by decide) (by decide)
  ⟨h.2.2.1, h.2.2.2.2.2.2.2.1, h.1⟩

/-- Supporting C24: every setter keeps the size of the block, so the setters can follow one
another. -/
theorem TlogBlock_setters_keep_size (b : schema.TlogBlock) (id : String) (v : Nat)
    (bytes : List Nat) :
    ∀ c ∈ [b.SetVdiskID id, b.SetSequence v, b.SetLba v, b.SetSize v, b.SetHash bytes,
        b.SetData bytes, b.SetTimestamp v, b.SetOperation v],
      c.Struct.data.length = b.Struct.data.length ∧
      c.Struct.pointers.length = b.Struct.pointers.length := by
  have hu64 : ∀ off, ((b.Struct.SetUint64 off v).data.length = b.Struct.data.length ∧
      (b.Struct.SetUint64 off v).pointers.length = b.Struct.pointers.length) := by
    intro off
    unfold CapnpStruct.SetUint64
    split
    · exact ⟨writeBytes_length _ _ _, rfl⟩
    · exact ⟨rfl, rfl⟩
  have hptr : ∀ i src, ((b.Struct.SetPtr i src).data.length = b.Struct.data.length ∧
      (b.Struct.SetPtr i src).pointers.length = b.Struct.pointers.length) := by
    intro i src
    unfold CapnpStruct.SetPtr
    split
    · exact ⟨rfl, List.length_set _ _ _⟩
    · exact ⟨rfl, rfl⟩
  have hu8 : ((b.Struct.SetUint8 32 v).data.length = b.Struct.data.length ∧
      (b.Struct.SetUint8 32 v).pointers.length = b.Struct.pointers.length) := by
    unfold CapnpStruct.SetUint8
    split
    · exact ⟨List.length_set _ _ _, rfl⟩
    · exact ⟨rfl, rfl⟩
  have htext : ((b.Struct.SetText 0 id).data.length = b.Struct.data.length ∧
      (b.Struct.SetText 0 id).pointers.length = b.Struct.pointers.length) := by
    obtain ⟨src, hsrc⟩ := CapnpStruct_SetText_eq b.Struct 0 id
    rw [hsrc]
    exact hptr 0 src
  intro c hc
  simp only [List.mem_cons, List.mem_singleton, List.not_mem_nil, or_false] at hc
  rcases hc with h | h | h | h | h | h | h | h <;> subst h
  · exact htext
  · exact hu64 0
  · exact hu64 8
  · exact hu64 16
  · exact hptr 1 _
  · exact hptr 2 _
  · exact hu64 24
  · exact hu8

/-- Supporting C24: the fields of the sample block, and the largest uint64 as its sequence. -/
theorem TlogBlock_sample_fields :
    sampleTlogBlock.fields =
      { VdiskID := Except.ok "myvdisk", Sequence := 7, Lba := 1024, Size := 4096,
        Hash := Except.ok [6], Data := Except.ok [1, 2, 3],
        Timestamp := 1500000000000000000, Operation := 2 } ∧
    (sampleTlogBlock.SetSequence (2 ^ 64 - 1)).fields =
      { sampleTlogBlock.fields with Sequence := 2 ^ 64 - 1 } := by
  decide

end Blockstor
